import Mathlib

set_option maxRecDepth 100000

/-!
Verification of the `oc` MDL ⇄ OC translator against its natural-language
specification.  All definitions below are shallow embeddings of the C++
sources under `src/tools`; strings are modelled as `List Char`, the
`double` values flowing through the code paths under study are modelled as
exact decimal numbers, and C++ code that can throw (`std::stoi`,
`std::stod` outside a `try` block) is modelled with `Except`/`Option`.
-/

namespace OC

/-- Strings of the C++ sources are modelled as lists of characters. -/
abbrev Str := List Char

/-- Conversion helper from Lean string literals to the `Str` model. -/
def str (s : String) : Str := s.toList

/-- Character class used by `std::isspace` in the default locale (the
    subset that actually occurs in the sources). -/
def isSpaceChar (c : Char) : Bool :=
  c = ' ' || c = '\t' || c = '\n' || c = '\r' || c = '\x0b' || c = '\x0c'

/-- Model of `std::isdigit`. -/
def isDigitChar (c : Char) : Bool := '0' ≤ c && c ≤ '9'

/-- Model of `std::isalpha` (ASCII). -/
def isAlphaChar (c : Char) : Bool := ('a' ≤ c && c ≤ 'z') || ('A' ≤ c && c ≤ 'Z')

/-- Model of `std::isalnum` (ASCII). -/
def isAlnumChar (c : Char) : Bool := isAlphaChar c || isDigitChar c

/-- Occurrence of `needle` at position `i` of `hay`
    (`needle` is a prefix of the suffix of `hay` starting at `i`). -/
def occursAt (needle hay : Str) (i : Nat) : Prop := needle <+: hay.drop i

instance (needle hay : Str) (i : Nat) : Decidable (occursAt needle hay i) := by
  unfold occursAt; infer_instance

/-- Model of `starts_with` (structurally recursive on the needle, so that
    it evaluates whenever the needle and the matching lead of the haystack
    are concrete). -/
def startsWith : Str → Str → Bool
  | [], _ => true
  | p :: ps, s =>
      match s with
      | [] => false
      | c :: cs => p == c && startsWith ps cs

/-- Model of `std::string::find(needle)`: index of the leftmost occurrence,
    `none` for `npos`. -/
def findSub (needle : Str) : Str → Option Nat
  | [] => if needle = [] then some 0 else none
  | c :: rest =>
      if startsWith needle (c :: rest) then some 0
      else (findSub needle rest).map (· + 1)

/-- Model of `std::string::find(c)` for a single character. -/
def findChr (c : Char) (s : Str) : Option Nat := findSub [c] s

/-- Containment of a substring (`find(...) != npos`). -/
def containsSub (needle hay : Str) : Bool := (findSub needle hay).isSome

/-- Model of `ends_with`. -/
def endsWith (suf s : Str) : Bool := suf.isSuffixOf s

/-- Find the first index whose character fails `p`
    (model of `find_first_not_of` over a character class). -/
def findFirstNot (p : Char → Bool) : Str → Option Nat
  | [] => none
  | c :: rest =>
      if p c then (findFirstNot p rest).map (· + 1) else some 0

/-- Drop the longest prefix of characters satisfying `p`. -/
def dropWhileCh (p : Char → Bool) : Str → Str
  | [] => []
  | c :: rest => if p c then dropWhileCh p rest else c :: rest

/-- Drop the longest suffix of characters satisfying `p`. -/
def dropTrailing (p : Char → Bool) (s : Str) : Str :=
  (dropWhileCh p s.reverse).reverse

/-- The `" \t\r\n"` character class of the `trim` helpers. -/
def isTrimWs (c : Char) : Bool := c = ' ' || c = '\t' || c = '\r' || c = '\n'

/-- Model of the `trim` helper of `block_diagram_generator`
    (`find_first_not_of(" \t\r\n")` / `find_last_not_of`). -/
def trimStr (s : Str) : Str :=
  dropTrailing isTrimWs (dropWhileCh isTrimWs s)

/-- Natural number rendered in decimal (model of `std::to_string`). -/
def natToStr (n : Nat) : Str := Nat.toDigits 10 n

/-- Integer rendered in decimal (model of `std::to_string`). -/
def intToStr (n : Int) : Str :=
  if n < 0 then '-' :: natToStr n.natAbs else natToStr n.natAbs

/-- Digit value of a character. -/
def digitVal (c : Char) : Nat := c.toNat - '0'.toNat

/-- Value of a digit run, most significant first (accumulator form). -/
def digitsVal (acc : Nat) : Str → Nat
  | [] => acc
  | c :: rest => digitsVal (acc * 10 + digitVal c) rest

/-! ### Integer parsing: model of `std::stoi` and endpoints (oc_mdl.hpp) -/
/-- Leading digit run. -/
def leadingDigits (s : Str) : Str := s.takeWhile isDigitChar

/-- Model of `std::stoi`: skip whitespace, optional sign, then a mandatory
    digit run (its absence throws `std::invalid_argument`, modelled as
    `none`); trailing characters are ignored. -/
def stoiOpt (s : Str) : Option Int :=
  let s1 := dropWhileCh isSpaceChar s
  match s1 with
  | '-' :: rest =>
      if leadingDigits rest = [] then none
      else some (-(digitsVal 0 (leadingDigits rest) : Int))
  | '+' :: rest =>
      if leadingDigits rest = [] then none
      else some ((digitsVal 0 (leadingDigits rest) : Int))
  | s2 =>
      if leadingDigits s2 = [] then none
      else some ((digitsVal 0 (leadingDigits s2) : Int))

/-! ### Decimal numbers: model of the `double` values in these code paths

Every `double` that flows through the transfer-function pipeline originates
from decimal text (`std::stod` of MDL parameters or of fixed-point literals
emitted by the code generator) and is re-rendered as decimal text.  These
values are exact decimal fractions, modelled as `m / 10^e`. -/
structure Dec where
  m : Int
  e : Nat
deriving DecidableEq

/-- Two decimal representations denote the same number. -/
def Dec.eqv (a b : Dec) : Prop := a.m * (10 : Int) ^ b.e = b.m * (10 : Int) ^ a.e

instance (a b : Dec) : Decidable (Dec.eqv a b) := by unfold Dec.eqv; infer_instance

/-- Model of `x != 0.0` on the decimal values. -/
def Dec.nonzero (a : Dec) : Bool := a.m ≠ 0

def Dec.ofInt (n : Int) : Dec := ⟨n, 0⟩

/-- Exponent part of `strtod`: consumed only when a full `e[+-]digits`
    form follows the mantissa. -/
def expPart (s : Str) : Option (Int × Str) :=
  match s with
  | [] => none
  | c :: rest =>
      if c = 'e' ∨ c = 'E' then
        match rest with
        | '-' :: r2 =>
            let ds := r2.takeWhile isDigitChar
            if ds = [] then none
            else some (-(digitsVal 0 ds : Int), r2.dropWhile isDigitChar)
        | '+' :: r2 =>
            let ds := r2.takeWhile isDigitChar
            if ds = [] then none
            else some ((digitsVal 0 ds : Int), r2.dropWhile isDigitChar)
        | r2 =>
            let ds := r2.takeWhile isDigitChar
            if ds = [] then none
            else some ((digitsVal 0 ds : Int), r2.dropWhile isDigitChar)
      else none

def applyExp (d : Dec) (s : Str) : Dec × Str :=
  match expPart s with
  | none => (d, s)
  | some (x, rest) =>
      if 0 ≤ x then (⟨d.m * 10 ^ x.toNat, d.e⟩, rest)
      else (⟨d.m, d.e + x.natAbs⟩, rest)

/-- Mantissa of `strtod` after the optional sign: `digits[.digits]`,
    failing without at least one digit. -/
def stodCore (s : Str) : Option (Dec × Str) :=
  let ip := s.takeWhile isDigitChar
  let r1 := s.dropWhile isDigitChar
  match r1 with
  | '.' :: r2 =>
      let fp := r2.takeWhile isDigitChar
      let r3 := r2.dropWhile isDigitChar
      if ip = [] ∧ fp = [] then none
      else some (applyExp ⟨(digitsVal 0 (ip ++ fp) : Int), fp.length⟩ r3)
  | _ =>
      if ip = [] then none
      else some (applyExp ⟨(digitsVal 0 ip : Int), 0⟩ r1)

/-- Model of `strtod`/stream extraction of one `double`: skips whitespace,
    parses an optional sign and a decimal mantissa with optional exponent,
    and returns the rest of the input; `none` models a failed conversion
    (for `std::stod` an exception). -/
def stodD (s : Str) : Option (Dec × Str) :=
  let s1 := dropWhileCh isSpaceChar s
  match s1 with
  | '-' :: r => (stodCore r).map (fun p => (⟨-p.1.m, p.1.e⟩, p.2))
  | '+' :: r => stodCore r
  | _ => stodCore s1

/-- Result of `std::stod` alone (ignoring the end pointer). -/
def stodOpt (s : Str) : Option Dec := (stodD s).map (·.1)

/-- Model of the `while (iss >> val)` extraction loop over doubles. -/
def parseDoublesF : Nat → Str → List Dec
  | 0, _ => []
  | fuel + 1, s =>
      match stodD s with
      | none => []
      | some (d, rest) => d :: parseDoublesF fuel rest

def parseDoubles (s : Str) : List Dec := parseDoublesF s.length s

/-- Model of the `while (iss >> val)` extraction loop over ints
    (used by `parse_int_array`). -/
def parseIntsF : Nat → Str → List Int
  | 0, _ => []
  | fuel + 1, s =>
      let s1 := dropWhileCh isSpaceChar s
      match s1 with
      | '-' :: r =>
          let ds := r.takeWhile isDigitChar
          if ds = [] then []
          else (-(digitsVal 0 ds : Int)) :: parseIntsF fuel (r.dropWhile isDigitChar)
      | '+' :: r =>
          let ds := r.takeWhile isDigitChar
          if ds = [] then []
          else ((digitsVal 0 ds : Int)) :: parseIntsF fuel (r.dropWhile isDigitChar)
      | s2 =>
          let ds := s2.takeWhile isDigitChar
          if ds = [] then []
          else ((digitsVal 0 ds : Int)) :: parseIntsF fuel (s2.dropWhile isDigitChar)

def parseInts (s : Str) : List Int := parseIntsF s.length s

/-! ### Decimal formatting: models of iostream output -/
/-- Division rounded half to even (the rounding of iostream output). -/
def roundDivHE (n : Int) (d : Int) : Int :=
  let q := n.ediv d
  let r := n.emod d
  if 2 * r < d then q
  else if 2 * r > d then q + 1
  else if q % 2 = 0 then q else q + 1

/-- Pad a digit string on the left with zeros to width `k`. -/
def padZeros (k : Nat) (s : Str) : Str := List.replicate (k - s.length) '0' ++ s

/-- Model of `std::fixed << std::setprecision(6)` formatting
    (the `format_float` helper of oc_codegen.hpp uses this). -/
def fmt6 (x : Dec) : Str :=
  let n0 : Nat :=
    if x.e ≤ 6 then x.m.natAbs * 10 ^ (6 - x.e)
    else (roundDivHE (x.m.natAbs : Int) ((10 : Int) ^ (x.e - 6))).toNat
  (if x.m < 0 then ['-'] else []) ++
    natToStr (n0 / 1000000) ++ ['.'] ++ padZeros 6 (natToStr (n0 % 1000000))

/-- Model of `format_float` (oc_codegen.hpp): fixed 6-digit value with an
    `f` suffix. -/
def formatFloat (x : Dec) : Str := fmt6 x ++ ['f']

/-- Strip trailing zero digits. -/
def stripZeros (s : Str) : Str := dropTrailing (fun c => c = '0') s

/-- Fixed-notation rendering of a 6-significant-digit mantissa
    (`10^5 ≤ mant < 10^6`) at decimal exponent `ex`, `-4 ≤ ex < 6`. -/
def fixedRender (mant : Nat) (ex : Int) : Str :=
  if 5 ≤ ex then natToStr (mant * 10 ^ (ex.toNat - 5))
  else if 0 ≤ ex then
    let shift : Nat := 5 - ex.toNat
    let ip := mant / 10 ^ shift
    let fp := stripZeros (padZeros shift (natToStr (mant % 10 ^ shift)))
    if fp = [] then natToStr ip else natToStr ip ++ ['.'] ++ fp
  else
    let fp := stripZeros (List.replicate (ex.natAbs - 1) '0' ++ natToStr mant)
    str "0." ++ fp

/-- Scientific-notation rendering of a 6-significant-digit mantissa. -/
def sciRender (mant : Nat) (ex : Int) : Str :=
  let d1 := mant / 100000
  let rest := stripZeros (padZeros 5 (natToStr (mant % 100000)))
  (if rest = [] then natToStr d1 else natToStr d1 ++ ['.'] ++ rest) ++
    ['e'] ++ (if ex < 0 then ['-'] else ['+']) ++ padZeros 2 (natToStr ex.natAbs)

/-- Model of default `operator<<` on a `double` (precision 6), used by the
    reverse lifter's `format_coeff`. -/
def fmtG (x : Dec) : Str :=
  if x.m = 0 then ['0']
  else
    let n := x.m.natAbs
    let dd := (natToStr n).length
    let ex0 : Int := (dd : Int) - 1 - (x.e : Int)
    let mant0 : Nat :=
      if dd ≤ 6 then n * 10 ^ (6 - dd)
      else (roundDivHE (n : Int) ((10 : Int) ^ (dd - 6))).toNat
    let mant := if mant0 = 1000000 then 100000 else mant0
    let ex := if mant0 = 1000000 then ex0 + 1 else ex0
    let sgn : Str := if x.m < 0 then ['-'] else []
    if -4 ≤ ex ∧ ex < 6 then sgn ++ fixedRender mant ex
    else sgn ++ sciRender mant ex

/-- Endpoint type of `oc::mdl` (`endpoint` in oc_mdl.hpp). -/
structure Endpoint where
  blockSid : Str
  portType : Str
  portIndex : Int
deriving DecidableEq

/-- Model of `endpoint::parse` (oc_mdl.hpp lines 289–301).  The `Except`
    layer models the uncaught `std::stoi` exception: `.error` means the
    call throws, `.ok none` is the recoverable `std::nullopt` failure. -/
def endpointParse (spec : Str) : Except Unit (Option Endpoint) :=
  match findChr '#' spec with
  | none => .ok none
  | some hashPos =>
      match (findChr ':' (spec.drop hashPos)).map (· + hashPos) with
      | none => .ok none
      | some colonPos =>
          match stoiOpt (spec.drop (colonPos + 1)) with
          | none => .error ()
          | some idx =>
              .ok (some { blockSid := spec.take hashPos
                          portType := (spec.drop (hashPos + 1)).take (colonPos - hashPos - 1)
                          portIndex := idx })

/-! ### Sorted association lists: model of `std::map<std::string, _>` -/
/-- Lexicographic comparison of strings (model of `std::string::operator<`,
    byte order; identical to code-point order for the ASCII data here). -/
def strLt : Str → Str → Bool
  | [], [] => false
  | [], _ :: _ => true
  | _ :: _, [] => false
  | c :: cs, d :: ds => if c < d then true else if d < c then false else strLt cs ds

/-- Insertion into a sorted association list, overwriting an equal key
    (model of `map[k] = v`). -/
def alInsert {α : Type} (k : Str) (v : α) : List (Str × α) → List (Str × α)
  | [] => [(k, v)]
  | (k', v') :: rest =>
      if strLt k k' then (k, v) :: (k', v') :: rest
      else if strLt k' k then (k', v') :: alInsert k v rest
      else (k', v) :: rest

/-- Lookup (model of `map::find` / `map::count`). -/
def alLookup {α : Type} (k : Str) : List (Str × α) → Option α
  | [] => none
  | (k', v) :: rest => if k = k' then some v else alLookup k rest

/-- Membership test (model of `map::count(k) != 0`). -/
def alContains {α : Type} (k : Str) (m : List (Str × α)) : Bool :=
  (alLookup k m).isSome

/-- Insertion into a sorted string set (model of `std::set<std::string>`). -/
def ssInsert (k : Str) : List Str → List Str
  | [] => [k]
  | k' :: rest =>
      if strLt k k' then k :: k' :: rest
      else if strLt k' k then k' :: ssInsert k rest
      else k' :: rest

def ssContains (k : Str) (s : List Str) : Bool := s.contains k

/-- Erasure from a string set (model of `std::set::erase`). -/
def ssErase (k : Str) : List Str → List Str
  | [] => []
  | k' :: rest => if k = k' then rest else k' :: ssErase k rest

/-! ### OPC container: model of `opc_extractor` (oc_mdl.hpp) and the
     verbatim writer `mdl_writer::write_with_metadata` (mdl_writer.hpp) -/
/-- The part-begin marker including its trailing space, as searched for at
    the top of each `opc_extractor::load` iteration. -/
def markerSp : Str := str "__MWOPC_PART_BEGIN__ "

/-- The marker without the trailing space, as searched for to terminate a
    part body. -/
def markerNoSp : Str := str "__MWOPC_PART_BEGIN__"

/-- Trailing characters stripped from a part path. -/
def isPathWs (c : Char) : Bool := c = '\r' || c = ' '

/-- Trailing characters stripped from a part body. -/
def isBodyWs (c : Char) : Bool := c = '\n' || c = '\r' || c = ' '

/-- One iteration of the scanning loop of `opc_extractor::load`
    (oc_mdl.hpp lines 418–445): find the next part marker, read the path
    line, cut the body at the following marker, strip trailing whitespace
    from both, and return the remaining input (which resumes at the body,
    exactly as the C++ `pos` does).  `none` models both loop exit and the
    `break` on a missing newline. -/
def opcScanStep (content : Str) : Option ((Str × Str) × Str) :=
  match findSub markerSp content with
  | none => none
  | some i =>
      let afterMarker := content.drop (i + markerSp.length)
      match findChr '\n' afterMarker with
      | none => none
      | some pathEnd =>
          let partLine := afterMarker.take pathEnd
          let partPath0 :=
            match findChr ' ' partLine with
            | some spacePos => partLine.take spacePos
            | none => partLine
          let partPath := dropTrailing isPathWs partPath0
          let rest := afterMarker.drop (pathEnd + 1)
          let partContent0 :=
            match findSub markerNoSp rest with
            | some nextMarker => rest.take nextMarker
            | none => rest
          let partContent := dropTrailing isBodyWs partContent0
          some ((partPath, partContent), rest)

/-- Scanning loop of `opc_extractor::load`, returning `(path, body)` pairs
    in scan order.  `fuel` only bounds the iteration count;
    `content.length` always suffices because every iteration consumes at
    least the marker it found. -/
def opcScanF : Nat → Str → List (Str × Str)
  | 0, _ => []
  | fuel + 1, content =>
      match opcScanStep content with
      | none => []
      | some (pr, rest) => pr :: opcScanF fuel rest

/-- The extractor's part map after `load` (keyed and ordered as the
    `std::map` member `parts_`). -/
def opcLoadParts (content : Str) : List (Str × Str) :=
  (opcScanF content.length content).foldl (fun m p => alInsert p.1 p.2 m) []

structure OpcExtractor where
  parts : List (Str × Str)
deriving DecidableEq

/-- Model of `opc_extractor::load` restricted to the in-memory content
    (the file read itself is outside the embedding). -/
def opcLoad (content : Str) : OpcExtractor := ⟨opcLoadParts content⟩

def OpcExtractor.getPart (o : OpcExtractor) (p : Str) : Option Str :=
  alLookup p o.parts

def OpcExtractor.listParts (o : OpcExtractor) : List Str := o.parts.map (·.1)

def OpcExtractor.listSystems (o : OpcExtractor) : List Str :=
  (o.parts.map (·.1)).filter fun p =>
    containsSub (str "/simulink/systems/system_") p &&
    !containsSub (str ".xml.rels") p && endsWith (str ".xml") p

/-- The slice of the sidecar metadata that `write_with_metadata` reads:
    the ordered part list and the raw part map.  The remaining fields of
    `oc::metadata::metadata` (model identity, per-system records) never
    influence the bytes `write_with_metadata` produces. -/
structure Metadata where
  partOrder : List Str
  rawParts : List (Str × Str)
deriving DecidableEq

/-- Model of `metadata_writer::build_metadata` restricted to the fields
    above (metadata_writer.hpp lines 35–41). -/
def buildMetadata (opc : OpcExtractor) : Metadata :=
  { partOrder := opc.listParts
    rawParts := opc.listParts.foldl
      (fun m p =>
        match opc.getPart p with
        | some c => alInsert p c m
        | none => m) [] }

/-- Model of `mdl_writer::write_part` (mdl_writer.hpp lines 134–142). -/
def writePart (path content : Str) : Str :=
  let isB64 := endsWith (str ".mxarray") path
  markerSp ++ path ++ (if isB64 then str " BASE64" else []) ++ ['\n'] ++
    content ++ ['\n'] ++ (if isB64 then [] else ['\n'])

/-- The fixed header emitted by `write_with_metadata`. -/
def canonicalHeader : Str :=
  str "# MathWorks OPC Text Package\nModel \x7b\n  Version  24.2\n  Description \"Simulink model saved in R2024b\"\n\x7d\n__MWOPC_PACKAGE_BEGIN__ R2024b\n"

/-- Model of `mdl_writer::write_with_metadata` (mdl_writer.hpp lines
    30–56). -/
def writeWithMetadata (meta : Metadata) : Str :=
  canonicalHeader ++
    (if meta.partOrder ≠ [] then
       meta.partOrder.foldl
         (fun acc path =>
           match alLookup path meta.rawParts with
           | some c => acc ++ writePart path c
           | none => acc) []
     else meta.rawParts.foldl (fun acc p => acc ++ writePart p.1 p.2) [])

/-- Emission of a list of parts, block by block (the value of the
    `part_order` fold when every path is present in the raw-part map). -/
def partsBlocks : List (Str × Str) → Str
  | [] => []
  | p :: rest => writePart p.1 p.2 ++ partsBlocks rest

/-- Well-formedness of a raw part for the scanner: non-empty path free of
    newline, space and carriage return; body free of the part marker. -/
def partRawOkB (p : Str × Str) : Bool :=
  !p.1.isEmpty &&
  p.1.all (fun c => !(c = '\n' || c = ' ' || c = '\r')) &&
  !containsSub markerNoSp p.2

/-- Canonical-form condition for a single part: raw well-formedness plus a
    body free of trailing whitespace. -/
def partOkB (p : Str × Str) : Bool :=
  partRawOkB p && decide (dropTrailing isBodyWs p.2 = p.2)

/-- Boolean check that a list of paths is strictly increasing. -/
def pathsSortedB : List Str → Bool
  | [] => true
  | [_] => true
  | a :: b :: rest => strLt a b && pathsSortedB (b :: rest)

/-- Canonical-form condition for a part list: each part canonical and the
    paths strictly sorted (hence distinct), as `std::map` iteration
    produces them. -/
def canonicalPartsB (ps : List (Str × Str)) : Bool :=
  ps.all partOkB && pathsSortedB (ps.map (·.1))

/-- The full MDL → OC → MDL pipeline on the container bytes: extraction,
    sidecar construction, and verbatim re-emission. -/
def mdlRoundTrip (content : Str) : Str :=
  writeWithMetadata (buildMetadata (opcLoad content))

/-- A part list whose bodies carry extra trailing padding (the `k`-th part
    padded with the `k`-th pad string): a container differing from the
    original only in trailing whitespace. -/
def padList : List (Str × Str) → List Str → List (Str × Str)
  | [], _ => []
  | p :: rest, pads => (p.1, p.2 ++ pads.headD []) :: padList rest pads.tail

/-! ### XML document model (oc_mdl.hpp, namespace `xml`)

Parsed XML is modelled as the `xml::element` tree; the parser that produces
it from text is outside the code paths under study (the claims start from a
parsed element). -/
/-- Model of `xml::element`: tag, attributes, text, children. -/
inductive XmlElement where
  | mk : Str → List (Str × Str) → Str → List XmlElement → XmlElement

def XmlElement.tag : XmlElement → Str
  | .mk t _ _ _ => t

def XmlElement.attributes : XmlElement → List (Str × Str)
  | .mk _ a _ _ => a

def XmlElement.text : XmlElement → Str
  | .mk _ _ t _ => t

def XmlElement.children : XmlElement → List XmlElement
  | .mk _ _ _ c => c

mutual

def XmlElement.decEq : (a b : XmlElement) → Decidable (a = b)
  | .mk t1 a1 x1 c1, .mk t2 a2 x2 c2 =>
      if h1 : t1 = t2 then
        if h2 : a1 = a2 then
          if h3 : x1 = x2 then
            match XmlElement.decEqList c1 c2 with
            | isTrue h4 => isTrue (by rw [h1, h2, h3, h4])
            | isFalse h4 => isFalse (fun hh => by injection hh; contradiction)
          else isFalse (fun hh => by injection hh; contradiction)
        else isFalse (fun hh => by injection hh; contradiction)
      else isFalse (fun hh => by injection hh; contradiction)

def XmlElement.decEqList : (a b : List XmlElement) → Decidable (a = b)
  | [], [] => isTrue rfl
  | [], _ :: _ => isFalse (by simp)
  | _ :: _, [] => isFalse (by simp)
  | x :: xs, y :: ys =>
      match XmlElement.decEq x y, XmlElement.decEqList xs ys with
      | isTrue h1, isTrue h2 => isTrue (by rw [h1, h2])
      | isFalse h1, _ => isFalse (fun hh => by injection hh; contradiction)
      | _, isFalse h2 => isFalse (fun hh => by injection hh; contradiction)

end

instance : DecidableEq XmlElement := XmlElement.decEq

/-- Model of `xml::element::attr`: first matching attribute, else `""`. -/
def XmlElement.attr (e : XmlElement) (name : Str) : Str :=
  match e.attributes.find? (fun a => decide (a.1 = name)) with
  | some a => a.2
  | none => []

/-- Model of `xml::element::child`: first child with the tag, else null. -/
def XmlElement.child (e : XmlElement) (tagName : Str) : Option XmlElement :=
  e.children.find? (fun c => decide (c.tag = tagName))

/-- Model of `xml::element::children_by_tag`. -/
def XmlElement.childrenByTag (e : XmlElement) (tagName : Str) : List XmlElement :=
  e.children.filter (fun c => decide (c.tag = tagName))

/-- Scanning loop of `xml::decode_entities`; the fuel only bounds the
    iteration count (the input length always suffices, every step consumes
    at least one character). -/
def decodeEntitiesF : Nat → Str → Str
  | 0, s => s
  | _ + 1, [] => []
  | fuel + 1, '&' :: rest =>
      if startsWith (str "lt;") rest then '<' :: decodeEntitiesF fuel (rest.drop 3)
      else if startsWith (str "gt;") rest then '>' :: decodeEntitiesF fuel (rest.drop 3)
      else if startsWith (str "amp;") rest then '&' :: decodeEntitiesF fuel (rest.drop 4)
      else if startsWith (str "quot;") rest then '"' :: decodeEntitiesF fuel (rest.drop 5)
      else if startsWith (str "apos;") rest then '\'' :: decodeEntitiesF fuel (rest.drop 5)
      else '&' :: decodeEntitiesF fuel rest
  | fuel + 1, c :: rest => c :: decodeEntitiesF fuel rest

/-- Model of `xml::decode_entities` (oc_mdl.hpp lines 206–223). -/
def decode_entities (s : Str) : Str := decodeEntitiesF s.length s

/-- Model of `std::stoi` where the exception escapes (`Except.error`). -/
def stoiE (s : Str) : Except Unit Int :=
  match stoiOpt s with
  | some n => .ok n
  | none => .error ()

instance {ε α : Type} [DecidableEq ε] [DecidableEq α] : DecidableEq (Except ε α) :=
  fun x y =>
    match x, y with
    | .error a, .error b =>
        if h : a = b then isTrue (by rw [h])
        else isFalse (fun hh => by injection hh; contradiction)
    | .ok a, .ok b =>
        if h : a = b then isTrue (by rw [h])
        else isFalse (fun hh => by injection hh; contradiction)
    | .error _, .ok _ => isFalse (fun hh => by injection hh)
    | .ok _, .error _ => isFalse (fun hh => by injection hh)

/-! ### MDL in-memory model (oc_mdl.hpp structs) -/
/-- Model of `mdl::mask_parameter`. -/
structure MaskParameter where
  name : Str := []
  type : Str := []
  prompt : Str := []
  value : Str := []
deriving DecidableEq

/-- Model of `mdl::port_info`. -/
structure PortInfo where
  index : Int := 0
  name : Str := []
  port_type : Str := []
  propagated_signals : Str := []
deriving DecidableEq

/-- Model of `mdl::block`, with the member-initializer defaults of the
    source (`port_in = 1`, `port_out = 1`, `zorder = 0`); `parameters` is
    the sorted `std::map`. -/
structure Block where
  type : Str := []
  name : Str := []
  sid : Str := []
  position : List Int := []
  zorder : Int := 0
  port_in : Int := 1
  port_out : Int := 1
  parameters : List (Str × Str) := []
  mask_parameters : List MaskParameter := []
  input_ports : List PortInfo := []
  output_ports : List PortInfo := []
  subsystem_ref : Str := []
deriving DecidableEq

def Block.is_inport (b : Block) : Bool := decide (b.type = str "Inport")

def Block.is_outport (b : Block) : Bool := decide (b.type = str "Outport")

def Block.is_subsystem (b : Block) : Bool := decide (b.type = str "SubSystem")

/-- Model of `block::param`. -/
def Block.param (b : Block) (key : Str) : Option Str := alLookup key b.parameters

/-- Model of `block::mask_param`. -/
def Block.mask_param (b : Block) (key : Str) : Option Str :=
  (b.mask_parameters.find? (fun mp => decide (mp.name = key))).map (·.value)

/-- Model of `mdl::branch` restricted to the fields the code paths under
    study read (`zorder` and `points` are copied around but never influence
    the studied outputs). -/
structure Branch where
  destination : Str := []
deriving DecidableEq

/-- Model of `mdl::connection` restricted to the fields the code paths
    under study read. -/
structure Connection where
  source : Str := []
  destination : Str := []
  branches : List Branch := []
deriving DecidableEq

/-- Model of `mdl::system` restricted to the fields the code paths under
    study read (`blocks` and `connections`). -/
structure System where
  blocks : List Block := []
  connections : List Connection := []
deriving DecidableEq

/-- Model of `system::inports`. -/
def System.inports (s : System) : List Block := s.blocks.filter (fun b => b.is_inport)

/-- Model of `system::outports`. -/
def System.outports (s : System) : List Block := s.blocks.filter (fun b => b.is_outport)

/-- Model of `system::find_block_by_sid` (first match, null as `none`). -/
def System.find_block_by_sid (s : System) (sid : Str) : Option Block :=
  s.blocks.find? (fun b => decide (b.sid = sid))

/-- Model of `mdl::model` restricted to the `systems` map. -/
structure Model where
  systems : List (Str × System) := []
deriving DecidableEq

/-- Model of `model::get_system`. -/
def Model.get_system (m : Model) (id : Str) : Option System := alLookup id m.systems

/-- Model of `system_parser::parse_int_array`. -/
def parse_int_array (s : Str) : List Int :=
  let cleaned := (s.filter (fun c => !(c == '[' || c == ']'))).map
    (fun c => if c == ',' || c == ';' then ' ' else c)
  parseInts cleaned

/-- The `<P>`-child step of `parse_block` (the body of the loop at
    oc_mdl.hpp lines 534–544): record the parameter, and interpret
    `Position` and `ZOrder` (whose `std::stoi` can throw). -/
def parseBlockP (b : Block) (p : XmlElement) : Except Unit Block :=
  let name := p.attr (str "Name")
  let value := decode_entities p.text
  let b := { b with parameters := alInsert name value b.parameters }
  if name = str "Position" then
    pure { b with position := parse_int_array value }
  else if name = str "ZOrder" then
    match stoiE value with
    | .error e => .error e
    | .ok z => pure { b with zorder := z }
  else pure b

/-- The `<Port>`-child step of `parse_block` (the body of the loop at
    oc_mdl.hpp lines 568–588). -/
def parseBlockPort (b : Block) (port : XmlElement) : Except Unit Block :=
  let idx_str := port.attr (str "Index")
  match (if !idx_str.isEmpty then stoiE idx_str else pure (0 : Int)) with
  | .error e => .error e
  | .ok idx =>
      let pinfo : PortInfo := { index := idx, port_type := port.attr (str "Type") }
      let pinfo := (port.childrenByTag (str "P")).foldl (fun pinfo p =>
          if p.attr (str "Name") = str "Name" then { pinfo with name := p.text }
          else if p.attr (str "Name") = str "PropagatedSignals" then
            { pinfo with propagated_signals := p.text }
          else pinfo) pinfo
      if pinfo.port_type = str "in" then
        pure { b with input_ports := b.input_ports ++ [pinfo] }
      else if pinfo.port_type = str "out" then
        pure { b with output_ports := b.output_ports ++ [pinfo] }
      else pure b

/-- Model of `system_parser::parse_block` (oc_mdl.hpp lines 519–592).  The
    `Except` layer carries the uncaught `std::stoi` exceptions on
    `PortCounts`, `ZOrder` and port `Index` attributes. -/
def parse_block (elem : XmlElement) : Except Unit Block := do
  let b : Block :=
    { type := elem.attr (str "BlockType")
      name := elem.attr (str "Name")
      sid := elem.attr (str "SID") }
  let b ← match elem.child (str "PortCounts") with
    | none => pure b
    | some pc => do
        let in_str := pc.attr (str "in")
        let b ← if !in_str.isEmpty then do
            let n ← stoiE in_str
            pure { b with port_in := n }
          else pure b
        let out_str := pc.attr (str "out")
        if !out_str.isEmpty then do
            let n ← stoiE out_str
            pure { b with port_out := n }
          else pure b
  let b ← (elem.childrenByTag (str "P")).foldlM parseBlockP b
  let b := match elem.child (str "System") with
    | some sysRef => { b with subsystem_ref := sysRef.attr (str "Ref") }
    | none => b
  let b := match elem.child (str "Mask") with
    | some mask =>
        { b with mask_parameters :=
            (mask.childrenByTag (str "MaskParameter")).map (fun mp =>
              { name := mp.attr (str "Name")
                type := mp.attr (str "Type")
                prompt := match mp.child (str "Prompt") with
                          | some pr => pr.text
                          | none => []
                value := match mp.child (str "Value") with
                         | some v => decode_entities v.text
                         | none => [] }) }
    | none => b
  let b ← match elem.child (str "PortProperties") with
    | none => pure b
    | some pp => (pp.childrenByTag (str "Port")).foldlM parseBlockPort b
  pure b

/-! ### Code generator model (oc_codegen.hpp) -/
/-- Model of `transfer_function` (coefficients are the exact decimal
    values the `double`s hold on these inputs). -/
structure TransferFunction where
  num : List Dec := []
  den : List Dec := []
  order : Int := 0
deriving DecidableEq

/-- Model of `transfer_function::parse_coefficients`: erase brackets,
    turn commas and semicolons into spaces, stream-extract doubles. -/
def parse_coefficients (s : Str) : List Dec :=
  let cleaned := (s.filter (fun c => !(c == '[' || c == ']'))).map
    (fun c => if c == ',' || c == ';' then ' ' else c)
  parseDoubles cleaned

/-- Model of `parse_transfer_function` (oc_codegen.hpp lines 136–150). -/
def parse_transfer_function (blk : Block) : TransferFunction :=
  let num_str := (blk.param (str "Numerator")).getD (str "[1]")
  let den_str := (blk.param (str "Denominator")).getD (str "[1]")
  let num := parse_coefficients num_str
  let den := parse_coefficients den_str
  let order0 : Int := (den.length : Int) - 1
  { num := num, den := den, order := if order0 < 1 then 1 else order0 }

/-- Exact value of a decimal coefficient, for the mathematical side of the
    discretization. -/
def Dec.toRat (d : Dec) : ℚ := (d.m : ℚ) / (10 : ℚ) ^ d.e

/-- Model of `transfer_function::discretize` (oc_codegen.hpp lines
    61–125), over the exact values of the coefficients. -/
def TransferFunction.discretize (tf : TransferFunction) (dt : ℚ) : List ℚ × List ℚ :=
  let k : ℚ := 2 / dt
  let num := tf.num.map Dec.toRat
  let den := tf.den.map Dec.toRat
  if tf.order = 1 then
    let b0 := if 0 < num.length then num.getD 0 0 else 0
    let b1 := if 1 < num.length then num.getD 1 0 else (if num.length = 1 then num.getD 0 0 else 1)
    let a0 := if 0 < den.length then den.getD 0 0 else 0
    let a1 := if 1 < den.length then den.getD 1 0 else 1
    let b0 := if num.length = 1 ∧ num.getD 0 0 ≠ 0 then 0 else b0
    let b1 := if num.length = 1 ∧ num.getD 0 0 ≠ 0 then num.getD 0 0 else b1
    ([b0 * k + b1, -b0 * k + b1], [a0 * k + a1, -a0 * k + a1])
  else if tf.order = 2 then
    let b0 := if 2 < num.length then num.getD 0 0 else 0
    let b1 := if 2 < num.length then num.getD 1 0 else 0
    let b2 := if 2 < num.length then num.getD 2 0 else (if num.length = 1 then num.getD 0 0 else 1)
    let a0 := if 0 < den.length then den.getD 0 0 else 0
    let a1 := if 1 < den.length then den.getD 1 0 else 0
    let a2 := if 2 < den.length then den.getD 2 0 else 1
    let b0 := if num.length = 1 then 0 else b0
    let b1 := if num.length = 1 then 0 else b1
    let b2 := if num.length = 1 then num.getD 0 0 else b2
    let k2 := k * k
    ([b0 * k2 + b1 * k + b2, 2 * b2 - 2 * b0 * k2, b0 * k2 - b1 * k + b2],
     [a0 * k2 + a1 * k + a2, 2 * a2 - 2 * a0 * k2, a0 * k2 - a1 * k + a2])
  else (num, den)

/-- Model of `sanitize_name` (oc_codegen.hpp lines 153–166). -/
def sanitize_name (name : Str) : Str :=
  let result := name.foldl (fun acc c =>
    if isAlnumChar c || c = '_' then acc ++ [c]
    else if c = ' ' || c = '-' then acc ++ ['_']
    else acc) []
  match result with
  | [] => []
  | c :: _ => if isDigitChar c then '_' :: result else result

/-- The `indent_` member of `generator`. -/
def indent_ : Str := str "        "

/-- The `max_inline_depth_` member of `generator`. -/
def max_inline_depth : Nat := 10

/-- The `var_prefix` expression used throughout the generator. -/
def varPrefixFor (pfx : Str) (blk : Block) : Str :=
  if pfx.isEmpty then sanitize_name blk.name else pfx ++ '_' :: sanitize_name blk.name

/-- The builtin-identifier set of `extract_config_vars`. -/
def builtins : List Str :=
  [str "sqrt", str "exp", str "log", str "log10", str "sin", str "cos", str "tan",
   str "asin", str "acos", str "atan", str "sinh", str "cosh", str "tanh", str "abs",
   str "floor", str "ceil", str "round", str "mod", str "sign", str "max", str "min",
   str "pi", str "inf", str "nan", str "eps", str "true", str "false"]

/-- Flush step of `extract_config_vars`: insert the pending identifier when
    it starts with a letter and is not a builtin. -/
def ecvFlush (current : Str) (vars : List Str) : List Str :=
  if !current.isEmpty && isAlphaChar (current.headD ' ') && !builtins.contains current
  then ssInsert current vars else vars

/-- Model of `generator::extract_config_vars` (oc_codegen.hpp lines
    890–915). -/
def extract_config_vars (expr : Str) (vars : List Str) : List Str :=
  let st := expr.foldl
    (fun (st : Str × List Str) c =>
      if isAlnumChar c || c = '_' then (st.1 ++ [c], st.2)
      else ([], ecvFlush st.1 st.2)) ([], vars)
  ecvFlush st.1 st.2

/-- Model of `generator::collect_config_from_block`. -/
def collect_config_from_block (blk : Block) (vars : List Str) : List Str :=
  let pnames := [str "Gain", str "UpperLimit", str "LowerLimit", str "Value",
                 str "InitialCondition", str "Threshold", str "Numerator", str "Denominator"]
  let vars1 := pnames.foldl (fun vs pname =>
    match blk.param pname with
    | some v => extract_config_vars v vs
    | none => vs) vars
  blk.mask_parameters.foldl (fun vs mp => extract_config_vars mp.value vs) vars1

/-- The stateful block types (the condition repeated at oc_codegen.hpp
    lines 350–351 and 418–419). -/
def isStateType (t : Str) : Bool :=
  decide (t = str "UnitDelay") || decide (t = str "Integrator") ||
  decide (t = str "DiscreteIntegrator") || decide (t = str "Memory")

/-- Model of `generator::collect_all_variables` (oc_codegen.hpp lines
    343–381), fused over the block list; `fuel` is the remaining depth
    budget `max_inline_depth_ - depth` of the entry guard, so the root call
    uses `max_inline_depth`.  The accumulator pairs `all_state_vars_` with
    `all_config_vars_`. -/
def collect_all_variables (m? : Option Model) :
    Nat → List Block → Str → (List (Str × Str) × List Str) →
    List (Str × Str) × List Str
  | 0, _, _, acc => acc
  | budget + 1, bs, pfx, acc =>
      bs.foldl (fun acc blk =>
        let varPfx := varPrefixFor pfx blk
        let acc1 :=
          if isStateType blk.type then
            (acc.1 ++ [(varPfx ++ str "_state",
                        blk.type ++ str " in " ++ (if pfx.isEmpty then str "root" else pfx))],
             acc.2)
          else acc
        let acc2 :=
          if blk.type = str "TransferFcn" then
            let tf := parse_transfer_function blk
            ((List.range tf.order.toNat).foldl (fun a i =>
               a ++ [(varPfx ++ str "_tf_x" ++ natToStr i,
                      str "TransferFcn state " ++ natToStr i ++ str " in " ++
                        (if pfx.isEmpty then str "root" else pfx)),
                     (varPfx ++ str "_tf_u" ++ natToStr i,
                      str "TransferFcn input history " ++ natToStr i)]) acc1.1,
             acc1.2)
          else acc1
        let acc3 := (acc2.1, collect_config_from_block blk acc2.2)
        match (if blk.is_subsystem && !blk.subsystem_ref.isEmpty then
                 m?.bind (fun m => m.get_system blk.subsystem_ref)
               else none) with
        | some subsys => collect_all_variables m? budget subsys.blocks varPfx acc3
        | none => acc3) acc

/-- Word-boundary-aware replacement loop of `format_param_value`
    (`replace_all`, oc_codegen.hpp lines 924–938).  `prev` records whether
    the character immediately before the current suffix is alphanumeric
    (the `str[pos - 1]` test).  On a failed boundary check the C++ resumes
    the search after the unreplaced occurrence (`pos += from.size()`). -/
def lastAlnum (df : Bool) (s : Str) : Bool :=
  match s.getLast? with
  | some c => isAlnumChar c
  | none => df

def replaceAllWF : Nat → Bool → Str → Str → Str → Str
  | 0, _, s, _, _ => s
  | fuel + 1, prev, s, frm, rep =>
      match findSub frm s with
      | none => s
      | some i =>
          let after := s.drop (i + frm.length)
          let wordStart : Bool :=
            if i = 0 then !prev
            else match s[i - 1]? with
                 | some c => !isAlnumChar c
                 | none => true
          let wordEnd : Bool :=
            match after.head? with
            | some c => !isAlnumChar c
            | none => true
          if wordStart && wordEnd then
            s.take i ++ rep ++ replaceAllWF fuel (lastAlnum prev rep) after frm rep
          else
            s.take i ++ frm ++ replaceAllWF fuel (lastAlnum prev frm) after frm rep

/-- Model of `replace_all`: every iteration consumes at least one character
    of the haystack for the non-empty needles used here, so length fuel
    suffices. -/
def replace_all (s frm rep : Str) : Str := replaceAllWF (s.length + 1) false s frm rep

/-- Model of `generator::format_param_value` (oc_codegen.hpp lines
    918–958). -/
def format_param_value (value : Str) : Str :=
  if value.isEmpty then str "0.0f"
  else
    let result := replace_all value (str "pi") (str "3.14159265358979f")
    let result := replace_all result (str "inf") (str "std::numeric_limits<float>::infinity()")
    let result := replace_all result (str "eps") (str "std::numeric_limits<float>::epsilon()")
    let is_identifier :=
      !result.isEmpty && isAlphaChar (result.headD ' ') &&
      result.all (fun c => isAlnumChar c || c = '_')
    if is_identifier then str "cfg." ++ result else result

/-- Model of the `get_input` lambda of `generate_block_code`. -/
def get_input (inputs : List Str) (idx : Nat) : Str :=
  if idx < inputs.length ∧ inputs.getD idx [] ≠ [] then inputs.getD idx []
  else str "0.0f /* missing input " ++ natToStr (idx + 1) ++ str " */"

/-- Model of the `get_param` lambda of `generate_block_code`. -/
def get_param (blk : Block) (name deflt : Str) : Str :=
  match blk.param name with
  | some v => format_param_value v
  | none => deflt

/-- Model of the Port-comparator sort applied to inports and outports
    (`std::ranges::sort` with `std::stoi` inside the comparator).  With at
    most one element the comparator is never invoked; otherwise every
    element is compared at least once, so a non-numeric `Port` value throws
    (`Except.error`).  `std::ranges::sort` is not stable; ties keep their
    original order here, which is one of the permitted outcomes. -/
def sort_by_port (blocks : List Block) : Except Unit (List Block) :=
  if blocks.length ≤ 1 then .ok blocks
  else do
    let keyed ← blocks.mapM (fun b =>
      match b.param (str "Port") with
      | some v =>
          match stoiOpt v with
          | some n => Except.ok ((n, b) : Int × Block)
          | none => Except.error ()
      | none => Except.ok ((1 : Int), b))
    .ok ((keyed.mergeSort (fun a b => decide (a.1 ≤ b.1))).map (·.2))

/-- The `state_sids` set built at the top of `generate_system_code`
    (oc_mdl.hpp lines 414–424 build both maps in one loop; the two folds
    here are independent and visit the same blocks in the same order). -/
def buildStateSids (sys : System) : List Str :=
  sys.blocks.foldl (fun s blk => if isStateType blk.type then ssInsert blk.sid s else s) []

/-- The `state_var_map` of `generate_system_code`. -/
def buildStateVarMap (sys : System) (pfx : Str) : List (Str × Str) :=
  sys.blocks.foldl (fun m blk =>
    if isStateType blk.type then
      alInsert blk.sid (str "state." ++ varPrefixFor pfx blk ++ str "_state") m
    else m) []

/-- The output-variable assignment loop of `generate_system_code`
    (oc_codegen.hpp lines 427–455). -/
def assignOutputVars (sys : System) (pfx : Str) (state_sids : List Str)
    (state_var_map : List (Str × Str)) (signal_map : List (Str × Str)) : List (Str × Str) :=
  sys.blocks.foldl (fun smap blk =>
    if blk.is_inport || blk.is_outport then smap
    else
      let varPfx := varPrefixFor pfx blk
      let num_outputs := blk.port_out
      if blk.is_subsystem then
        (List.range num_outputs.toNat).foldl (fun m i =>
          alInsert (blk.sid ++ str "#out:" ++ natToStr (i + 1))
            (varPfx ++ str "_out" ++ natToStr (i + 1)) m) smap
      else
        (List.range num_outputs.toNat).foldl (fun m i =>
          let key := blk.sid ++ str "#out:" ++ natToStr (i + 1)
          if ssContains blk.sid state_sids then
            alInsert key ((alLookup blk.sid state_var_map).getD []) m
          else
            alInsert key (varPfx ++ (if 1 < num_outputs then '_' :: natToStr (i + 1) else [])) m)
          smap) signal_map

/-- The `block_inputs` update of the `add_connection` lambda
    (oc_codegen.hpp lines 478–481). -/
def ac_binputs (dst : Endpoint) (src_var : Str) (binputs : List (Str × List Str)) :
    List (Str × List Str) :=
  let idx := dst.portIndex.toNat
  let cur := (alLookup dst.blockSid binputs).getD []
  let cur := if cur.length < idx then cur ++ List.replicate (idx - cur.length) [] else cur
  let cur := cur.set (idx - 1) src_var
  alInsert dst.blockSid cur binputs

/-- The dependency-map update of the `add_connection` lambda (oc_codegen.hpp
    lines 482–491). -/
def ac_deps (sys : System) (state_sids : List Str) (src dst : Endpoint)
    (deps : List (Str × List Str)) : List (Str × List Str) :=
  if alContains dst.blockSid deps then
    let src_is_inport :=
      match sys.find_block_by_sid src.blockSid with
      | some b => b.is_inport
      | none => false
    let src_is_state := ssContains src.blockSid state_sids
    if !src_is_inport && !src_is_state then
      alInsert dst.blockSid
        (ssInsert src.blockSid ((alLookup dst.blockSid deps).getD [])) deps
    else deps
  else deps

/-- The `add_connection` lambda of `generate_system_code` (oc_codegen.hpp
    lines 474–493).  A destination port index below 1 makes the C++
    `resize`/index undefined (a huge `size_t` after the cast), modelled as
    an error. -/
def add_connection (sys : System) (state_sids : List Str) (src : Endpoint) (src_var : Str)
    (dst_str : Str) (deps : List (Str × List Str)) (binputs : List (Str × List Str)) :
    Except Unit (List (Str × List Str) × List (Str × List Str)) :=
  match endpointParse dst_str with
  | .error e => .error e
  | .ok none => .ok (deps, binputs)
  | .ok (some dst) =>
      if dst.portIndex < 1 then .error ()
      else .ok (ac_deps sys state_sids src dst deps, ac_binputs dst src_var binputs)

/-- The map initialisation of the dependency/input construction
    (oc_codegen.hpp lines 461–465): every non-Inport block gets an empty
    entry in both maps. -/
def buildDepsInit (sys : System) :
    List (Str × List Str) × List (Str × List Str) :=
  sys.blocks.foldl
    (fun (p : List (Str × List Str) × List (Str × List Str)) blk =>
      if blk.is_inport then p
      else (alInsert blk.sid ([] : List Str) p.1, alInsert blk.sid ([] : List Str) p.2))
    ([], [])

/-- Processing of one connection in the dependency/input construction
    (oc_codegen.hpp lines 467–501): parse the source, resolve the source
    variable, then run `add_connection` on the destination (when nonempty)
    and on every branch destination. -/
def connStep (sys : System) (state_sids : List Str) (signal_map : List (Str × Str))
    (st : List (Str × List Str) × List (Str × List Str)) (conn : Connection) :
    Except Unit (List (Str × List Str) × List (Str × List Str)) :=
  match endpointParse conn.source with
  | .error e => .error e
  | .ok none => .ok st
  | .ok (some src) =>
      let src_key := src.blockSid ++ str "#out:" ++ intToStr src.portIndex
      let src_var := (alLookup src_key signal_map).getD (str "0.0f /* unknown */")
      let step1 : Except Unit (List (Str × List Str) × List (Str × List Str)) :=
        if conn.destination.isEmpty then .ok st
        else add_connection sys state_sids src src_var conn.destination st.1 st.2
      match step1 with
      | .error e => .error e
      | .ok st1 =>
          conn.branches.foldlM (fun st2 br =>
            add_connection sys state_sids src src_var br.destination st2.1 st2.2) st1

/-- The dependency/input construction of `generate_system_code`
    (oc_codegen.hpp lines 457–501): initialise both maps with the
    non-Inport blocks, then process every connection. -/
def buildDepsInputs (sys : System) (state_sids : List Str) (signal_map : List (Str × Str)) :
    Except Unit (List (Str × List Str) × List (Str × List Str)) :=
  sys.connections.foldlM (connStep sys state_sids signal_map) (buildDepsInit sys)

/-- One `dep` visit of the inner in-degree loop (oc_codegen.hpp lines
    507–510). -/
def kahnDegF (sys : System) (k : Str) (ind2 : List (Str × Int)) (dep : Str) :
    List (Str × Int) :=
  match sys.find_block_by_sid dep with
  | some blk =>
      if !blk.is_inport then alInsert k ((alLookup k ind2).getD 0 + 1) ind2 else ind2
  | none => ind2

/-- One dependency-map entry of the in-degree construction (oc_codegen.hpp
    lines 505–511). -/
def kahnDegEntry (sys : System) (ind : List (Str × Int)) (p : Str × List Str) :
    List (Str × Int) :=
  let ind1 := if alContains p.1 ind then ind else alInsert p.1 (0 : Int) ind
  p.2.foldl (kahnDegF sys p.1) ind1

/-- The `in_degree` construction of the topological sort (oc_codegen.hpp
    lines 504–512). -/
def kahnInDegree (deps : List (Str × List Str)) (sys : System) : List (Str × Int) :=
  deps.foldl (kahnDegEntry sys) []

/-- One pop of the Kahn loop (oc_codegen.hpp lines 525–533): scan the
    dependency map, erase `sid` where present, decrement the corresponding
    in-degree, and collect the keys that reach zero (queue pushes).  The
    C++ mutates each entry's own value only, so folding over the original
    entry list is equivalent. -/
def kahnStepF (sid : Str)
    (st : List (Str × List Str) × List (Str × Int) × List Str)
    (p : Str × List Str) :
    List (Str × List Str) × List (Str × Int) × List Str :=
  if ssContains sid p.2 then
    let ds := ssErase sid p.2
    let cnt := (alLookup p.1 st.2.1).getD 0 - 1
    let pushed := if cnt = 0 then st.2.2 ++ [p.1] else st.2.2
    (alInsert p.1 ds st.1, alInsert p.1 cnt st.2.1, pushed)
  else st

def kahnStep (sid : Str) (deps : List (Str × List Str)) (ind : List (Str × Int)) :
    List (Str × List Str) × List (Str × Int) × List Str :=
  deps.foldl (kahnStepF sid) (deps, ind, [])

/-- The Kahn worklist loop.  Every key is pushed at most once (its
    in-degree passes zero at most once), so `deps.length` pops bound the
    iteration count and the fuel never runs out before the queue drains. -/
def kahnLoop : Nat → List Str → List (Str × List Str) → List (Str × Int) → List Str → List Str
  | 0, _, _, _, out => out
  | _ + 1, [], _, _, out => out
  | fuel + 1, sid :: rest, deps, ind, out =>
      let st := kahnStep sid deps ind
      kahnLoop fuel (rest ++ st.2.2) st.1 st.2.1 (out ++ [sid])

/-- The topological sort of `generate_system_code` (oc_codegen.hpp lines
    504–534): in-degrees, initial ready queue in map order, worklist. -/
def kahnSort (deps : List (Str × List Str)) (sys : System) : List Str :=
  let ind := kahnInDegree deps sys
  let ready := (ind.filter (fun p => decide (p.2 = 0))).map (·.1)
  kahnLoop (deps.length + 1) ready deps ind []

/-- The per-type emission of `generate_block_code` for every type other
    than SubSystem, after the `// <type>: <name>` comment line that
    oc_codegen.hpp line 587 writes before branching (the branches at lines
    589–807).  Only the Demux branch writes to the signal map. -/
def generate_block_rest (blk : Block) (inputs : List Str)
    (out_var varPfx state_var : Str) (signal_map : List (Str × Str)) :
    List (Str × Str) × Str :=
  let assign := fun (rhs : Str) =>
    indent_ ++ str "auto " ++ out_var ++ str " = " ++ rhs ++ str ";\n"
  if blk.type = str "Gain" then
    (signal_map, assign (get_input inputs 0 ++ str " * " ++ get_param blk (str "Gain") (str "1.0f")))
  else if blk.type = str "Sum" then
    let spec := (blk.param (str "Inputs")).getD (str "++")
    let st := spec.foldl (fun (st : Bool × Nat × Str) c =>
      if c = '|' then st
      else if c = '+' ∨ c = '-' then
        (false, st.2.1 + 1,
         st.2.2 ++ (if !st.1 then str " " else []) ++
           (if c = '-' then str "- " else if !st.1 then str "+ " else []) ++
           get_input inputs st.2.1)
      else st) (true, 0, [])
    (signal_map, assign st.2.2)
  else if blk.type = str "Product" then
    let spec := (blk.param (str "Inputs")).getD (str "**")
    let st := spec.foldl (fun (st : Bool × Nat × Str) c =>
      if c = '*' ∨ c = '/' then
        (false, st.2.1 + 1,
         st.2.2 ++ (if !st.1 then (if c = '*' then str " * " else str " / ") else []) ++
           get_input inputs st.2.1)
      else st) (true, 0, [])
    let body := if st.2.1 = 0 then st.2.2 ++ get_input inputs 0 ++ str " * " ++ get_input inputs 1
                else st.2.2
    (signal_map, assign body)
  else if blk.type = str "Saturate" then
    (signal_map, assign (str "std::clamp(" ++ get_input inputs 0 ++ str ", " ++
      get_param blk (str "LowerLimit") (str "-1.0f") ++ str ", " ++
      get_param blk (str "UpperLimit") (str "1.0f") ++ str ")"))
  else if blk.type = str "MinMax" then
    let func := (blk.param (str "Function")).getD (str "min")
    let fn := if func = str "max" ∨ func = str "Max" then str "std::max" else str "std::min"
    (signal_map, assign (fn ++ str "(" ++ get_input inputs 0 ++ str ", " ++
      get_input inputs 1 ++ str ")"))
  else if blk.type = str "Abs" then
    (signal_map, assign (str "std::abs(" ++ get_input inputs 0 ++ str ")"))
  else if blk.type = str "Constant" then
    (signal_map, assign (get_param blk (str "Value") (str "0.0f")))
  else if blk.type = str "UnitDelay" ∨ blk.type = str "Memory" then
    (signal_map, indent_ ++ state_var ++ str " = " ++ get_input inputs 0 ++
      str ";  // update for next step\n")
  else if blk.type = str "Integrator" ∨ blk.type = str "DiscreteIntegrator" then
    (signal_map, indent_ ++ state_var ++ str " += " ++ get_input inputs 0 ++
      str " * cfg.dt;\n")
  else if blk.type = str "RelationalOperator" then
    let op := (blk.param (str "Operator")).getD (str "==")
    let cpp_op := if op = str "~=" then str "!=" else op
    (signal_map, assign (str "(" ++ get_input inputs 0 ++ str " " ++ cpp_op ++
      str " " ++ get_input inputs 1 ++ str ") ? 1.0f : 0.0f"))
  else if blk.type = str "Logic" then
    let op := (blk.param (str "Operator")).getD (str "AND")
    if op = str "NOT" then
      (signal_map, assign (str "(" ++ get_input inputs 0 ++ str " == 0.0f) ? 1.0f : 0.0f"))
    else
      let cpp_op := if op = str "OR" then str "||" else if op = str "XOR" then str "!=" else str "&&"
      (signal_map, assign (str "((" ++ get_input inputs 0 ++ str " != 0.0f) " ++
        cpp_op ++ str " (" ++ get_input inputs 1 ++ str " != 0.0f)) ? 1.0f : 0.0f"))
  else if blk.type = str "Switch" then
    let threshold := get_param blk (str "Threshold") (str "0.0f")
    let criteria := (blk.param (str "Criteria")).getD (str "u2 >= Threshold")
    let cond :=
      if containsSub (str ">=") criteria then get_input inputs 1 ++ str " >= " ++ threshold
      else if containsSub (str ">") criteria then get_input inputs 1 ++ str " > " ++ threshold
      else if containsSub (str "!=") criteria || containsSub (str "~=") criteria then
        get_input inputs 1 ++ str " != " ++ threshold
      else get_input inputs 1 ++ str " != 0.0f"
    (signal_map, assign (str "(" ++ cond ++ str ") ? " ++ get_input inputs 0 ++
      str " : " ++ get_input inputs 2))
  else if blk.type = str "Trigonometry" then
    let func := (blk.param (str "Operator")).getD (str "sin")
    (signal_map, assign (str "std::" ++ func ++ str "(" ++ get_input inputs 0 ++ str ")"))
  else if blk.type = str "Math" then
    let func := (blk.param (str "Operator")).getD (str "sqrt")
    if func = str "sqrt" ∨ func = str "exp" ∨ func = str "log" ∨ func = str "log10" then
      (signal_map, assign (str "std::" ++ func ++ str "(" ++ get_input inputs 0 ++ str ")"))
    else if func = str "square" then
      (signal_map, assign (get_input inputs 0 ++ str " * " ++ get_input inputs 0))
    else if func = str "pow" then
      (signal_map, assign (str "std::pow(" ++ get_input inputs 0 ++ str ", " ++
        get_input inputs 1 ++ str ")"))
    else
      (signal_map, indent_ ++ str "auto " ++ out_var ++ str " = " ++
        get_input inputs 0 ++ str "; // TODO: Math/" ++ func ++ str "\n")
  else if blk.type = str "TransferFcn" then
    let tf := parse_transfer_function blk
    let statePfx := str "state." ++ varPfx ++ str "_tf_"
    let head2 := indent_ ++ str "// TransferFcn: " ++ blk.name ++ str " (order " ++
      intToStr tf.order ++ str ")\n" ++ indent_ ++ str "\x7b\n"
    let zero : Dec := Dec.ofInt 0
    if tf.order = 1 then
      let b0 := if 1 < tf.num.length then tf.num.getD 0 zero else zero
      let b1 := if 1 < tf.num.length then tf.num.getD 1 zero
                else (if tf.num.length = 1 then tf.num.getD 0 zero else Dec.ofInt 1)
      let a0 := if 0 < tf.den.length then tf.den.getD 0 zero else zero
      let a1 := if 1 < tf.den.length then tf.den.getD 1 zero else Dec.ofInt 1
      let b0 := if tf.num.length = 1 then zero else b0
      let b1 := if tf.num.length = 1 then tf.num.getD 0 zero else b1
      (signal_map, head2 ++
        indent_ ++ str "    float k = 2.0f / cfg.dt;\n" ++
        indent_ ++ str "    float b0_d = " ++ formatFloat b0 ++ str " * k + " ++ formatFloat b1 ++ str ";\n" ++
        indent_ ++ str "    float b1_d = -" ++ formatFloat b0 ++ str " * k + " ++ formatFloat b1 ++ str ";\n" ++
        indent_ ++ str "    float a0_d = " ++ formatFloat a0 ++ str " * k + " ++ formatFloat a1 ++ str ";\n" ++
        indent_ ++ str "    float a1_d = -" ++ formatFloat a0 ++ str " * k + " ++ formatFloat a1 ++ str ";\n" ++
        indent_ ++ str "    float u_n = " ++ get_input inputs 0 ++ str ";\n" ++
        indent_ ++ str "    float y_n = (b0_d * u_n + b1_d * " ++ statePfx ++ str "u0 - a1_d * " ++
          statePfx ++ str "x0) / a0_d;\n" ++
        indent_ ++ str "    " ++ statePfx ++ str "u0 = u_n;\n" ++
        indent_ ++ str "    " ++ statePfx ++ str "x0 = y_n;\n" ++
        indent_ ++ str "\x7d\n" ++
        indent_ ++ str "auto " ++ out_var ++ str " = " ++ statePfx ++ str "x0;\n")
    else if tf.order = 2 then
      let b0 := if 2 < tf.num.length then tf.num.getD 0 zero else zero
      let b1 := if 2 < tf.num.length then tf.num.getD 1 zero
                else (if 1 < tf.num.length then tf.num.getD 0 zero else zero)
      let b2 := if 2 < tf.num.length then tf.num.getD 2 zero
                else (if 1 < tf.num.length then tf.num.getD 1 zero else tf.num.getD 0 zero)
      let a0 := tf.den.getD 0 zero
      let a1 := if 1 < tf.den.length then tf.den.getD 1 zero else zero
      let a2 := if 2 < tf.den.length then tf.den.getD 2 zero else Dec.ofInt 1
      let b0 := if tf.num.length = 1 then zero else b0
      let b1 := if tf.num.length = 1 then zero else b1
      let b2 := if tf.num.length = 1 then tf.num.getD 0 zero else b2
      (signal_map, head2 ++
        indent_ ++ str "    float k = 2.0f / cfg.dt;\n" ++
        indent_ ++ str "    float k2 = k * k;\n" ++
        indent_ ++ str "    float b0_d = " ++ formatFloat b0 ++ str "*k2 + " ++ formatFloat b1 ++
          str "*k + " ++ formatFloat b2 ++ str ";\n" ++
        indent_ ++ str "    float b1_d = 2.0f*" ++ formatFloat b2 ++ str " - 2.0f*" ++
          formatFloat b0 ++ str "*k2;\n" ++
        indent_ ++ str "    float b2_d = " ++ formatFloat b0 ++ str "*k2 - " ++ formatFloat b1 ++
          str "*k + " ++ formatFloat b2 ++ str ";\n" ++
        indent_ ++ str "    float a0_d = " ++ formatFloat a0 ++ str "*k2 + " ++ formatFloat a1 ++
          str "*k + " ++ formatFloat a2 ++ str ";\n" ++
        indent_ ++ str "    float a1_d = 2.0f*" ++ formatFloat a2 ++ str " - 2.0f*" ++
          formatFloat a0 ++ str "*k2;\n" ++
        indent_ ++ str "    float a2_d = " ++ formatFloat a0 ++ str "*k2 - " ++ formatFloat a1 ++
          str "*k + " ++ formatFloat a2 ++ str ";\n" ++
        indent_ ++ str "    float u_n = " ++ get_input inputs 0 ++ str ";\n" ++
        indent_ ++ str "    float y_n = (b0_d*u_n + b1_d*" ++ statePfx ++ str "u0 + b2_d*" ++
          statePfx ++ str "u1 - a1_d*" ++ statePfx ++ str "x0 - a2_d*" ++ statePfx ++
          str "x1) / a0_d;\n" ++
        indent_ ++ str "    " ++ statePfx ++ str "u1 = " ++ statePfx ++ str "u0;\n" ++
        indent_ ++ str "    " ++ statePfx ++ str "u0 = u_n;\n" ++
        indent_ ++ str "    " ++ statePfx ++ str "x1 = " ++ statePfx ++ str "x0;\n" ++
        indent_ ++ str "    " ++ statePfx ++ str "x0 = y_n;\n" ++
        indent_ ++ str "\x7d\n" ++
        indent_ ++ str "auto " ++ out_var ++ str " = " ++ statePfx ++ str "x0;\n")
    else
      (signal_map, head2 ++
        indent_ ++ str "    // Order " ++ intToStr tf.order ++
          str " transfer function not yet supported\n" ++
        indent_ ++ str "\x7d\n" ++ assign (get_input inputs 0))
  else if blk.type = str "Derivative" then
    (signal_map, indent_ ++ str "auto " ++ out_var ++ str " = " ++
      get_input inputs 0 ++ str "; // TODO: Derivative needs previous value\n")
  else if blk.type = str "Demux" then
    ((List.range blk.port_out.toNat).foldl (fun m i =>
        alInsert (blk.sid ++ str "#out:" ++ natToStr (i + 1))
          (get_input inputs 0 ++ str " /* demux " ++ natToStr (i + 1) ++ str " */") m)
      signal_map,
     [])
  else if blk.type = str "Mux" then
    (signal_map, indent_ ++ str "auto " ++ out_var ++ str " = " ++
      get_input inputs 0 ++ str "; // Mux\n")
  else
    (signal_map, indent_ ++ str "auto " ++ out_var ++ str " = " ++
      get_input inputs 0 ++ str "; // TODO: " ++ blk.type ++ str "\n")

/-- Model of the per-block emission for every type other than SubSystem
    (oc_codegen.hpp lines 587–807): the `// <type>: <name>` comment line
    followed by the per-type code of `generate_block_rest`. -/
def generate_block_body (blk : Block) (inputs : List Str)
    (out_var varPfx state_var : Str) (signal_map : List (Str × Str)) :
    List (Str × Str) × Str :=
  ((generate_block_rest blk inputs out_var varPfx state_var signal_map).1,
   indent_ ++ str "// " ++ blk.type ++ str ": " ++ blk.name ++ ['\n'] ++
     (generate_block_rest blk inputs out_var varPfx state_var signal_map).2)

/-- The outport-mapping tail of `generate_subsystem_inline` (oc_codegen.hpp
    lines 855–885): for each sorted outport find the connected signal in
    the subsystem's map, emit an alias variable and record it in the
    parent map (the intermediate `parent_signal_map[parent_key] =
    outport_value` write is immediately overwritten by the alias and never
    observed). -/
def subsystemOutports (subsys : System) (blk : Block) (varPfx : Str)
    (sub_map : List (Str × Str)) (outports : List Block)
    (parent0 : List (Str × Str)) : Except Unit (List (Str × Str) × Str) :=
  outports.enum.foldlM (fun (st : List (Str × Str) × Str) p => do
    let check := fun (ov : Str) (conn : Connection) (dst_str : Str) =>
      match endpointParse dst_str with
      | .error e => Except.error e
      | .ok none => Except.ok ov
      | .ok (some dst) =>
          if dst.blockSid = p.2.sid then
            match endpointParse conn.source with
            | .error e => Except.error e
            | .ok none => Except.ok ov
            | .ok (some src) =>
                let src_key := src.blockSid ++ str "#out:" ++ intToStr src.portIndex
                match alLookup src_key sub_map with
                | some v => Except.ok v
                | none => Except.ok ov
          else Except.ok ov
    let outport_value ← subsys.connections.foldlM (fun ov conn => do
        let ov1 ← check ov conn conn.destination
        conn.branches.foldlM (fun o br => check o conn br.destination) ov1)
      (str "0.0f /* unmapped outport */")
    let parent_key := blk.sid ++ str "#out:" ++ natToStr (p.1 + 1)
    let alias_var := varPfx ++ str "_out" ++ natToStr (p.1 + 1)
    pure (alInsert parent_key alias_var st.1,
          st.2 ++ indent_ ++ str "auto " ++ alias_var ++ str " = " ++ outport_value ++ str ";\n"))
    (parent0, [])

/-- The output-assignment tail of `generate_parts` (oc_codegen.hpp lines
    243–265). -/
def outputAssignments (outports : List Block) (sys : System)
    (signal_map : List (Str × Str)) : Except Unit Str :=
  outports.foldlM (fun acc outp =>
    sys.connections.foldlM (fun acc2 conn => do
      let check := fun (a : Str) (dst_str : Str) =>
        match endpointParse dst_str with
        | .error e => Except.error e
        | .ok none => Except.ok a
        | .ok (some dst) =>
            if dst.blockSid = outp.sid then
              match endpointParse conn.source with
              | .error e => Except.error e
              | .ok none => Except.ok a
              | .ok (some src) =>
                  let src_key := src.blockSid ++ str "#out:" ++ intToStr src.portIndex
                  match alLookup src_key signal_map with
                  | some v =>
                      Except.ok (a ++ indent_ ++ str "out." ++ sanitize_name outp.name ++
                        str " = " ++ v ++ str ";\n")
                  | none => Except.ok a
            else Except.ok a
      let a1 ← check acc2 conn.destination
      conn.branches.foldlM (fun a br => check a br.destination) a1) acc) []

/-- Model of `generator::generate_subsystem_inline` (oc_codegen.hpp lines
    810–888), parameterized by the generator continuation `gsc` that
    produces the subsystem's code at the next inline depth (the
    `generate_system_code(subsys, var_prefix, sub_signal_map, code,
    depth + 1)` call). -/
def generate_subsystem_inlineG
    (gsc : System → Str → List (Str × Str) → Except Unit (List (Str × Str) × Str))
    (subsys : System) (blk : Block) (inputs : List Str) (varPfx : Str)
    (parent_signal_map : List (Str × Str)) : Except Unit (List (Str × Str) × Str) :=
  let head := indent_ ++ str "// ─── Subsystem: " ++ blk.name ++ str " ───\n"
  match sort_by_port subsys.inports with
  | .error e => .error e
  | .ok inports =>
      let sub_signal_map := inports.enum.foldl (fun m p =>
          let v := if p.1 < inputs.length ∧ inputs.getD p.1 [] ≠ [] then inputs.getD p.1 []
                   else str "0.0f /* missing subsystem input */"
          alInsert (p.2.sid ++ str "#out:1") v m) parent_signal_map
      match gsc subsys varPfx sub_signal_map with
      | .error e => .error e
      | .ok (sub_map, sub_code) =>
          match sort_by_port subsys.outports with
          | .error e => .error e
          | .ok outports =>
              match subsystemOutports subsys blk varPfx sub_map outports parent_signal_map with
              | .error e => .error e
              | .ok (parent2, out_code) =>
                  .ok (parent2,
                    head ++ sub_code ++ out_code ++
                      indent_ ++ str "// ─── End: " ++ blk.name ++ str " ───\n")

/-- Model of `generator::generate_block_code` (oc_codegen.hpp lines
    550–808), parameterized like `generate_subsystem_inlineG`: the
    SubSystem branch inlines or falls back to the `(not found)` stub; every
    other type defers to `generate_block_body`. -/
def generate_block_codeG
    (gsc : System → Str → List (Str × Str) → Except Unit (List (Str × Str) × Str))
    (m? : Option Model) (blk : Block) (inputs : List Str)
    (out_var varPfx state_var : Str) (signal_map : List (Str × Str)) :
    Except Unit (List (Str × Str) × Str) :=
  if blk.type = str "SubSystem" then
    match (if !blk.subsystem_ref.isEmpty then
             m?.bind (fun m => m.get_system blk.subsystem_ref)
           else none) with
    | some subsys => generate_subsystem_inlineG gsc subsys blk inputs varPfx signal_map
    | none =>
        .ok (signal_map,
          indent_ ++ str "// SubSystem: " ++ blk.name ++ str " (not found)\n" ++
          indent_ ++ str "auto " ++ out_var ++ str " = " ++ get_input inputs 0 ++ str ";\n")
  else
    .ok (generate_block_body blk inputs out_var varPfx state_var signal_map)

/-- The per-sid emission loop at the end of `generate_system_code`
    (oc_codegen.hpp lines 537–547), parameterized by the per-block
    generator `gbc`.  The `signal_map[sid + "#out:1"]` read uses
    `operator[]`, which inserts an empty entry when the key is missing;
    that insertion is modelled faithfully. -/
def emit_blocksG
    (gbc : Block → List Str → Str → Str → Str → List (Str × Str) →
      Except Unit (List (Str × Str) × Str))
    (sys : System) (pfx : Str) (state_var_map : List (Str × Str))
    (block_inputs : List (Str × List Str)) :
    List Str → List (Str × Str) → Except Unit (List (Str × Str) × Str)
  | [], signal_map => .ok (signal_map, [])
  | sid :: rest, signal_map =>
      match sys.find_block_by_sid sid with
      | none => emit_blocksG gbc sys pfx state_var_map block_inputs rest signal_map
      | some blk =>
          if blk.is_inport || blk.is_outport then
            emit_blocksG gbc sys pfx state_var_map block_inputs rest signal_map
          else
            let inputs := (alLookup sid block_inputs).getD []
            let varPfx := varPrefixFor pfx blk
            let smap0 :=
              if alContains (sid ++ str "#out:1") signal_map then signal_map
              else alInsert (sid ++ str "#out:1") [] signal_map
            let out_var := (alLookup (sid ++ str "#out:1") smap0).getD []
            let state_var := (alLookup sid state_var_map).getD []
            match gbc blk inputs out_var varPfx state_var smap0 with
            | .error e => .error e
            | .ok (smap2, code1) =>
                match emit_blocksG gbc sys pfx state_var_map block_inputs rest smap2 with
                | .error e => .error e
                | .ok (smap3, code2) => .ok (smap3, code1 ++ code2)

/-- Model of `generator::generate_system_code` (oc_codegen.hpp lines
    401–548).  `fuel` encodes `max_inline_depth_ + 1 - depth`, so the root
    call uses `max_inline_depth + 1` and `fuel = 0` is exactly the
    `depth > max_inline_depth_` guard.  Returns the updated signal map and
    the emitted code; `Except.error` models the uncaught `std::stoi`
    exceptions reachable through endpoint parsing. -/
def generate_system_code (m? : Option Model) :
    Nat → System → Str → List (Str × Str) → Except Unit (List (Str × Str) × Str)
  | 0, _, _, signal_map => .ok (signal_map, indent_ ++ str "// Max inline depth reached\n")
  | fuel + 1, sys, pfx, signal_map =>
      let state_sids := buildStateSids sys
      let state_var_map := buildStateVarMap sys pfx
      let smap1 := assignOutputVars sys pfx state_sids state_var_map signal_map
      match buildDepsInputs sys state_sids smap1 with
      | .error e => .error e
      | .ok (deps, block_inputs) =>
          let sorted_sids := kahnSort deps sys
          emit_blocksG (generate_block_codeG (generate_system_code m? fuel) m?)
            sys pfx state_var_map block_inputs sorted_sids smap1

/-- `generate_block_code` at a definite inline depth (the instantiation of
    `generate_block_codeG` the emission loop of `generate_system_code`
    uses at `fuel + 1`). -/
def generate_block_code (m? : Option Model) (fuel : Nat) :
    Block → List Str → Str → Str → Str → List (Str × Str) →
    Except Unit (List (Str × Str) × Str) :=
  generate_block_codeG (generate_system_code m? fuel) m?

/-- `generate_subsystem_inline` at a definite inline depth. -/
def generate_subsystem_inline (m? : Option Model) (fuel : Nat) :
    System → Block → List Str → Str → List (Str × Str) →
    Except Unit (List (Str × Str) × Str) :=
  generate_subsystem_inlineG (generate_system_code m? fuel)

/-- Model of `generated_parts`. -/
structure GeneratedParts where
  inports : List (Str × Str) := []
  outports : List (Str × Str) := []
  state_vars : List (Str × Str) := []
  config_vars : List Str := []
  operation_code : Str := []
deriving DecidableEq

/-- Model of `generator::generate_parts` (oc_codegen.hpp lines 192–274). -/
def generate_parts (m? : Option Model) (sys : System) (pfx : Str) :
    Except Unit GeneratedParts :=
  let collected := collect_all_variables m? (max_inline_depth + 1) sys.blocks pfx ([], [])
  match sort_by_port sys.inports with
  | .error e => .error e
  | .ok inports =>
      match sort_by_port sys.outports with
      | .error e => .error e
      | .ok outports =>
          let inports_list := inports.map (fun b => (sanitize_name b.name, str "float"))
          let outports_list := outports.map (fun b => (sanitize_name b.name, str "float"))
          let signal_map0 := inports.foldl (fun m b =>
            alInsert (b.sid ++ str "#out:1") (str "in." ++ sanitize_name b.name) m) []
          match generate_system_code m? (max_inline_depth + 1) sys pfx signal_map0 with
          | .error e => .error e
          | .ok (smap, sys_code) =>
              match outputAssignments outports sys smap with
              | .error e => .error e
              | .ok out_code =>
                  .ok { inports := inports_list
                        outports := outports_list
                        state_vars := collected.1
                        config_vars := collected.2
                        operation_code := sys_code ++ ['\n'] ++ indent_ ++
                          str "// Outputs\n" ++ out_code }

/-! ### Reverse lifter model (block_diagram_generator.hpp) -/
/-- Model of `block_diagram_generator::xml_decode` (lines 1643–1676):
    handles `&#xA;`, `&amp;`, `&lt;`, `&gt;`; a trailing lone `&` is
    copied verbatim.  Fuel is the input length (each step consumes at
    least one character). -/
def xmlDecodeF : Nat → Str → Str
  | 0, s => s
  | _ + 1, [] => []
  | fuel + 1, '&' :: rest =>
      if rest.isEmpty then ['&']
      else if startsWith (str "#xA;") rest then '\n' :: xmlDecodeF fuel (rest.drop 4)
      else if startsWith (str "amp;") rest then '&' :: xmlDecodeF fuel (rest.drop 4)
      else if startsWith (str "lt;") rest then '<' :: xmlDecodeF fuel (rest.drop 3)
      else if startsWith (str "gt;") rest then '>' :: xmlDecodeF fuel (rest.drop 3)
      else '&' :: xmlDecodeF fuel rest
  | fuel + 1, c :: rest => c :: xmlDecodeF fuel rest

def xml_decode (s : Str) : Str := xmlDecodeF s.length s

/-- Scanner producing the lines of a string as `std::getline` does:
    chunks split at newlines, with no final empty line when the input ends
    in one.  Fuel is the input length (every step consumes at least one
    character). -/
def getLinesF : Nat → Str → List Str
  | 0, _ => []
  | _ + 1, [] => []
  | fuel + 1, s =>
      match findChr '\n' s with
      | some i => s.take i :: getLinesF fuel (s.drop (i + 1))
      | none => [s]

def getLines (s : Str) : List Str := getLinesF s.length s

/-- A lifted connection of the intermediate representation
    (`ir_connection`: source SID/port, destination SID/port). -/
structure IrConnection where
  src_sid : Int
  src_port : Int
  dst_sid : Int
  dst_port : Int
deriving DecidableEq

/-- Model of `block_diagram_generator::resolve_input` (lines 1326–1386):
    strip a trailing `// TODO:` comment, skip literals and missing-input
    placeholders, then try the variable map directly, with a
    `state.<v>_state` key, with the `state.` prefix stripped, and as an
    `in.` name; on success append one connection, otherwise return the
    connection list unchanged (the source ends in a comment
    `// Unable to resolve - skip (no connection)` and no other effect). -/
def resolve_input (expr : Str) (var_map : List (Str × Int × Int))
    (connections : List IrConnection) (dst_sid dst_port : Int) : List IrConnection :=
  let push := fun (pr : Int × Int) =>
    connections ++ [{ src_sid := pr.1, src_port := pr.2,
                      dst_sid := dst_sid, dst_port := dst_port }]
  let clean0 := trimStr expr
  let clean :=
    match findSub (str "// TODO:") clean0 with
    | some todo => trimStr (clean0.take todo)
    | none => clean0
  if clean.isEmpty then connections
  else if containsSub (str "/* missing input") clean then connections
  else if clean = str "0.0f" ∨ clean = str "0" ∨ clean = str "1.0f" ∨ clean = str "1" then
    connections
  else if containsSub (str "std::numeric_limits") clean then connections
  else
    match alLookup clean var_map with
    | some pr => push pr
    | none =>
        match (if !startsWith (str "state.") clean then
                 alLookup (str "state." ++ clean ++ str "_state") var_map
               else none) with
        | some pr => push pr
        | none =>
            match (if startsWith (str "state.") clean then
                     match alLookup clean var_map with
                     | some pr => some pr
                     | none => alLookup (clean.drop 6) var_map
                   else none) with
            | some pr => push pr
            | none =>
                match (if startsWith (str "in.") clean then alLookup clean var_map
                       else none) with
                | some pr => push pr
                | none => connections

/-- The `if (!val.empty() && val.back() == ';') val.pop_back();` idiom of
    the pre-scan extraction helpers. -/
def unSemi (val : Str) : Str :=
  match val.getLast? with
  | some ';' => val.dropLast
  | _ => val

/-- Final stage of `extract_coeff`: `std::stod` on the trimmed coefficient
    text, `0.0` on failure (the `catch`). -/
def extractCoeffNum (cs : Str) : Dec :=
  match stodOpt cs with
  | some d => d
  | none => Dec.ofInt 0

/-- Middle stage of `extract_coeff`: locate `" * k"` and parse what
    precedes it, `0.0` when the marker is absent. -/
def extractCoeffK (val : Str) : Dec :=
  match findSub (str " * k") val with
  | some star_k => extractCoeffNum (trimStr (val.take star_k))
  | none => Dec.ofInt 0

/-- Value stage of `extract_coeff`: trim the text after `=`, drop one
    trailing `;`, then look for the `k` multiplier. -/
def extractCoeffVal (v : Str) : Dec := extractCoeffK (unSemi (trimStr v))

/-- Model of the `extract_coeff` lambda of the TransferFcn pre-scan
    (block_diagram_generator.hpp lines 375–389): on a line
    `float <c>_d = COEFF * k + CONST;` return `stod(COEFF)`, and `0.0` on
    any failure (the `catch` and every early return). -/
def extract_coeff (t : Str) (pfx : Str) : Dec :=
  if !startsWith pfx t then Dec.ofInt 0
  else
    match findChr '=' t with
    | none => Dec.ofInt 0
    | some eq => extractCoeffVal (t.drop (eq + 1))

/-- The `input_var` extraction of the pre-scan's `float u_n = ...;` case:
    trim the text after `=`, drop one trailing `;`, trim again. -/
def extractUnVal (v : Str) : Str := trimStr (unSemi (trimStr v))

/-- A `prescan_tf` record (the TransferFcn data the pre-scan recovers). -/
structure PrescanTF where
  input_var : Str := []
  numerator : Str := []
  denominator : Str := []
deriving DecidableEq

/-- A `prescan_state_var` record. -/
structure PrescanSV where
  state_key : Str
  display_name : Str
  is_integrator : Bool
  reserved_sid : Int
deriving DecidableEq

/-- The mutable state of the pre-scan loop of `parse_update_body`
    (block_diagram_generator.hpp lines 331–454): the comment tracking, the
    TransferFcn scope tracking with its four extracted `k`-multipliers,
    and the outputs (reserved state variables, variable map, SID counter,
    `tf_data`).  `stopped` models the `break` on the `// Outputs`
    comment. -/
structure PrescanSt where
  scan_block_type : Str := []
  scan_block_name : Str := []
  in_tf_scope : Bool := false
  tf_brace_depth : Int := 0
  tf_name : Str := []
  tf_u_n : Str := []
  tf_b0 : Dec := Dec.ofInt 0
  tf_b1 : Dec := Dec.ofInt 0
  tf_a0 : Dec := Dec.ofInt 0
  tf_a1 : Dec := Dec.ofInt 0
  state_vars : List PrescanSV := []
  var_map : List (Str × Int × Int) := []
  sid : Int := 0
  tf_data : List (Str × PrescanTF) := []
  stopped : Bool := false
deriving DecidableEq

/-- Brace-depth step of the pre-scan's TransferFcn scope tracking. -/
def braceF (d : Int) (c : Char) : Int :=
  if c = '\x7b' then d + 1 else if c = '\x7d' then d - 1 else d

/-- Comment-line handling of the pre-scan loop: `// Outputs` stops the
    scan, a repeated `// TransferFcn: ...` inside an open TransferFcn
    block is skipped, any other `// <type>: <name>` comment records the
    pending block type and (entity-decoded) name. -/
def prescanComment (st : PrescanSt) (comment : Str) : PrescanSt :=
  if comment = str "Outputs" then { st with stopped := true }
  else if startsWith (str "TransferFcn:") comment ∧ st.scan_block_type = str "TransferFcn" then
    st
  else
    match findChr ':' comment with
    | some colon =>
        { st with scan_block_type := trimStr (comment.take colon)
                  scan_block_name := xml_decode (trimStr (comment.drop (colon + 1))) }
    | none => st

/-- Scope-close step of the TransferFcn pre-scan: when the running brace
    depth has returned to zero, register the recovered `prescan_tf` record
    and clear the scope. -/
def prescanTfFin (st : PrescanSt) : PrescanSt :=
  if st.tf_brace_depth ≤ 0 then
    let ptf : PrescanTF :=
      { input_var := st.tf_u_n
        numerator := if st.tf_b0.nonzero then '[' :: (fmtG st.tf_b0 ++ str " 1]")
                     else str "[1]"
        denominator := '[' :: (fmtG st.tf_a0 ++ str " 1]") }
    { st with tf_data := alInsert st.tf_name ptf st.tf_data
              in_tf_scope := false, scan_block_type := [], scan_block_name := [] }
  else st

/-- Body-line handling inside an open TransferFcn scope: track the brace
    depth, harvest `u_n` and the four `k`-multipliers, and on scope close
    register the recovered `prescan_tf` record. -/
def prescanTfLine (st : PrescanSt) (t : Str) : PrescanSt :=
  let st := { st with tf_brace_depth := t.foldl braceF st.tf_brace_depth }
  let st :=
    if startsWith (str "float u_n = ") t then
      match findChr '=' t with
      | some eq => { st with tf_u_n := extractUnVal (t.drop (eq + 1)) }
      | none => st
    else st
  let st := if startsWith (str "float b0_d") t then
      { st with tf_b0 := extract_coeff t (str "float b0_d = ") } else st
  let st := if startsWith (str "float b1_d") t then
      { st with tf_b1 := extract_coeff t (str "float b1_d = ") } else st
  let st := if startsWith (str "float a0_d") t then
      { st with tf_a0 := extract_coeff t (str "float a0_d = ") } else st
  let st := if startsWith (str "float a1_d") t then
      { st with tf_a1 := extract_coeff t (str "float a1_d = ") } else st
  prescanTfFin st

/-- State-variable registration of the pre-scan loop (the Integrator
    `+= ... * cfg.dt` and UnitDelay `state.X = ...` recognisers). -/
def prescanRegister (st : PrescanSt) (t : Str) : PrescanSt :=
  let st :=
    if startsWith (str "state.") t ∧ containsSub (str "+=") t ∧
       containsSub (str "* cfg.dt") t ∧ st.scan_block_type = str "Integrator" then
      match findChr '.' t, findSub (str "+=") t with
      | some dot, some plus =>
          let state_var := trimStr ((t.drop (dot + 1)).take (plus - dot - 1))
          let display := if endsWith (str "_state") state_var then
              state_var.take (state_var.length - 6) else state_var
          { st with
            state_vars := st.state_vars ++
              [⟨str "state." ++ state_var, display, true, st.sid⟩]
            var_map := alInsert (str "state." ++ state_var) (st.sid, 1) st.var_map
            sid := st.sid + 1, scan_block_type := [] }
      | _, _ => st
    else st
  if startsWith (str "state.") t ∧ containsSub (str "= ") t ∧
     containsSub (str "+=") t = false ∧ containsSub (str "_tf_") t = false ∧
     st.scan_block_type = str "UnitDelay" then
    match findChr '.' t, findChr '=' t with
    | some dot, some eq =>
        let state_var := trimStr ((t.drop (dot + 1)).take (eq - dot - 1))
        let display := if endsWith (str "_state") state_var then
            state_var.take (state_var.length - 6) else state_var
        { st with
          state_vars := st.state_vars ++
            [⟨str "state." ++ state_var, display, false, st.sid⟩]
          var_map := alInsert (str "state." ++ state_var) (st.sid, 1) st.var_map
          sid := st.sid + 1, scan_block_type := [] }
    | _, _ => st
  else st

/-- Dispatch of one trimmed pre-scan line. -/
def prescanCore (st : PrescanSt) (t : Str) : PrescanSt :=
  if st.stopped then st
  else if t.isEmpty then st
  else if startsWith (str "//") t then prescanComment st (trimStr (t.drop 2))
  else if st.in_tf_scope then prescanTfLine st t
  else if t = str "\x7b" ∧ st.scan_block_type = str "TransferFcn" then
    { st with in_tf_scope := true, tf_brace_depth := 1, tf_name := st.scan_block_name
              tf_u_n := [], tf_b0 := Dec.ofInt 0, tf_b1 := Dec.ofInt 0
              tf_a0 := Dec.ofInt 0, tf_a1 := Dec.ofInt 0 }
  else prescanRegister st t

/-- One line of the pre-scan loop. -/
def prescanStep (st : PrescanSt) (line : Str) : PrescanSt :=
  prescanCore st (trimStr line)

/-- The pre-scan pass of `parse_update_body`, fed with the incoming SID
    counter and variable map. -/
def prescan (lines : List Str) (sid0 : Int) (vm0 : List (Str × Int × Int)) : PrescanSt :=
  lines.foldl prescanStep { sid := sid0, var_map := vm0 }

/-! ### Claim C3 -/
/-- A concrete Gain block for the C3 witness. -/
def c3Blk : Block := { type := str "Gain", name := str "G", sid := str "2" }

/-- The generated parts of the empty system. -/
def c3Parts : GeneratedParts := { operation_code := str "\n        // Outputs\n" }

def c3EmptySys : System := { blocks := [], connections := [] }

/-- A model holding one empty subsystem, and a SubSystem block referring
    to it (for the C3 counterexample). -/
def c3SubModel : Model :=
  { systems := [(str "system_7", { blocks := [], connections := [] })] }

def c3SubBlk : Block :=
  { type := str "SubSystem", name := str "Inner", sid := str "7",
    subsystem_ref := str "system_7" }

/-! ### C2: TransferFcn lift round-trip -/
def joinLines : List Str → Str
  | [] => []
  | l :: rest => l ++ '\n' :: joinLines rest

def litOk (s : Str) : Bool :=
  !s.isEmpty && s.all (fun c =>
    !isTrimWs c && !(c == '*') && !(c == 'k') && !(c == '\x7b') && !(c == '\x7d'))

def lineExprOk (s : Str) : Bool :=
  (match s.head? with | some c => !isTrimWs c | none => false) &&
  (match s.getLast? with | some c => !isTrimWs c | none => false) &&
  s.all (fun c => !(c == '\x7b') && !(c == '\x7d') && !(c == '\n'))

def tfCoeffCore (pfx F0 F1 : Str) : Str := pfx ++ (F0 ++ (str " * k + " ++ (F1 ++ str ";")))

def tfSP (vp : Str) : Str := str "state." ++ (vp ++ str "_tf_")

def tfL1 (name : Str) : Str := str "        " ++ (str "// TransferFcn: " ++ name)

def tfL2 (name : Str) : Str :=
  str "        " ++ (str "// TransferFcn: " ++ (name ++ str " (order 1)"))

def tfL3 : Str := str "        " ++ str "\x7b"

def tfL4 : Str := str "            " ++ str "float k = 2.0f / cfg.dt;"

def tfL5 (F0 F1 : Str) : Str := str "            " ++ tfCoeffCore (str "float b0_d = ") F0 F1

def tfL6 (F0 F1 : Str) : Str := str "            " ++ tfCoeffCore (str "float b1_d = -") F0 F1

def tfL7 (G0 G1 : Str) : Str := str "            " ++ tfCoeffCore (str "float a0_d = ") G0 G1

def tfL8 (G0 G1 : Str) : Str := str "            " ++ tfCoeffCore (str "float a1_d = -") G0 G1

def tfL9 (inp : Str) : Str := str "            " ++ (str "float u_n = " ++ (inp ++ str ";"))

def tfL10 (vp : Str) : Str :=
  str "            " ++ (str "float y_n = (b0_d * u_n + b1_d * " ++
    (tfSP vp ++ (str "u0 - a1_d * " ++ (tfSP vp ++ str "x0) / a0_d;"))))

def tfL11 (vp : Str) : Str := str "            " ++ (tfSP vp ++ str "u0 = u_n;")

def tfL12 (vp : Str) : Str := str "            " ++ (tfSP vp ++ str "x0 = y_n;")

def tfL13 : Str := str "        " ++ str "\x7d"

def tfL14 (ov vp : Str) : Str :=
  str "        " ++ (str "auto " ++ (ov ++ (str " = " ++ (tfSP vp ++ str "x0;"))))

def tfLines (name F0 F1 G0 G1 inp vp ov : Str) : List Str :=
  [tfL1 name, tfL2 name, tfL3, tfL4, tfL5 F0 F1, tfL6 F0 F1, tfL7 G0 G1, tfL8 G0 G1,
   tfL9 inp, tfL10 vp, tfL11 vp, tfL12 vp, tfL13, tfL14 ov vp]

def tfPtf (inp : Str) (b0v a0v : Dec) : PrescanTF :=
  { input_var := inp
    numerator := if b0v.nonzero then '[' :: (fmtG b0v ++ str " 1]") else str "[1]"
    denominator := '[' :: (fmtG a0v ++ str " 1]") }

def tfStInit (sid0 : Int) (vm0 : List (Str × Int × Int)) : PrescanSt :=
  { sid := sid0, var_map := vm0 }

def tfStNamed (name : Str) (sid0 : Int) (vm0 : List (Str × Int × Int)) : PrescanSt :=
  { scan_block_type := str "TransferFcn", scan_block_name := name,
    sid := sid0, var_map := vm0 }

def tfStMid (name inpv : Str) (b0 b1 a0 a1 : Dec) (sid0 : Int)
    (vm0 : List (Str × Int × Int)) : PrescanSt :=
  { scan_block_type := str "TransferFcn", scan_block_name := name,
    in_tf_scope := true, tf_brace_depth := 1, tf_name := name, tf_u_n := inpv,
    tf_b0 := b0, tf_b1 := b1, tf_a0 := a0, tf_a1 := a1,
    sid := sid0, var_map := vm0 }

def tfStDone (name inpv : Str) (b0 b1 a0 a1 : Dec) (sid0 : Int)
    (vm0 : List (Str × Int × Int)) : PrescanSt :=
  { scan_block_type := [], scan_block_name := [],
    in_tf_scope := false, tf_brace_depth := 0, tf_name := name, tf_u_n := inpv,
    tf_b0 := b0, tf_b1 := b1, tf_a0 := a0, tf_a1 := a1,
    sid := sid0, var_map := vm0,
    tf_data := [(name, tfPtf inpv b0 a0)] }

def c2Blk : Block :=
  { type := str "TransferFcn", name := str "Filter", sid := str "5",
    parameters := [(str "Denominator", str "[0.02 1]"), (str "Numerator", str "[0.3 1]")] }

/-- The C2 counterexample block: an order-2 TransferFcn with
    `N = [0.3 0]`, `D = [1 0.5 2]`. -/
def c2CexBlk : Block :=
  { type := str "TransferFcn", name := str "Filter", sid := str "5",
    parameters := [(str "Denominator", str "[1 0.5 2]"), (str "Numerator", str "[0.3 0]")] }

/-- The block code `generate_block_code` emits for `c2CexBlk` (comment
    line plus the order-2 Tustin template), written as the same atoms the
    emission concatenates, reassociated to the right. -/
def c2CexBody : Str :=
  indent_ ++ (str "// " ++ (str "TransferFcn" ++ (str ": " ++ (c2CexBlk.name ++
    '\n' :: (indent_ ++ (str "// TransferFcn: " ++ (c2CexBlk.name ++ (str " (order " ++
    '2' :: (str ")\n" ++ (indent_ ++ (str "\x7b\n" ++ (indent_ ++
    (str "    float k = 2.0f / cfg.dt;\n" ++ (indent_ ++ (str "    float k2 = k * k;\n" ++
    (indent_ ++ (str "    float b0_d = " ++ (str "0.000000f" ++ (str "*k2 + " ++
    (str "0.300000f" ++ (str "*k + " ++ (str "0.000000f" ++ (str ";\n" ++ (indent_ ++
    (str "    float b1_d = 2.0f*" ++ (str "0.000000f" ++ (str " - 2.0f*" ++ (str "0.000000f" ++
    (str "*k2;\n" ++ (indent_ ++ (str "    float b2_d = " ++ (str "0.000000f" ++ (str "*k2 - " ++
    (str "0.300000f" ++ (str "*k + " ++ (str "0.000000f" ++ (str ";\n" ++ (indent_ ++
    (str "    float a0_d = " ++ (str "1.000000f" ++ (str "*k2 + " ++ (str "0.500000f" ++
    (str "*k + " ++ (str "2.000000f" ++ (str ";\n" ++ (indent_ ++
    (str "    float a1_d = 2.0f*" ++ (str "2.000000f" ++ (str " - 2.0f*" ++ (str "1.000000f" ++
    (str "*k2;\n" ++ (indent_ ++ (str "    float a2_d = " ++ (str "1.000000f" ++ (str "*k2 - " ++
    (str "0.500000f" ++ (str "*k + " ++ (str "2.000000f" ++ (str ";\n" ++ (indent_ ++
    (str "    float u_n = " ++ (str "in.u" ++ (str ";\n" ++ (indent_ ++
    (str "    float y_n = (b0_d*u_n + b1_d*" ++ (str "state." ++ (str "Filter" ++ (str "_tf_" ++
    (str "u0 + b2_d*" ++ (str "state." ++ (str "Filter" ++ (str "_tf_" ++ (str "u1 - a1_d*" ++
    (str "state." ++ (str "Filter" ++ (str "_tf_" ++ (str "x0 - a2_d*" ++ (str "state." ++
    (str "Filter" ++ (str "_tf_" ++ (str "x1) / a0_d;\n" ++ (indent_ ++ (str "    " ++
    (str "state." ++ (str "Filter" ++ (str "_tf_" ++ (str "u1 = " ++ (str "state." ++
    (str "Filter" ++ (str "_tf_" ++ (str "u0;\n" ++ (indent_ ++ (str "    " ++ (str "state." ++
    (str "Filter" ++ (str "_tf_" ++ (str "u0 = u_n;\n" ++ (indent_ ++ (str "    " ++
    (str "state." ++ (str "Filter" ++ (str "_tf_" ++ (str "x1 = " ++ (str "state." ++
    (str "Filter" ++ (str "_tf_" ++ (str "x0;\n" ++ (indent_ ++ (str "    " ++ (str "state." ++
    (str "Filter" ++ (str "_tf_" ++ (str "x0 = y_n;\n" ++ (indent_ ++ (str "\x7d\n" ++
    (indent_ ++ (str "auto " ++ (str "Filter" ++ (str " = " ++ (str "state." ++ (str "Filter" ++
    (str "_tf_" ++
    str "x0;\n"))))))))))))))))))))))))))))))))))))))))))))))))))))))))))))))))))))))))))))))))))))))))))))))))))))))))))))))))))))))))))

/-- The lines of `c2CexBody`. -/
def c2CexLines : List Str :=
  [str "        // TransferFcn: Filter",
   str "        // TransferFcn: Filter (order 2)",
   str "        \x7b",
   str "            float k = 2.0f / cfg.dt;",
   str "            float k2 = k * k;",
   str "            float b0_d = 0.000000f*k2 + 0.300000f*k + 0.000000f;",
   str "            float b1_d = 2.0f*0.000000f - 2.0f*0.000000f*k2;",
   str "            float b2_d = 0.000000f*k2 - 0.300000f*k + 0.000000f;",
   str "            float a0_d = 1.000000f*k2 + 0.500000f*k + 2.000000f;",
   str "            float a1_d = 2.0f*2.000000f - 2.0f*1.000000f*k2;",
   str "            float a2_d = 1.000000f*k2 - 0.500000f*k + 2.000000f;",
   str "            float u_n = in.u;",
   str "            float y_n = (b0_d*u_n + b1_d*state.Filter_tf_u0 + b2_d*state.Filter_tf_u1 - a1_d*state.Filter_tf_x0 - a2_d*state.Filter_tf_x1) / a0_d;",
   str "            state.Filter_tf_u1 = state.Filter_tf_u0;",
   str "            state.Filter_tf_u0 = u_n;",
   str "            state.Filter_tf_x1 = state.Filter_tf_x0;",
   str "            state.Filter_tf_x0 = y_n;",
   str "        \x7d",
   str "        auto Filter = state.Filter_tf_x0;"]

def realDep (sys : System) (d : Str) : Bool :=
  match sys.find_block_by_sid d with
  | some b => !b.is_inport
  | none => false

def kahnInv (sys : System) (deps0 deps : List (Str × List Str)) (ind : List (Str × Int))
    (q out : List Str) : Prop :=
  deps.map Prod.fst = deps0.map Prod.fst
  ∧ (∀ k ∈ deps0.map Prod.fst, ((alLookup k deps).getD []).Nodup)
  ∧ (∀ k ∈ deps0.map Prod.fst, ∀ d,
      d ∈ (alLookup k deps).getD [] ↔ (d ∈ (alLookup k deps0).getD [] ∧ d ∉ out))
  ∧ (∀ k ∈ deps0.map Prod.fst,
      alLookup k ind = some ((((alLookup k deps).getD []).filter (realDep sys)).length : Int))
  ∧ (out ++ q).Nodup
  ∧ (∀ k ∈ out ++ q, k ∈ deps0.map Prod.fst)
  ∧ (∀ k ∈ deps0.map Prod.fst, k ∈ out ++ q →
      ((alLookup k deps).getD []).filter (realDep sys) = [])
  ∧ (∀ k ∈ deps0.map Prod.fst, ((alLookup k deps).getD []).filter (realDep sys) = [] →
      k ∈ out ++ q)
  ∧ (∀ k pre post, out = pre ++ k :: post →
      ∀ d ∈ (alLookup k deps0).getD [], realDep sys d = true → d ∈ pre)

def c4sys : System :=
  { blocks :=
      [ { type := str "Inport", name := str "In", sid := str "1" },
        { type := str "Gain", name := str "G1", sid := str "2" },
        { type := str "Gain", name := str "G2", sid := str "3" },
        { type := str "Outport", name := str "Out", sid := str "4" } ],
    connections :=
      [ { source := str "1#out:1", destination := str "2#in:1" },
        { source := str "2#out:1", destination := str "3#in:1" },
        { source := str "3#out:1", destination := str "4#in:1" } ] }

def c4deps : List (Str × List Str) :=
  [(str "2", []), (str "3", [str "2"]), (str "4", [str "3"])]

def c4binputs : List (Str × List Str) :=
  [(str "2", [str "0.0f /* unknown */"]),
   (str "3", [str "0.0f /* unknown */"]),
   (str "4", [str "0.0f /* unknown */"])]

def c4rk (s : Str) : Nat :=
  if s = str "3" then 1 else if s = str "4" then 2 else 0

/-! ### C6: the OC lexer/parser update-body handling (oc_parser.hpp) and
     the reverse lifter's own extractor (block_diagram_generator.hpp). -/
/-- Model of `oc::parser::token_type` (oc_parser.hpp lines 85-100). -/
inductive TokKind where
  | kwNamespace | kwElement | kwComponent | kwController
  | kwInput | kwOutput | kwState | kwConfig | kwMemory
  | kwUpdate | kwOperation | kwFrequency
  | tyFloat | tyInt | tyAuto
  | identifier | number | stringLit
  | lbrace | rbrace | lparen | rparen | semicolon | comma | colon
  | opAssign | opDot | opScope
  | comment | eof
deriving DecidableEq

/-- Model of `oc::parser::token` (oc_parser.hpp lines 102-107). -/
structure OCTok where
  kind : TokKind := .eof
  text : Str := []
  line : Nat := 0
  col : Nat := 0
deriving DecidableEq

/-- The characters `lexer::skip_whitespace` consumes (oc_parser.hpp
    lines 212-222). -/
def isLexWs (c : Char) : Bool := c = ' ' || c = '\t' || c = '\r' || c = '\n'

/-- One position step of `lexer::advance` on the (line, column) pair
    (oc_parser.hpp lines 225-230). -/
def lexAdv (lc : Nat × Nat) (c : Char) : Nat × Nat :=
  if c = '\n' then (lc.1 + 1, 1) else (lc.1, lc.2 + 1)

def lexAdvs (lc : Nat × Nat) (s : Str) : Nat × Nat := s.foldl lexAdv lc

/-- Model of `lexer::classify_keyword` (oc_parser.hpp lines 233-250). -/
def classify_keyword (text : Str) : TokKind :=
  if text = str "namespace" then .kwNamespace
  else if text = str "element" then .kwElement
  else if text = str "component" then .kwComponent
  else if text = str "controller" then .kwController
  else if text = str "input" then .kwInput
  else if text = str "output" then .kwOutput
  else if text = str "state" then .kwState
  else if text = str "config" then .kwConfig
  else if text = str "memory" then .kwMemory
  else if text = str "update" then .kwUpdate
  else if text = str "operation" then .kwOperation
  else if text = str "frequency" then .kwFrequency
  else if text = str "float" then .tyFloat
  else if text = str "int" then .tyInt
  else if text = str "auto" then .tyAuto
  else .identifier

/-- The string-literal content scan of `lexer::next_token` (oc_parser.hpp
    lines 150-156): stop at an unescaped quote, a backslash consumes the
    following character.  Returns the content and the rest starting at the
    closing quote (if any). -/
def lexStrF : Nat → Str → Str × Str
  | 0, s => ([], s)
  | _ + 1, [] => ([], [])
  | fuel + 1, c :: cs =>
      if c = '"' then ([], c :: cs)
      else if c = '\\' then
        match cs with
        | [] => ([c], [])
        | c2 :: cs2 =>
            let r := lexStrF fuel cs2
            (c :: c2 :: r.1, r.2)
      else
        let r := lexStrF fuel cs
        (c :: r.1, r.2)

/-- Model of `lexer::next_token` (oc_parser.hpp lines 136-210) on a
    nonempty rest of the input: returns the token and the characters it
    consumed. -/
def nextToken (line col : Nat) (c : Char) (rs : Str) : OCTok × Str :=
  if c = '/' && (match rs with | '/' :: _ => true | _ => false) then
    let text := (c :: rs).takeWhile (fun ch => !(ch = '\n'))
    ({ kind := .comment, text := text, line := line, col := col }, text)
  else if c = '"' then
    let r := lexStrF rs.length rs
    let closing : Str := match r.2 with | '"' :: _ => ['"'] | _ => []
    ({ kind := .stringLit, text := r.1, line := line, col := col },
      '"' :: r.1 ++ closing)
  else if c = '\x7b' then ({ kind := .lbrace, text := ['\x7b'], line := line, col := col }, [c])
  else if c = '\x7d' then ({ kind := .rbrace, text := ['\x7d'], line := line, col := col }, [c])
  else if c = '(' then ({ kind := .lparen, text := str "(", line := line, col := col }, [c])
  else if c = ')' then ({ kind := .rparen, text := str ")", line := line, col := col }, [c])
  else if c = ';' then ({ kind := .semicolon, text := str ";", line := line, col := col }, [c])
  else if c = ',' then ({ kind := .comma, text := str ",", line := line, col := col }, [c])
  else if c = '=' then ({ kind := .opAssign, text := str "=", line := line, col := col }, [c])
  else if c = '.' then ({ kind := .opDot, text := str ".", line := line, col := col }, [c])
  else if c = ':' then
    match rs with
    | ':' :: _ => ({ kind := .opScope, text := str "::", line := line, col := col }, str "::")
    | _ => ({ kind := .colon, text := str ":", line := line, col := col }, [c])
  else if isDigitChar c || (c = '-' && (match rs with | d :: _ => isDigitChar d | [] => false)) then
    let s1 := if c = '-' then rs else c :: rs
    let neg : Str := if c = '-' then ['-'] else []
    let d1 := s1.takeWhile (fun ch => isDigitChar ch || ch = '.')
    let s2 := s1.drop d1.length
    let expPart : Str :=
      match s2 with
      | e :: s3 =>
          if e = 'e' || e = 'E' then
            match s3 with
            | sgn :: s4 =>
                if sgn = '+' || sgn = '-' then e :: sgn :: s4.takeWhile isDigitChar
                else e :: s3.takeWhile isDigitChar
            | [] => [e]
          else []
      | [] => []
    let s5 := s2.drop expPart.length
    let suffix : Str := match s5 with
      | f :: _ => if f = 'f' || f = 'F' then [f] else []
      | [] => []
    let text := neg ++ d1 ++ expPart ++ suffix
    ({ kind := .number, text := text, line := line, col := col }, text)
  else if isAlphaChar c || c = '_' then
    let text := (c :: rs).takeWhile (fun ch => isAlnumChar ch || ch = '_')
    ({ kind := classify_keyword text, text := text, line := line, col := col }, text)
  else
    ({ kind := .identifier, text := [c], line := line, col := col }, [c])

/-- The `lexer::tokenize` loop (oc_parser.hpp lines 122-134): skip
    whitespace, lex a token, drop comments, and finally append the EOF
    token. -/
def tokenizeF : Nat → Str → Nat × Nat → List OCTok
  | 0, _, _ => []
  | fuel + 1, rest, lc =>
      let ws := rest.takeWhile isLexWs
      let lc1 := lexAdvs lc ws
      match rest.drop ws.length with
      | [] => [{ kind := .eof, text := [], line := lc1.1, col := lc1.2 }]
      | c :: rs =>
          let r := nextToken lc1.1 lc1.2 c rs
          let lc2 := lexAdvs lc1 r.2
          let rest2 := (c :: rs).drop r.2.length
          if r.1.kind = .comment then tokenizeF fuel rest2 lc2
          else r.1 :: tokenizeF fuel rest2 lc2

def tokenize (input : Str) : List OCTok := tokenizeF (input.length + 1) input (1, 1)

/-- Model of `oc::parser::oc_var_decl` (`type` is spelt `vtype`: `type`
    is reserved in Lean). -/
structure OCVarDecl where
  vtype : Str := []
  name : Str := []
  default_value : Str := []
  comment : Str := []
deriving DecidableEq

/-- Model of `oc::parser::oc_section` (`variables` is spelt `vars`:
    `variables` is reserved in Lean). -/
structure OCSection where
  kind : Str := []
  vars : List OCVarDecl := []
deriving DecidableEq

/-- Model of `oc::parser::oc_update_body`. -/
structure OCUpdateBody where
  raw_code : Str := []
deriving DecidableEq

/-- Model of `oc::parser::oc_component`. -/
structure OCComponent where
  name : Str := []
  sections : List OCSection := []
  update : OCUpdateBody := {}
deriving DecidableEq

/-- Model of `oc::parser::oc_element`. -/
structure OCElement where
  name : Str := []
  frequency : Str := []
  sections : List OCSection := []
  update : OCUpdateBody := {}
deriving DecidableEq

/-- Model of `oc::parser::oc_namespace`. -/
structure OCNamespace where
  name : Str := []
  elements : List OCElement := []
  components : List OCComponent := []
deriving DecidableEq

/-- Model of `oc::parser::oc_file`. -/
structure OCFile where
  namespaces : List OCNamespace := []
deriving DecidableEq

def tokEof : OCTok := {}

def tokAt (toks : List OCTok) (pos : Nat) : OCTok := toks.getD pos tokEof

/-- Model of `oc_parser::at_end` (oc_parser.hpp line 513). -/
def pAtEnd (toks : List OCTok) (pos : Nat) : Bool :=
  pos ≥ toks.length || (tokAt toks pos).kind = .eof

/-- Model of `oc_parser::check` (oc_parser.hpp lines 515-517). -/
def pCheck (toks : List OCTok) (pos : Nat) (k : TokKind) : Bool :=
  !pAtEnd toks pos && (tokAt toks pos).kind = k

/-- Model of `oc_parser::expect` (oc_parser.hpp lines 523-529): the error
    channel is modelled as a running error count. -/
def pExpect (toks : List OCTok) (pos : Nat) (errs : Nat) (k : TokKind) : Nat × Nat :=
  if pCheck toks pos k then (pos + 1, errs) else (pos, errs + 1)

/-- Model of `oc_parser::is_keyword_usable_as_name` (oc_parser.hpp lines
    566-572). -/
def pKwName (toks : List OCTok) (pos : Nat) : Bool :=
  if pAtEnd toks pos then false
  else
    let t := (tokAt toks pos).kind
    t = .kwInput || t = .kwOutput || t = .kwState || t = .kwConfig || t = .kwMemory

/-- Model of `oc_parser::expect_identifier` (oc_parser.hpp lines 531-545). -/
def pExpectIdentifier (toks : List OCTok) (pos : Nat) (errs : Nat) : Str × Nat × Nat :=
  if pCheck toks pos .identifier then ((tokAt toks pos).text, pos + 1, errs)
  else if pKwName toks pos then ((tokAt toks pos).text, pos + 1, errs)
  else (str "<error>", pos, errs + 1)

/-- Model of `oc_parser::is_type_token` (oc_parser.hpp lines 562-564). -/
def pTypeTok (toks : List OCTok) (pos : Nat) : Bool :=
  pCheck toks pos .tyFloat || pCheck toks pos .tyInt || pCheck toks pos .tyAuto

/-- Model of `oc_parser::is_section_keyword` (oc_parser.hpp lines 575-579). -/
def pSectionKw (toks : List OCTok) (pos : Nat) : Bool :=
  pCheck toks pos .kwInput || pCheck toks pos .kwOutput ||
  pCheck toks pos .kwState || pCheck toks pos .kwConfig ||
  pCheck toks pos .kwMemory || pCheck toks pos .kwFrequency

/-- Model of `oc_parser::skip_identifier` (oc_parser.hpp lines 547-549). -/
def pSkipIdentifier (toks : List OCTok) (pos : Nat) : Nat :=
  if pCheck toks pos .identifier || pKwName toks pos then pos + 1 else pos

/-- The loop of `oc_parser::skip_brace_block` (oc_parser.hpp lines
    551-560). -/
def sbbF : Nat → List OCTok → Nat → Int → Nat
  | 0, _, pos, _ => pos
  | fuel + 1, toks, pos, depth =>
      if !pAtEnd toks pos && depth > 0 then
        let d1 := if pCheck toks pos .lbrace then depth + 1 else depth
        let d2 := if pCheck toks pos .rbrace then d1 - 1 else d1
        sbbF fuel toks (pos + 1) d2
      else pos

def pSkipBraceBlock (toks : List OCTok) (pos : Nat) : Nat :=
  if pCheck toks pos .lbrace then sbbF (toks.length + 1) toks (pos + 1) 1 else pos

/-- The token-separator reconstruction of `parse_update` for a non-first
    token (oc_parser.hpp lines 477-489): newlines and indentation when the
    line advances, the exact gap when the column exceeds the previous
    token's end, and a single space otherwise. -/
def tokSep (prev cur : OCTok) : Str :=
  if cur.line > prev.line then
    List.replicate (cur.line - prev.line) '\n' ++ List.replicate (cur.col - 1) ' '
  else if cur.col > prev.col + prev.text.length then
    List.replicate (cur.col - (prev.col + prev.text.length)) ' '
  else [' ']

/-- The reconstruction loop of `parse_update` after its first token
    (oc_parser.hpp lines 474-499). -/
def reconCore (prev : OCTok) : List OCTok → Str
  | [] => []
  | t :: ts => tokSep prev t ++ t.text ++ reconCore t ts

/-- The leading-whitespace branch of the reconstruction (oc_parser.hpp
    lines 490-497). -/
def reconLead (prevTok first : OCTok) : Str :=
  if first.line > prevTok.line then '\n' :: List.replicate (first.col - 1) ' ' else []

/-- The brace-matching scan of `parse_update` (oc_parser.hpp lines
    466-473): returns the position of the closing brace (or the end). -/
def puScanF : Nat → List OCTok → Nat → Int → Nat
  | 0, _, pos, _ => pos
  | fuel + 1, toks, pos, depth =>
      if pAtEnd toks pos then pos
      else
        let d1 := if pCheck toks pos .lbrace then depth + 1 else depth
        if pCheck toks pos .rbrace then
          if d1 - 1 = 0 then pos else puScanF fuel toks (pos + 1) (d1 - 1)
        else puScanF fuel toks (pos + 1) d1

/-- Model of `oc_parser::parse_update` (oc_parser.hpp lines 459-509). -/
def parse_update (toks : List OCTok) (pos : Nat) (errs : Nat) :
    OCUpdateBody × Nat × Nat :=
  let pos1 := pos + 1
  let pe := pExpect toks pos1 errs .lbrace
  let start := pe.1
  let endPos := puScanF (toks.length + 1) toks start 1
  let slice := (toks.drop start).take (endPos - start)
  let raw : Str :=
    match slice with
    | [] => []
    | t :: ts =>
        reconLead (tokAt toks (if start > 0 then start - 1 else 0)) t
          ++ t.text ++ reconCore t ts
  let pe2 := pExpect toks endPos pe.2 .rbrace
  ({ raw_code := raw }, pe2.1, pe2.2)

/-- The expression-collection loop of `parse_var_decl` (oc_parser.hpp
    lines 438-450). -/
def pvdExprF : Nat → List OCTok → Nat → Int → Str → Str × Nat
  | 0, _, pos, _, expr => (expr, pos)
  | fuel + 1, toks, pos, depth, expr =>
      if pAtEnd toks pos then (expr, pos)
      else if pCheck toks pos .semicolon && depth = 0 then (expr, pos)
      else
        let d1 := if pCheck toks pos .lparen then depth + 1 else depth
        let d2 := if pCheck toks pos .rparen then d1 - 1 else d1
        let expr2 := if expr.isEmpty then (tokAt toks pos).text
          else expr ++ [' '] ++ (tokAt toks pos).text
        pvdExprF fuel toks (pos + 1) d2 expr2

/-- Model of `oc_parser::parse_var_decl` (oc_parser.hpp lines 411-456). -/
def parse_var_decl (toks : List OCTok) (pos : Nat) (errs : Nat) :
    OCVarDecl × Nat × Nat :=
  if pTypeTok toks pos || pCheck toks pos .identifier then
    let ty := (tokAt toks pos).text
    let pos1 := pos + 1
    if pCheck toks pos1 .identifier || pKwName toks pos1 then
      let nm := (tokAt toks pos1).text
      let pos2 := pos1 + 1
      if pCheck toks pos2 .opAssign then
        let r := pvdExprF (toks.length + 1) toks (pos2 + 1) 0 []
        let pos3 := if pCheck toks r.2 .semicolon then r.2 + 1 else r.2
        ({ vtype := ty, name := nm, default_value := r.1 }, pos3, errs)
      else
        let pos3 := if pCheck toks pos2 .semicolon then pos2 + 1 else pos2
        ({ vtype := ty, name := nm }, pos3, errs)
    else
      ({ vtype := ty }, pos1, errs + 1)
  else
    ({}, pos + 1, errs + 1)

/-- The brace-style variable loop of `parse_section` (oc_parser.hpp lines
    391-395). -/
def psVarsBraceF : Nat → List OCTok → Nat → Nat → List OCVarDecl →
    List OCVarDecl × Nat × Nat
  | 0, _, pos, errs, acc => (acc, pos, errs)
  | fuel + 1, toks, pos, errs, acc =>
      if !pCheck toks pos .rbrace && !pAtEnd toks pos then
        let r := parse_var_decl toks pos errs
        psVarsBraceF fuel toks r.2.1 r.2.2 (acc ++ [r.1])
      else (acc, pos, errs)

/-- The colon-style variable loop of `parse_section` (oc_parser.hpp lines
    396-402). -/
def psVarsColonF : Nat → List OCTok → Nat → Nat → List OCVarDecl →
    List OCVarDecl × Nat × Nat
  | 0, _, pos, errs, acc => (acc, pos, errs)
  | fuel + 1, toks, pos, errs, acc =>
      if !pSectionKw toks pos && !pCheck toks pos .rbrace &&
          !pCheck toks pos .kwUpdate && !pCheck toks pos .kwOperation &&
          !pAtEnd toks pos then
        let r := parse_var_decl toks pos errs
        psVarsColonF fuel toks r.2.1 r.2.2 (acc ++ [r.1])
      else (acc, pos, errs)

/-- Model of `oc_parser::parse_section` (oc_parser.hpp lines 385-408). -/
def parse_section (toks : List OCTok) (pos : Nat) (errs : Nat) :
    OCSection × Nat × Nat :=
  let kind := (tokAt toks pos).text
  let pos1 := pos + 1
  if pCheck toks pos1 .lbrace then
    let r := psVarsBraceF (toks.length + 1) toks (pos1 + 1) errs []
    let pe := pExpect toks r.2.1 r.2.2 .rbrace
    ({ kind := kind, vars := r.1 }, pe.1, pe.2)
  else if pCheck toks pos1 .colon then
    let r := psVarsColonF (toks.length + 1) toks (pos1 + 1) errs []
    ({ kind := kind, vars := r.1 }, r.2.1, r.2.2)
  else
    let pe := pExpect toks pos1 errs .lbrace
    ({ kind := kind }, pe.1, pe.2)

/-- The collection loop of `parse_frequency` (oc_parser.hpp lines
    367-377). -/
def pfLoopF : Nat → List OCTok → Nat → Str → Str × Nat
  | 0, _, pos, freq => (freq, pos)
  | fuel + 1, toks, pos, freq =>
      if !pCheck toks pos .semicolon && !pCheck toks pos .rbrace &&
          !pCheck toks pos .kwInput && !pCheck toks pos .kwOutput &&
          !pCheck toks pos .kwState && !pCheck toks pos .kwConfig &&
          !pCheck toks pos .kwUpdate && !pCheck toks pos .kwOperation &&
          !pAtEnd toks pos then
        let freq2 := if freq.isEmpty then (tokAt toks pos).text
          else freq ++ [' '] ++ (tokAt toks pos).text
        pfLoopF fuel toks (pos + 1) freq2
      else (freq, pos)

/-- Model of `oc_parser::parse_frequency` (oc_parser.hpp lines 361-380). -/
def parse_frequency (toks : List OCTok) (pos : Nat) (errs : Nat) :
    Str × Nat × Nat :=
  let pe := pExpect toks pos errs .kwFrequency
  let pos1 := if pCheck toks pe.1 .colon then pe.1 + 1 else pe.1
  let r := pfLoopF (toks.length + 1) toks pos1 []
  let pos2 := if pCheck toks r.2 .semicolon then r.2 + 1 else r.2
  (r.1, pos2, pe.2)

/-- The dispatch loop of `parse_element` (oc_parser.hpp lines 320-334). -/
def peLoopF : Nat → List OCTok → Nat → Nat → OCElement → OCElement × Nat × Nat
  | 0, _, pos, errs, elem => (elem, pos, errs)
  | fuel + 1, toks, pos, errs, elem =>
      if !pCheck toks pos .rbrace && !pAtEnd toks pos then
        if pCheck toks pos .kwFrequency then
          let r := parse_frequency toks pos errs
          peLoopF fuel toks r.2.1 r.2.2 { elem with frequency := r.1 }
        else if pCheck toks pos .kwInput || pCheck toks pos .kwOutput ||
            pCheck toks pos .kwState || pCheck toks pos .kwConfig ||
            pCheck toks pos .kwMemory then
          let r := parse_section toks pos errs
          peLoopF fuel toks r.2.1 r.2.2 { elem with sections := elem.sections ++ [r.1] }
        else if pCheck toks pos .kwUpdate || pCheck toks pos .kwOperation then
          let r := parse_update toks pos errs
          peLoopF fuel toks r.2.1 r.2.2 { elem with update := r.1 }
        else
          peLoopF fuel toks (pos + 1) (errs + 1) elem
      else (elem, pos, errs)

/-- Model of `oc_parser::parse_element` (oc_parser.hpp lines 313-336). -/
def parse_element (toks : List OCTok) (pos : Nat) (errs : Nat) :
    OCElement × Nat × Nat :=
  let pe := pExpect toks pos errs .kwElement
  let ri := pExpectIdentifier toks pe.1 pe.2
  let pb := pExpect toks ri.2.1 ri.2.2 .lbrace
  let r := peLoopF (toks.length + 1) toks pb.1 pb.2 { name := ri.1 }
  let pe2 := pExpect toks r.2.1 r.2.2 .rbrace
  (r.1, pe2.1, pe2.2)

/-- The dispatch loop of `parse_component` (oc_parser.hpp lines 344-357). -/
def pcLoopF : Nat → List OCTok → Nat → Nat → OCComponent → OCComponent × Nat × Nat
  | 0, _, pos, errs, comp => (comp, pos, errs)
  | fuel + 1, toks, pos, errs, comp =>
      if !pCheck toks pos .rbrace && !pAtEnd toks pos then
        if pCheck toks pos .kwInput || pCheck toks pos .kwOutput ||
            pCheck toks pos .kwState || pCheck toks pos .kwConfig ||
            pCheck toks pos .kwMemory then
          let r := parse_section toks pos errs
          pcLoopF fuel toks r.2.1 r.2.2 { comp with sections := comp.sections ++ [r.1] }
        else if pCheck toks pos .kwUpdate || pCheck toks pos .kwOperation then
          let r := parse_update toks pos errs
          pcLoopF fuel toks r.2.1 r.2.2 { comp with update := r.1 }
        else
          pcLoopF fuel toks (pos + 1) (errs + 1) comp
      else (comp, pos, errs)

/-- Model of `oc_parser::parse_component` (oc_parser.hpp lines 338-359). -/
def parse_component (toks : List OCTok) (pos : Nat) (errs : Nat) :
    OCComponent × Nat × Nat :=
  let pe := pExpect toks pos errs .kwComponent
  let ri := pExpectIdentifier toks pe.1 pe.2
  let pb := pExpect toks ri.2.1 ri.2.2 .lbrace
  let r := pcLoopF (toks.length + 1) toks pb.1 pb.2 { name := ri.1 }
  let pe2 := pExpect toks r.2.1 r.2.2 .rbrace
  (r.1, pe2.1, pe2.2)

/-- The dispatch loop of `parse_namespace` (oc_parser.hpp lines 294-308). -/
def pnLoopF : Nat → List OCTok → Nat → Nat → OCNamespace → OCNamespace × Nat × Nat
  | 0, _, pos, errs, ns => (ns, pos, errs)
  | fuel + 1, toks, pos, errs, ns =>
      if !pCheck toks pos .rbrace && !pAtEnd toks pos then
        if pCheck toks pos .kwElement then
          let r := parse_element toks pos errs
          pnLoopF fuel toks r.2.1 r.2.2 { ns with elements := ns.elements ++ [r.1] }
        else if pCheck toks pos .kwComponent then
          let r := parse_component toks pos errs
          pnLoopF fuel toks r.2.1 r.2.2 { ns with components := ns.components ++ [r.1] }
        else if pCheck toks pos .kwController then
          let pos1 := pSkipIdentifier toks (pos + 1)
          let pos2 := pSkipBraceBlock toks pos1
          pnLoopF fuel toks pos2 errs ns
        else
          pnLoopF fuel toks (pos + 1) (errs + 1) ns
      else (ns, pos, errs)

/-- Model of `oc_parser::parse_namespace` (oc_parser.hpp lines 288-311). -/
def parse_namespace (toks : List OCTok) (pos : Nat) (errs : Nat) :
    OCNamespace × Nat × Nat :=
  let pe := pExpect toks pos errs .kwNamespace
  let ri := pExpectIdentifier toks pe.1 pe.2
  let pb := pExpect toks ri.2.1 ri.2.2 .lbrace
  let r := pnLoopF (toks.length + 1) toks pb.1 pb.2 { name := ri.1 }
  let pe2 := pExpect toks r.2.1 r.2.2 .rbrace
  (r.1, pe2.1, pe2.2)

/-- The top-level loop of `oc_parser::parse` (oc_parser.hpp lines
    272-279). -/
def ptLoopF : Nat → List OCTok → Nat → Nat → List OCNamespace →
    List OCNamespace × Nat
  | 0, _, _, errs, acc => (acc, errs)
  | fuel + 1, toks, pos, errs, acc =>
      if !pAtEnd toks pos then
        if pCheck toks pos .kwNamespace then
          let r := parse_namespace toks pos errs
          ptLoopF fuel toks r.2.1 r.2.2 (acc ++ [r.1])
        else
          ptLoopF fuel toks (pos + 1) (errs + 1) acc
      else (acc, errs)

/-- Model of `oc_parser::parse` (oc_parser.hpp lines 264-281) together
    with `has_errors` as the error count. -/
def oc_parse (source : Str) : OCFile × Nat :=
  let toks := tokenize source
  let r := ptLoopF (toks.length + 1) toks 0 0 []
  ({ namespaces := r.1 }, r.2)

/-- The brace balance of one line, as counted by `extract_update_body`
    (block_diagram_generator.hpp lines 254-258, 266-268, 279-283). -/
def braceDelta (line : Str) : Int :=
  line.foldl (fun d c => if c = '\x7b' then d + 1 else if c = '\x7d' then d - 1 else d) 0

/-- The in-body phase of `extract_update_body` (block_diagram_generator.hpp
    lines 277-290): collect lines verbatim until the braces close. -/
def eubBody : Int → List Str → List Str
  | _, [] => []
  | depth, l :: ls =>
      let d := depth + braceDelta l
      if d ≤ 0 then [] else l :: eubBody d ls

/-- The update-seeking phase of `extract_update_body`
    (block_diagram_generator.hpp lines 262-275). -/
def eubSeekUpdate : Int → List Str → List Str
  | _, [] => []
  | depth, l :: ls =>
      let t := trimStr l
      let d := depth + braceDelta l
      if startsWith (str "update \x7b") t || startsWith (str "update\x7b") t
          || t = str "update" then
        eubBody 1 ls
      else eubSeekUpdate d ls

/-- The entity-seeking phase of `extract_update_body`
    (block_diagram_generator.hpp lines 246-260). -/
def eubSeekEntity (kind name : Str) : List Str → List Str
  | [] => []
  | l :: ls =>
      let t := trimStr l
      if startsWith (kind ++ [' '] ++ name ++ str " \x7b") t
          || startsWith (kind ++ [' '] ++ name ++ str "\x7b") t
          || t = kind ++ [' '] ++ name then
        eubSeekUpdate (braceDelta l) ls
      else eubSeekEntity kind name ls

/-- Model of `block_diagram_generator::extract_update_body`
    (block_diagram_generator.hpp lines 231-294). -/
def extract_update_body (raw_source entity_name entity_kind : Str) : List Str :=
  eubSeekEntity entity_kind entity_name (getLines raw_source)

/-- The concrete source file of the C6 analysis. -/
def c6src : Str := str "namespace ns \x7b\nelement ctl \x7b\nupdate \x7b\nx = cfg.a; // gain\ny = f(x);\n\x7d\n\x7d\n\x7d\n"

def c6raw : Str :=
  (((oc_parse c6src).1.namespaces.headD {}).elements.headD {}).update.raw_code

/-! ### Lemmas about `findSub` and `occursAt` -/
theorem startsWith_iff {p s : Str} : startsWith p s = true ↔ p <+: s := by
  induction p generalizing s with
  | nil => simp [startsWith]
  | cons a ps ih =>
      cases s with
      | nil => simp [startsWith]
      | cons b t =>
          simp [startsWith, Bool.and_eq_true, beq_iff_eq, ih, List.cons_prefix_cons]

theorem occursAt_cons_succ (n : Str) (c : Char) (rest : Str) (j : Nat) :
    occursAt n (c :: rest) (j + 1) ↔ occursAt n rest j := by
  simp [occursAt, List.drop_succ_cons]

theorem occursAt_nil_eq (n : Str) (i : Nat) (h : occursAt n [] i) : n = [] := by
  have hp : n <+: ([] : Str) := by simpa [occursAt] using h
  have h0 : n.length = 0 := by simpa using hp.length_le
  exact List.eq_nil_of_length_eq_zero h0

theorem findSub_eq_some_iff (n h : Str) (i : Nat) :
    findSub n h = some i ↔ occursAt n h i ∧ ∀ j < i, ¬ occursAt n h j := by
  induction h generalizing i with
  | nil =>
      constructor
      · intro hh
        unfold findSub at hh
        split at hh
        · rename_i hn
          injection hh with hh0
          subst hh0
          exact ⟨by simp [occursAt, hn], fun j hj => by omega⟩
        · cases hh
      · rintro ⟨h1, hmin⟩
        have hn : n = [] := occursAt_nil_eq n i h1
        subst hn
        have hi : i = 0 := by
          by_contra hne
          exact hmin 0 (by omega) (by simp [occursAt])
        subst hi
        simp [findSub]
  | cons c rest ih =>
      by_cases hp : startsWith n (c :: rest) = true
      case pos =>
        have hocc0 : occursAt n (c :: rest) 0 := by
          simpa [occursAt] using startsWith_iff.mp hp
        constructor
        · intro hh
          unfold findSub at hh
          rw [if_pos hp] at hh
          injection hh with hh0
          subst hh0
          exact ⟨hocc0, fun j hj => by omega⟩
        · rintro ⟨h1, hmin⟩
          rcases i with _ | i
          · simp [findSub, hp]
          · exact absurd hocc0 (hmin 0 (by omega))
      case neg =>
        have hocc0 : ¬ occursAt n (c :: rest) 0 := by
          simp only [occursAt, List.drop_zero]
          intro hx
          exact hp (startsWith_iff.mpr hx)
        constructor
        · intro hh
          unfold findSub at hh
          rw [if_neg hp] at hh
          rcases i with _ | i
          · simp at hh
          · simp only [Option.map_eq_some'] at hh
            obtain ⟨j, hj, hji⟩ := hh
            have hji' : j = i := by omega
            rw [hji'] at hj
            have hj' := (ih i).mp hj
            refine ⟨(occursAt_cons_succ n c rest i).mpr hj'.1, ?_⟩
            intro k hk
            rcases k with _ | k
            · exact hocc0
            · rw [occursAt_cons_succ]
              exact hj'.2 k (by omega)
        · rintro ⟨h1, hmin⟩
          rcases i with _ | i
          · exact absurd h1 hocc0
          · have h1' := (occursAt_cons_succ n c rest i).mp h1
            have hmin' : ∀ j < i, ¬ occursAt n rest j := fun j hj => by
              have := hmin (j + 1) (by omega)
              rwa [occursAt_cons_succ] at this
            unfold findSub
            rw [if_neg hp, (ih i).mpr ⟨h1', hmin'⟩]
            rfl

theorem findSub_eq_none_iff (n h : Str) :
    findSub n h = none ↔ ∀ i, ¬ occursAt n h i := by
  induction h with
  | nil =>
      constructor
      · intro hh i hocc
        have hn : n = [] := occursAt_nil_eq n i hocc
        simp [findSub, hn] at hh
      · intro hall
        unfold findSub
        split
        · rename_i hn
          exact absurd (by simp [occursAt, hn]) (hall 0)
        · rfl
  | cons c rest ih =>
      constructor
      · intro hh i hocc
        unfold findSub at hh
        split at hh
        · cases hh
        · rename_i hp
          have hrest : findSub n rest = none := by
            cases hfr : findSub n rest
            · rfl
            · rw [hfr] at hh; simp at hh
          rcases i with _ | i
          · exact hp (startsWith_iff.mpr (by simpa [occursAt] using hocc))
          · exact (ih.mp hrest) i ((occursAt_cons_succ n c rest i).mp hocc)
      · intro hall
        unfold findSub
        split
        · rename_i hp
          exact absurd (by simpa [occursAt] using startsWith_iff.mp hp)
            (hall 0)
        · rw [ih.mpr (fun i => by
            have := hall (i + 1)
            rwa [occursAt_cons_succ] at this)]
          rfl

theorem occursAt_append_shift (n x y : Str) (k : Nat) :
    occursAt n (x ++ y) (x.length + k) ↔ occursAt n y k := by
  have h1 : (x ++ y).drop (x.length + k) = y.drop k := by
    rw [List.drop_append_eq_append_drop]
    simp [Nat.add_sub_cancel_left, List.drop_eq_nil_of_le, Nat.le_add_right]
  simp [occursAt, h1]

theorem occursAt_getElem (n h : Str) (i k : Nat) (hocc : occursAt n h i)
    (hk : k < n.length) : h[i + k]? = n[k]? := by
  obtain ⟨t, ht⟩ := hocc
  have h2 : (h.drop i)[k]? = h[i + k]? := List.getElem?_drop h i k
  rw [← ht] at h2
  rw [← h2, List.getElem?_append_left hk]

/-- A character appearing inside an occurrence of `n` is a character of `n`. -/
theorem occursAt_mem (n h : Str) (i k : Nat) (hocc : occursAt n h i)
    (hk : k < n.length) (c : Char) (hc : h[i + k]? = some c) : c ∈ n := by
  rw [occursAt_getElem n h i k hocc hk] at hc
  rcases List.getElem?_eq_some.mp hc with ⟨hlt, hEq⟩
  exact hEq ▸ List.getElem_mem hlt

/-- No occurrence of `n` can start strictly inside `x` when `x` has no
    occurrence and its last character is not a character of `n`. -/
theorem not_occursAt_append_lt (n x y : Str) (hne : n ≠ [])
    (hx : ∀ i, ¬ occursAt n x i)
    (hlast : ∀ c, x.getLast? = some c → c ∉ n) :
    ∀ i < x.length, ¬ occursAt n (x ++ y) i := by
  intro i hi hocc
  by_cases hfit : i + n.length ≤ x.length
  · -- the occurrence fits inside x
    apply hx i
    obtain ⟨t, ht⟩ := hocc
    have hxdrop : n ++ t = x.drop i ++ y := by
      rw [ht, List.drop_append_of_le_length (by omega)]
    have hlen : n.length ≤ (x.drop i).length := by
      simp only [List.length_drop]; omega
    have h1 : n = (x.drop i).take n.length := by
      have h2 := congrArg (List.take n.length) hxdrop
      rw [List.take_left' rfl, List.take_append_of_le_length hlen] at h2
      exact h2
    refine ⟨(x.drop i).drop n.length, ?_⟩
    nth_rewrite 1 [h1]
    exact List.take_append_drop n.length (x.drop i)
  · -- the occurrence straddles the last character of x
    have hk : x.length - 1 - i < n.length := by omega
    have hsome : x.getLast?.isSome := by
      rw [List.getLast?_isSome]
      intro hh; subst hh; simp at hi
    obtain ⟨c, hc⟩ := Option.isSome_iff_exists.mp hsome
    apply hlast c hc
    apply occursAt_mem n (x ++ y) i (x.length - 1 - i) hocc hk
    have hidx : i + (x.length - 1 - i) = x.length - 1 := by omega
    rw [hidx, List.getElem?_append_left (by omega), ← List.getLast?_eq_getElem?, hc]

/-- Composition: searching `x ++ y` when no occurrence starts inside `x`. -/
theorem findSub_append_shift (n x y : Str)
    (hno : ∀ i < x.length, ¬ occursAt n (x ++ y) i) :
    findSub n (x ++ y) = (findSub n y).map (· + x.length) := by
  cases hf : findSub n y with
  | none =>
      rw [Option.map_none']
      rw [findSub_eq_none_iff] at hf ⊢
      intro i
      by_cases hi : i < x.length
      · exact hno i hi
      · intro hocc
        have h2 : occursAt n y (i - x.length) := by
          have h3 := (occursAt_append_shift n x y (i - x.length)).mp
          rw [show x.length + (i - x.length) = i by omega] at h3
          exact h3 hocc
        exact hf _ h2
  | some j =>
      have hj := (findSub_eq_some_iff n y j).mp hf
      rw [Option.map_some']
      rw [findSub_eq_some_iff]
      constructor
      · have h2 := (occursAt_append_shift n x y j).mpr hj.1
        rwa [Nat.add_comm] at h2
      · intro k hk
        by_cases hkx : k < x.length
        · exact hno k hkx
        · intro hocc
          have h2 : occursAt n y (k - x.length) := by
            have h3 := (occursAt_append_shift n x y (k - x.length)).mp
            rw [show x.length + (k - x.length) = k by omega] at h3
            exact h3 hocc
          exact hj.2 (k - x.length) (by omega) h2

/-- Searching `x ++ y` where `y` starts with the needle and `x` is clean. -/
theorem findSub_append_start (n x y : Str) (hne : n ≠ [])
    (hx : ∀ i, ¬ occursAt n x i)
    (hlast : ∀ c, x.getLast? = some c → c ∉ n)
    (hpre : n <+: y) :
    findSub n (x ++ y) = some x.length := by
  rw [findSub_append_shift n x y (not_occursAt_append_lt n x y hne hx hlast)]
  have h0 : findSub n y = some 0 :=
    (findSub_eq_some_iff n y 0).mpr ⟨by simpa [occursAt] using hpre, by omega⟩
  simp [h0]

theorem containsSub_false_iff (n h : Str) :
    containsSub n h = false ↔ ∀ i, ¬ occursAt n h i := by
  unfold containsSub
  cases hf : findSub n h with
  | none => simpa using (findSub_eq_none_iff n h).mp hf
  | some j =>
      simp only [Option.isSome_some]
      constructor
      · intro hh; cases hh
      · intro hall
        exact absurd ((findSub_eq_some_iff n h j).mp hf).1 (hall j)

theorem Dec.eqv_refl (a : Dec) : Dec.eqv a a := rfl

theorem Dec.eqv_symm {a b : Dec} (h : Dec.eqv a b) : Dec.eqv b a := h.symm

theorem Dec.eqv_trans {a b c : Dec} (h1 : Dec.eqv a b) (h2 : Dec.eqv b c) :
    Dec.eqv a c := by
  unfold Dec.eqv at h1 h2 ⊢
  have hb : ((10 : Int) ^ b.e) ≠ 0 := pow_ne_zero _ (by norm_num)
  have h3 : a.m * 10 ^ c.e * 10 ^ b.e = c.m * 10 ^ a.e * 10 ^ b.e := by
    calc a.m * 10 ^ c.e * 10 ^ b.e = (a.m * 10 ^ b.e) * 10 ^ c.e := by ring
    _ = (b.m * 10 ^ a.e) * 10 ^ c.e := by rw [h1]
    _ = (b.m * 10 ^ c.e) * 10 ^ a.e := by ring
    _ = (c.m * 10 ^ b.e) * 10 ^ a.e := by rw [h2]
    _ = c.m * 10 ^ a.e * 10 ^ b.e := by ring
  exact mul_right_cancel₀ hb h3

/-! ### Lemmas supporting the container round-trip -/
theorem occursAt_length_le {n h : Str} {i : Nat} (hne : n ≠ [])
    (hocc : occursAt n h i) : i + n.length ≤ h.length := by
  have h1 : n.length ≤ (h.drop i).length := hocc.length_le
  rw [List.length_drop] at h1
  have h2 : 0 < n.length := List.length_pos.mpr hne
  omega

theorem occursAt_extract {n x : Str} (y : Str) {i : Nat}
    (hfit : i + n.length ≤ x.length) (hocc : occursAt n (x ++ y) i) :
    occursAt n x i := by
  obtain ⟨t, ht⟩ := hocc
  have hxdrop : n ++ t = x.drop i ++ y := by
    rw [ht, List.drop_append_of_le_length (by omega)]
  have hlen : n.length ≤ (x.drop i).length := by
    simp only [List.length_drop]; omega
  have h1 : n = (x.drop i).take n.length := by
    have h2 := congrArg (List.take n.length) hxdrop
    rw [List.take_left' rfl, List.take_append_of_le_length hlen] at h2
    exact h2
  refine ⟨(x.drop i).drop n.length, ?_⟩
  nth_rewrite 1 [h1]
  exact List.take_append_drop n.length (x.drop i)

theorem not_occursAt_of_char {n h : Str} {i j : Nat} (hij : i ≤ j)
    (hj : j < i + n.length) {c : Char} (hc : h[j]? = some c) (hcn : c ∉ n) :
    ¬ occursAt n h i := fun hocc =>
  hcn (occursAt_mem n h i (j - i) hocc (by omega) c
    (by rwa [show i + (j - i) = j by omega]))

theorem occursAt_mono {n1 n2 h : Str} {i : Nat} (hpre : n1 <+: n2)
    (hocc : occursAt n2 h i) : occursAt n1 h i := hpre.trans hocc

theorem occursAt_singleton (c : Char) (x : Str) (i : Nat) :
    occursAt [c] x i ↔ x[i]? = some c := by
  unfold occursAt
  constructor
  · rintro ⟨t, ht⟩
    have h1 : (x.drop i)[0]? = some c := by rw [← ht]; simp
    rwa [List.getElem?_drop, Nat.add_zero] at h1
  · intro hget
    have h1 : (x.drop i)[0]? = some c := by
      rw [List.getElem?_drop, Nat.add_zero]; exact hget
    cases hd : x.drop i with
    | nil => rw [hd] at h1; cases h1
    | cons a t =>
        rw [hd] at h1
        have ha : a = c := by simpa using h1
        subst ha
        exact ⟨t, rfl⟩

theorem not_occursAt_singleton_iff (c : Char) (x : Str) :
    (∀ i, ¬ occursAt [c] x i) ↔ c ∉ x := by
  constructor
  · intro hall hmem
    obtain ⟨i, hi, hget⟩ := List.getElem_of_mem hmem
    exact hall i ((occursAt_singleton c x i).mpr
      (by rw [List.getElem?_eq_getElem hi, hget]))
  · intro hnm i hocc
    have := (occursAt_singleton c x i).mp hocc
    rcases List.getElem?_eq_some.mp this with ⟨hlt, hEq⟩
    exact hnm (hEq ▸ List.getElem_mem hlt)

theorem not_occursAt_append_ws {n : Str} (x w : Str) (hne : n ≠ [])
    (hnws : ∀ c ∈ n, isBodyWs c = false)
    (hx : ∀ i, ¬ occursAt n x i)
    (hw : ∀ c ∈ w, isBodyWs c = true) :
    ∀ i, ¬ occursAt n (x ++ w) i := by
  intro i hocc
  by_cases hfit : i + n.length ≤ x.length
  · exact hx i (occursAt_extract w hfit hocc)
  · have hlen := occursAt_length_le hne hocc
    rw [List.length_append] at hlen
    have hnlen : 0 < n.length := List.length_pos.mpr hne
    set j := max i x.length with hj
    have hij : i ≤ j := le_max_left _ _
    have hjx : x.length ≤ j := le_max_right _ _
    have hjlt : j < i + n.length := by omega
    have hjw : j - x.length < w.length := by omega
    have hget : (x ++ w)[j]? = some (w[j - x.length]) := by
      rw [List.getElem?_append_right hjx, List.getElem?_eq_getElem hjw]
    refine not_occursAt_of_char hij hjlt hget ?_ hocc
    intro hmem
    have h1 := hnws _ hmem
    have h2 := hw _ (List.getElem_mem hjw)
    rw [h1] at h2
    cases h2

theorem dropWhileCh_cons (p : Char → Bool) (c : Char) (rest : Str) :
    dropWhileCh p (c :: rest) = if p c then dropWhileCh p rest else c :: rest :=
  rfl

theorem dropWhileCh_eq_self_of_all {p : Char → Bool} {s : Str}
    (h : ∀ c ∈ s, p c = false) : dropWhileCh p s = s := by
  cases s with
  | nil => rfl
  | cons c rest =>
      unfold dropWhileCh
      rw [h c (by simp)]
      simp

theorem dropWhileCh_append_sat {p : Char → Bool} {w : Str} (t : Str)
    (h : ∀ c ∈ w, p c = true) : dropWhileCh p (w ++ t) = dropWhileCh p t := by
  induction w with
  | nil => rfl
  | cons c rest ih =>
      have hc : p c = true := h c (by simp)
      have hrest : ∀ d ∈ rest, p d = true := fun d hd => h d (by simp [hd])
      show dropWhileCh p (c :: (rest ++ t)) = dropWhileCh p t
      rw [dropWhileCh_cons, if_pos hc]
      exact ih hrest

theorem dropTrailing_append_ws {p : Char → Bool} {x w : Str}
    (h : ∀ c ∈ w, p c = true) : dropTrailing p (x ++ w) = dropTrailing p x := by
  unfold dropTrailing
  rw [List.reverse_append, dropWhileCh_append_sat _ (fun c hc => h c (by
    rwa [← List.mem_reverse]))]

theorem dropTrailing_eq_self_of_all {p : Char → Bool} {s : Str}
    (h : ∀ c ∈ s, p c = false) : dropTrailing p s = s := by
  unfold dropTrailing
  rw [dropWhileCh_eq_self_of_all (fun c hc => h c (List.mem_reverse.mp hc))]
  exact List.reverse_reverse s

theorem drop_append_exact (x y : Str) : (x ++ y).drop x.length = y := by
  simp

theorem drop_append_succ (x y : Str) (c : Char) :
    (x ++ c :: y).drop (x.length + 1) = y := by
  rw [List.drop_append_eq_append_drop]
  simp

/-! ### Order properties of `strLt` and the sorted association lists -/
theorem strLt_irrefl (a : Str) : strLt a a = false := by
  induction a with
  | nil => rfl
  | cons c rest ih => simp [strLt, ih]

theorem strLt_asymm {a b : Str} (h : strLt a b = true) : strLt b a = false := by
  induction a generalizing b with
  | nil =>
      cases b with
      | nil => simpa [strLt] using h
      | cons d ds => rfl
  | cons c cs ih =>
      cases b with
      | nil => simp [strLt] at h
      | cons d ds =>
          by_cases hcd : c < d
          · have hdc : ¬ d < c := fun h2 => absurd hcd (lt_asymm h2)
            simp [strLt, hcd, hdc]
          · by_cases hdc : d < c
            · simp [strLt, hcd, hdc] at h
            · simp only [strLt, if_neg hcd, if_neg hdc] at h
              simp only [strLt, if_neg hdc, if_neg hcd]
              exact ih h

theorem strLt_trans {a b c : Str} (h1 : strLt a b = true)
    (h2 : strLt b c = true) : strLt a c = true := by
  induction a generalizing b c with
  | nil =>
      cases c with
      | nil =>
          cases b with
          | nil => simpa [strLt] using h2
          | cons d ds => simp [strLt] at h2
      | cons e es => rfl
  | cons x xs ih =>
      cases b with
      | nil => simp [strLt] at h1
      | cons d ds =>
          cases c with
          | nil => simp [strLt] at h2
          | cons e es =>
              simp only [strLt] at h1 h2 ⊢
              by_cases hxd : x < d
              · by_cases hde : d < e
                · simp [show x < e from lt_trans hxd hde]
                · by_cases hed : e < d
                  · simp [hde, hed] at h2
                  · have hde' : d = e := le_antisymm (not_lt.mp hed) (not_lt.mp hde)
                    subst hde'
                    simp [hxd]
              · by_cases hdx : d < x
                · simp [hxd, hdx] at h1
                · have hxd' : x = d := le_antisymm (not_lt.mp hdx) (not_lt.mp hxd)
                  subst hxd'
                  simp only [if_neg hxd] at h1
                  by_cases hxe : x < e
                  · simp [hxe]
                  · by_cases hex : e < x
                    · simp [hxe, hex] at h2
                    · rw [if_neg hxe, if_neg hex] at h2 ⊢
                      exact ih h1 h2

theorem ne_of_strLt {a b : Str} (h : strLt a b = true) : a ≠ b := by
  intro hEq
  subst hEq
  rw [strLt_irrefl] at h
  cases h

theorem alInsert_append_gt {α : Type} {m : List (Str × α)} {k : Str} (v : α)
    (h : ∀ q ∈ m, strLt q.1 k = true) : alInsert k v m = m ++ [(k, v)] := by
  induction m with
  | nil => rfl
  | cons q rest ih =>
      have hq : strLt q.1 k = true := h q (by simp)
      have h1 : strLt k q.1 = false := strLt_asymm hq
      unfold alInsert
      rw [h1, hq]
      simp only [Bool.false_eq_true, if_false, if_true, List.cons_append,
                 List.cons.injEq, true_and]
      exact ih (fun r hr => h r (by simp [hr]))

theorem foldl_alInsert_sorted {α : Type} :
    ∀ (ps : List (Str × α)) (acc : List (Str × α)),
    (∀ q ∈ acc, ∀ p ∈ ps, strLt q.1 p.1 = true) →
    (ps.map (·.1)).Pairwise (fun a b => strLt a b = true) →
    ps.foldl (fun m p => alInsert p.1 p.2 m) acc = acc ++ ps := by
  intro ps
  induction ps with
  | nil => intro acc _ _; simp
  | cons p rest ih =>
      intro acc hacc hpw
      rw [List.map_cons, List.pairwise_cons] at hpw
      have h1 : alInsert p.1 p.2 acc = acc ++ [p] :=
        alInsert_append_gt p.2 (fun q hq => hacc q hq p (by simp))
      show List.foldl _ (alInsert p.1 p.2 acc) rest = acc ++ p :: rest
      rw [h1, ih (acc ++ [p]) ?_ hpw.2]
      · simp
      · intro q hq r hr
        rcases List.mem_append.mp hq with hq1 | hq2
        · exact hacc q hq1 r (by simp [hr])
        · have hqp : q = p := by simpa using hq2
          subst hqp
          exact hpw.1 r.1 (List.mem_map_of_mem (·.1) hr)

theorem alLookup_eq_of_mem_nodup {α : Type} {ps : List (Str × α)} {k : Str}
    {v : α} (hnd : (ps.map (·.1)).Nodup) (hmem : (k, v) ∈ ps) :
    alLookup k ps = some v := by
  induction ps with
  | nil => cases hmem
  | cons q rest ih =>
      rw [List.map_cons, List.nodup_cons] at hnd
      rcases List.mem_cons.mp hmem with h1 | h2
      · rw [← h1]
        simp [alLookup]
      · have hk : k ≠ q.1 := by
          intro hEq
          exact hnd.1 (hEq ▸ List.mem_map_of_mem (·.1) h2)
        unfold alLookup
        rw [if_neg hk]
        exact ih hnd.2 h2

/-! ### Facts about the part markers (established by computation) -/
theorem markerSp_ne_nil : markerSp ≠ [] := by decide

theorem markerNoSp_ne_nil : markerNoSp ≠ [] := by decide

theorem markerNoSp_prefix_markerSp : markerNoSp <+: markerSp := by decide

theorem newline_not_mem_markerSp : '\n' ∉ markerSp := by decide

theorem newline_not_mem_markerNoSp : '\n' ∉ markerNoSp := by decide

theorem markerNoSp_no_ws : ∀ c ∈ markerNoSp, isBodyWs c = false := by decide

/-- Unpacking of the Boolean raw-part condition. -/
theorem partRawOkB_spec {p : Str × Str} (h : partRawOkB p = true) :
    p.1 ≠ [] ∧ (∀ c ∈ p.1, c ≠ '\n' ∧ c ≠ ' ' ∧ c ≠ '\r') ∧
    (∀ i, ¬ occursAt markerNoSp p.2 i) := by
  unfold partRawOkB at h
  simp only [Bool.and_eq_true, List.all_eq_true, Bool.not_eq_true'] at h
  obtain ⟨⟨h1, h2⟩, h3⟩ := h
  refine ⟨by simpa using h1, ?_, (containsSub_false_iff _ _).mp h3⟩
  intro c hc
  have h5 := h2 c hc
  simp only [Bool.or_eq_false_iff, decide_eq_false_iff_not] at h5
  exact ⟨h5.1.1, h5.1.2, h5.2⟩

/-- Unpacking of the Boolean canonical-part condition. -/
theorem partOkB_spec {p : Str × Str} (h : partOkB p = true) :
    p.1 ≠ [] ∧ (∀ c ∈ p.1, c ≠ '\n' ∧ c ≠ ' ' ∧ c ≠ '\r') ∧
    (∀ i, ¬ occursAt markerNoSp p.2 i) ∧ dropTrailing isBodyWs p.2 = p.2 := by
  unfold partOkB at h
  simp only [Bool.and_eq_true] at h
  obtain ⟨h1, h2⟩ := h
  obtain ⟨h3, h4, h5⟩ := partRawOkB_spec h1
  exact ⟨h3, h4, h5, by simpa using h2⟩

theorem mem_of_getLastQ {l : Str} {c : Char} (h : l.getLast? = some c) :
    c ∈ l := by
  have h1 : c ∈ l.getLast? := by rw [h]; exact Option.mem_def.mpr rfl
  obtain ⟨hne, hEq⟩ := List.mem_getLast?_eq_getLast h1
  exact hEq ▸ List.getLast_mem hne

/-- One canonical emitted part block is consumed by exactly one scanner
    iteration, yielding the part verbatim and resuming at the body. -/
theorem opcScanStep_eq
    (pre path flag body tail2 restBlocks : Str)
    (hpre_ne : pre ≠ [])
    (hpre_no : ∀ i, ¬ occursAt markerSp pre i)
    (hpre_last : ∀ c, pre.getLast? = some c → c ∉ markerSp)
    (hpath_ne : path ≠ [])
    (hpath_chars : ∀ c ∈ path, c ≠ '\n' ∧ c ≠ ' ' ∧ c ≠ '\r')
    (hbody_no : ∀ i, ¬ occursAt markerNoSp body i)
    (hflag : flag = [] ∨ flag = str " BASE64")
    (htail2 : tail2 = [] ∨ tail2 = ['\n'])
    (hrest : restBlocks = [] ∨ markerSp <+: restBlocks) :
    opcScanStep (pre ++ (markerSp ++ ((path ++ flag) ++ '\n' ::
        ((body ++ '\n' :: tail2) ++ restBlocks)))) =
      some ((path, dropTrailing isBodyWs body),
        (body ++ '\n' :: tail2) ++ restBlocks) := by
  set w : Str := '\n' :: tail2 with hw
  set R : Str := (path ++ flag) ++ '\n' :: ((body ++ w) ++ restBlocks) with hR
  -- characters of the path line
  have hx_flag : '\n' ∉ path ++ flag := by
    intro hmem
    rcases List.mem_append.mp hmem with h1 | h1
    · exact (hpath_chars _ h1).1 rfl
    · rcases hflag with h2 | h2 <;> subst h2
      · cases h1
      · revert h1; decide
  have hflag_last : ∀ c, (path ++ flag).getLast? = some c → c ≠ '\n' := by
    intro c hc
    rcases hflag with h2 | h2 <;> subst h2
    · rw [List.append_nil] at hc
      have := mem_of_getLastQ hc
      exact (hpath_chars _ this).1
    · rw [List.getLast?_append_of_ne_nil _ (by decide)] at hc
      have : c = '4' := by
        have h3 : (str " BASE64").getLast? = some '4' := by decide
        rw [h3] at hc
        injection hc with hc
        exact hc.symm
      subst this
      decide
  -- A: the part marker is found right after `pre`
  have hA : findSub markerSp (pre ++ (markerSp ++ R)) = some pre.length :=
    findSub_append_start markerSp pre (markerSp ++ R) markerSp_ne_nil hpre_no
      hpre_last (List.prefix_append _ _)
  -- B: dropping up to and including the marker leaves R
  have hB : (pre ++ (markerSp ++ R)).drop (pre.length + markerSp.length) = R := by
    rw [← List.append_assoc, ← List.length_append]
    exact drop_append_exact (pre ++ markerSp) R
  -- C: the newline ending the path line
  have hC : findChr '\n' R = some (path ++ flag).length := by
    rw [hR]
    exact findSub_append_start ['\n'] (path ++ flag) _ (by simp)
      ((not_occursAt_singleton_iff _ _).mpr hx_flag)
      (fun c hc hmem => hflag_last c hc (by simpa using hmem))
      ⟨(body ++ w) ++ restBlocks, rfl⟩
  -- D: the path line itself
  have hD : R.take (path ++ flag).length = path ++ flag := by
    rw [hR]; exact List.take_left _ _
  -- E: splitting the path line at its first space
  have hpath_nospace : ' ' ∉ path := fun hmem => (hpath_chars _ hmem).2.1 rfl
  have hE : (match findChr ' ' (path ++ flag) with
             | some spacePos => (path ++ flag).take spacePos
             | none => path ++ flag) = path := by
    rcases hflag with h2 | h2 <;> subst h2
    · have hnone : findChr ' ' (path ++ []) = none := by
        rw [List.append_nil]
        exact (findSub_eq_none_iff _ _).mpr
          ((not_occursAt_singleton_iff _ _).mpr hpath_nospace)
      rw [hnone, List.append_nil]
    · have hsome : findChr ' ' (path ++ str " BASE64") = some path.length := by
        exact findSub_append_start [' '] path (str " BASE64") (by simp)
          ((not_occursAt_singleton_iff _ _).mpr hpath_nospace)
          (fun c hc hmem => by
            have := mem_of_getLastQ hc
            have h3 : c = ' ' := by simpa using hmem
            exact (hpath_chars _ this).2.1 h3)
          ⟨str "BASE64", rfl⟩
      rw [hsome]
      exact List.take_left _ _
  -- F: the path carries no trailing whitespace to strip
  have hF : dropTrailing isPathWs path = path :=
    dropTrailing_eq_self_of_all (fun c hc => by
      obtain ⟨-, h2, h3⟩ := hpath_chars c hc
      simp [isPathWs, h2, h3])
  -- G: dropping the path line leaves the body suffix
  have hG : R.drop ((path ++ flag).length + 1) = (body ++ w) ++ restBlocks := by
    rw [hR]; exact drop_append_succ _ _ _
  -- H: the body is cut at the next marker (or runs to the end)
  have hw_ws : ∀ c ∈ w, isBodyWs c = true := by
    intro c hc
    rw [hw] at hc
    rcases List.mem_cons.mp hc with h1 | h1
    · subst h1; rfl
    · rcases htail2 with h2 | h2 <;> subst h2
      · cases h1
      · have : c = '\n' := by simpa using h1
        subst this; rfl
  have hx_bodyw : ∀ i, ¬ occursAt markerNoSp (body ++ w) i :=
    not_occursAt_append_ws body w markerNoSp_ne_nil markerNoSp_no_ws hbody_no hw_ws
  have hbw_last : ∀ c, (body ++ w).getLast? = some c → c ∉ markerNoSp := by
    intro c hc
    rw [List.getLast?_append_of_ne_nil _ (by rw [hw]; simp)] at hc
    have hcn : c = '\n' := by
      rcases htail2 with h2 | h2 <;> rw [hw, h2] at hc <;> simpa using hc.symm
    subst hcn
    exact newline_not_mem_markerNoSp
  have hH : (match findSub markerNoSp ((body ++ w) ++ restBlocks) with
             | some nextMarker => ((body ++ w) ++ restBlocks).take nextMarker
             | none => (body ++ w) ++ restBlocks) = body ++ w := by
    rcases hrest with h2 | h2
    · subst h2
      have hnone : findSub markerNoSp ((body ++ w) ++ []) = none := by
        rw [List.append_nil]
        exact (findSub_eq_none_iff _ _).mpr hx_bodyw
      rw [hnone, List.append_nil]
    · have hsome : findSub markerNoSp ((body ++ w) ++ restBlocks) =
          some (body ++ w).length :=
        findSub_append_start markerNoSp (body ++ w) restBlocks markerNoSp_ne_nil
          hx_bodyw hbw_last (markerNoSp_prefix_markerSp.trans h2)
      rw [hsome]
      exact List.take_left _ _
  -- I: stripping ignores the separator
  have hI : dropTrailing isBodyWs (body ++ w) = dropTrailing isBodyWs body :=
    dropTrailing_append_ws hw_ws
  -- assembly
  unfold opcScanStep
  rw [hA]
  simp only [hB, hC, hD, hE, hF, hG, hH, hI]

theorem markerSp_prefix_partsBlocks (q : Str × Str) (qs : List (Str × Str)) :
    markerSp <+: partsBlocks (q :: qs) := by
  unfold partsBlocks writePart
  rw [List.append_assoc]
  exact List.prefix_append _ _

/-- The scanner recovers a well-formed part list, with bodies stripped of
    trailing whitespace, from its emission — whatever marker-free content
    precedes the first part. -/
theorem opcScanF_emission :
    ∀ (ps : List (Str × Str)) (fuel : Nat) (pre : Str),
    ps.length + 1 ≤ fuel →
    pre ≠ [] →
    (∀ i, ¬ occursAt markerSp pre i) →
    (∀ c, pre.getLast? = some c → c ∉ markerSp) →
    (∀ p ∈ ps, partRawOkB p = true) →
    opcScanF fuel (pre ++ partsBlocks ps) =
      ps.map (fun p => (p.1, dropTrailing isBodyWs p.2)) := by
  intro ps
  induction ps with
  | nil =>
      intro fuel pre hfuel hne hno hlast hall
      obtain ⟨f, rfl⟩ : ∃ f, fuel = f + 1 := ⟨fuel - 1, by omega⟩
      have hnone : opcScanStep (pre ++ partsBlocks []) = none := by
        show opcScanStep (pre ++ []) = none
        rw [List.append_nil]
        unfold opcScanStep
        rw [(findSub_eq_none_iff _ _).mpr hno]
      unfold opcScanF
      rw [hnone]
      rfl
  | cons p rest ih =>
      intro fuel pre hfuel hne hno hlast hall
      obtain ⟨f, rfl⟩ : ∃ f, fuel = f + 1 := ⟨fuel - 1, by omega⟩
      obtain ⟨hp1, hp2, hp3⟩ := partRawOkB_spec (hall p (by simp))
      have hrestcase : partsBlocks rest = [] ∨ markerSp <+: partsBlocks rest := by
        cases rest with
        | nil => exact Or.inl rfl
        | cons q qs => exact Or.inr (markerSp_prefix_partsBlocks q qs)
      -- the two emission shapes, by BASE64 flag
      by_cases hb : endsWith (str ".mxarray") p.1 = true
      case pos =>
        have hshape : pre ++ partsBlocks (p :: rest) =
            pre ++ (markerSp ++ ((p.1 ++ str " BASE64") ++ '\n' ::
              ((p.2 ++ '\n' :: ([] : Str)) ++ partsBlocks rest))) := by
          show pre ++ (writePart p.1 p.2 ++ partsBlocks rest) = _
          simp [writePart, hb, List.append_assoc]
        rw [hshape]
        unfold opcScanF
        rw [opcScanStep_eq pre p.1 (str " BASE64") p.2 [] (partsBlocks rest)
              hne hno hlast hp1 hp2 hp3 (Or.inr rfl) (Or.inl rfl) hrestcase]
        have hpre' := not_occursAt_append_ws p.2 ['\n'] markerNoSp_ne_nil
          markerNoSp_no_ws hp3 (by intro c hc; simp at hc; subst hc; rfl)
        show (p.1, dropTrailing isBodyWs p.2) ::
            opcScanF f ((p.2 ++ '\n' :: []) ++ partsBlocks rest) = _
        rw [ih f (p.2 ++ '\n' :: []) (by simp at hfuel ⊢; omega)
              (by simp)
              (fun i hocc => hpre' i (occursAt_mono markerNoSp_prefix_markerSp hocc))
              (by
                intro c hc
                rw [List.getLast?_append_of_ne_nil _ (by simp)] at hc
                have : c = '\n' := by simpa using hc.symm
                subst this
                exact newline_not_mem_markerSp)
              (fun q hq => hall q (by simp [hq]))]
        rfl
      case neg =>
        have hshape : pre ++ partsBlocks (p :: rest) =
            pre ++ (markerSp ++ ((p.1 ++ ([] : Str)) ++ '\n' ::
              ((p.2 ++ '\n' :: (['\n'] : Str)) ++ partsBlocks rest))) := by
          show pre ++ (writePart p.1 p.2 ++ partsBlocks rest) = _
          simp [writePart, hb, List.append_assoc]
        rw [hshape]
        unfold opcScanF
        rw [opcScanStep_eq pre p.1 [] p.2 ['\n'] (partsBlocks rest)
              hne hno hlast hp1 hp2 hp3 (Or.inl rfl) (Or.inr rfl) hrestcase]
        have hpre' := not_occursAt_append_ws p.2 ['\n', '\n'] markerNoSp_ne_nil
          markerNoSp_no_ws hp3 (by intro c hc; simp at hc; subst hc; rfl)
        show (p.1, dropTrailing isBodyWs p.2) ::
            opcScanF f ((p.2 ++ '\n' :: ['\n']) ++ partsBlocks rest) = _
        rw [ih f (p.2 ++ '\n' :: ['\n']) (by simp at hfuel ⊢; omega)
              (by simp)
              (fun i hocc => hpre' i (occursAt_mono markerNoSp_prefix_markerSp hocc))
              (by
                intro c hc
                rw [List.getLast?_append_of_ne_nil _ (by simp)] at hc
                have : c = '\n' := by simpa using hc.symm
                subst this
                exact newline_not_mem_markerSp)
              (fun q hq => hall q (by simp [hq]))]
        rfl

/-! ### Assembling the container round-trip -/
theorem canonicalHeader_ne_nil : canonicalHeader ≠ [] := by decide

theorem canonicalHeader_no_marker : ∀ i, ¬ occursAt markerSp canonicalHeader i :=
  (containsSub_false_iff _ _).mp (by decide)

theorem canonicalHeader_last :
    ∀ c, canonicalHeader.getLast? = some c → c ∉ markerSp := by
  intro c hc
  have h1 : canonicalHeader.getLast? = some '\n' := by decide
  rw [h1] at hc
  injection hc with hc
  subst hc
  exact newline_not_mem_markerSp

theorem map_eq_self_of_forall {α : Type} {l : List α} {f : α → α}
    (h : ∀ x ∈ l, f x = x) : l.map f = l := by
  induction l with
  | nil => rfl
  | cons x rest ih =>
      rw [List.map_cons, h x (by simp), ih (fun y hy => h y (by simp [hy]))]

theorem pathsSortedB_chain' :
    ∀ {l : List Str}, pathsSortedB l = true →
    l.Chain' (fun a b => strLt a b = true) := by
  intro l
  induction l with
  | nil => intro _; exact List.chain'_nil
  | cons a rest ih =>
      intro h
      cases rest with
      | nil => simp
      | cons b rest2 =>
          unfold pathsSortedB at h
          rw [Bool.and_eq_true] at h
          exact List.chain'_cons.mpr ⟨h.1, ih h.2⟩

theorem canonicalPartsB_spec {ps : List (Str × Str)}
    (h : canonicalPartsB ps = true) :
    (∀ p ∈ ps, partOkB p = true) ∧
    (ps.map (·.1)).Pairwise (fun a b => strLt a b = true) := by
  unfold canonicalPartsB at h
  simp only [Bool.and_eq_true, List.all_eq_true] at h
  haveI : IsTrans Str (fun a b => strLt a b = true) :=
    ⟨fun _ _ _ => strLt_trans⟩
  exact ⟨h.1, List.chain'_iff_pairwise.mp (pathsSortedB_chain' h.2)⟩

theorem partsBlocks_length_ge (ps : List (Str × Str)) :
    ps.length ≤ (partsBlocks ps).length := by
  induction ps with
  | nil => simp [partsBlocks]
  | cons p rest ih =>
      show rest.length + 1 ≤ (writePart p.1 p.2 ++ partsBlocks rest).length
      rw [List.length_append]
      have h1 : 1 ≤ (writePart p.1 p.2).length := by
        unfold writePart
        simp only [List.length_append]
        have h2 : 0 < markerSp.length := by decide
        omega
      omega

theorem foldWriteParts {ps0 : List (Str × Str)}
    (hnd : (ps0.map (·.1)).Nodup) :
    ∀ (ps : List (Str × Str)) (acc : Str), (∀ p ∈ ps, p ∈ ps0) →
    (ps.map (·.1)).foldl
      (fun acc path =>
        match alLookup path ps0 with
        | some c => acc ++ writePart path c
        | none => acc) acc = acc ++ partsBlocks ps := by
  intro ps
  induction ps with
  | nil => intro acc _; simp [partsBlocks]
  | cons p rest ih =>
      intro acc hsub
      rw [List.map_cons, List.foldl_cons,
          alLookup_eq_of_mem_nodup hnd (hsub p (by simp)),
          ih (acc ++ writePart p.1 p.2) (fun q hq => hsub q (by simp [hq]))]
      show acc ++ writePart p.1 p.2 ++ partsBlocks rest =
        acc ++ (writePart p.1 p.2 ++ partsBlocks rest)
      rw [List.append_assoc]

theorem foldRebuildParts {ps0 : List (Str × Str)}
    (hnd : (ps0.map (·.1)).Nodup) :
    ∀ (ps : List (Str × Str)) (acc : List (Str × Str)), (∀ p ∈ ps, p ∈ ps0) →
    (ps.map (·.1)).foldl
      (fun m path =>
        match alLookup path ps0 with
        | some c => alInsert path c m
        | none => m) acc = ps.foldl (fun m p => alInsert p.1 p.2 m) acc := by
  intro ps
  induction ps with
  | nil => intro acc _; rfl
  | cons p rest ih =>
      intro acc hsub
      rw [List.map_cons, List.foldl_cons,
          alLookup_eq_of_mem_nodup hnd (hsub p (by simp)), List.foldl_cons]
      exact ih _ (fun q hq => hsub q (by simp [hq]))

theorem nodup_of_pairwise_strLt {l : List Str}
    (h : l.Pairwise (fun a b => strLt a b = true)) : l.Nodup :=
  h.imp (fun hab => ne_of_strLt hab)

/-- Loading the writer's own emission recovers exactly the canonical parts. -/
theorem opcLoadParts_emission {ps : List (Str × Str)}
    (hcanon : canonicalPartsB ps = true) :
    opcLoadParts (canonicalHeader ++ partsBlocks ps) = ps := by
  obtain ⟨hok, hpw⟩ := canonicalPartsB_spec hcanon
  have hraw : ∀ p ∈ ps, partRawOkB p = true := by
    intro p hp
    have h2 := hok p hp
    unfold partOkB at h2
    simp only [Bool.and_eq_true] at h2
    exact h2.1
  have hfuel : ps.length + 1 ≤ (canonicalHeader ++ partsBlocks ps).length := by
    rw [List.length_append]
    have h1 := partsBlocks_length_ge ps
    have h2 : 0 < canonicalHeader.length := by decide
    omega
  unfold opcLoadParts
  rw [opcScanF_emission ps _ canonicalHeader hfuel canonicalHeader_ne_nil
        canonicalHeader_no_marker canonicalHeader_last hraw]
  rw [map_eq_self_of_forall (fun p hp => by
    have h3 := (partOkB_spec (hok p hp)).2.2.2
    rw [h3])]
  exact foldl_alInsert_sorted ps [] (by simp) hpw

/-- The writer's emission for a metadata record built from canonical
    parts. -/
theorem writeWithMetadata_canonical {ps : List (Str × Str)}
    (hcanon : canonicalPartsB ps = true) :
    writeWithMetadata ⟨ps.map (·.1), ps⟩ = canonicalHeader ++ partsBlocks ps := by
  obtain ⟨-, hpw⟩ := canonicalPartsB_spec hcanon
  have hnd := nodup_of_pairwise_strLt hpw
  cases ps with
  | nil => simp [writeWithMetadata, partsBlocks]
  | cons q qs =>
      unfold writeWithMetadata
      rw [if_pos (by simp)]
      show canonicalHeader ++ _ = _
      congr 1
      have h1 := foldWriteParts hnd (q :: qs) [] (fun p hp => hp)
      simpa using h1

/-- Re-loading the writer's emission reproduces the metadata record. -/
theorem buildMetadata_of_emission {ps : List (Str × Str)}
    (hcanon : canonicalPartsB ps = true) :
    buildMetadata (opcLoad (canonicalHeader ++ partsBlocks ps)) =
      ⟨ps.map (·.1), ps⟩ := by
  obtain ⟨-, hpw⟩ := canonicalPartsB_spec hcanon
  have hnd := nodup_of_pairwise_strLt hpw
  have hp : opcLoadParts (canonicalHeader ++ partsBlocks ps) = ps :=
    opcLoadParts_emission hcanon
  simp only [buildMetadata, opcLoad, OpcExtractor.listParts,
             OpcExtractor.getPart, hp]
  rw [foldRebuildParts hnd ps [] (fun p hp2 => hp2),
      foldl_alInsert_sorted ps [] (by simp) hpw, List.nil_append]

/-! ### Whitespace idempotence and padding lemmas (for C9) -/
theorem dropWhileCh_idem (p : Char → Bool) (s : Str) :
    dropWhileCh p (dropWhileCh p s) = dropWhileCh p s := by
  induction s with
  | nil => rfl
  | cons c rest ih =>
      rw [dropWhileCh_cons]
      by_cases hc : p c = true
      · rw [if_pos hc]; exact ih
      · rw [if_neg hc, dropWhileCh_cons, if_neg hc]

theorem dropTrailing_idem (p : Char → Bool) (s : Str) :
    dropTrailing p (dropTrailing p s) = dropTrailing p s := by
  unfold dropTrailing
  rw [List.reverse_reverse, dropWhileCh_idem]

/-- Every pair the scanner produces has a whitespace-stripped path and
    body. -/
theorem opcScanStep_stripped {content : Str} {pr : Str × Str} {rest : Str}
    (h : opcScanStep content = some (pr, rest)) :
    dropTrailing isPathWs pr.1 = pr.1 ∧ dropTrailing isBodyWs pr.2 = pr.2 := by
  unfold opcScanStep at h
  rcases h1 : findSub markerSp content with - | i
  · rw [h1] at h; cases h
  · simp only [h1] at h
    rcases h2 : findChr '\n' (content.drop (i + markerSp.length)) with - | pathEnd
    · rw [h2] at h; cases h
    · simp only [h2] at h
      injection h with h
      injection h with hpr hrest
      rw [← hpr]
      exact ⟨dropTrailing_idem _ _, dropTrailing_idem _ _⟩

theorem opcScanF_stripped :
    ∀ (fuel : Nat) (content : Str) (pr : Str × Str),
    pr ∈ opcScanF fuel content →
    dropTrailing isPathWs pr.1 = pr.1 ∧ dropTrailing isBodyWs pr.2 = pr.2 := by
  intro fuel
  induction fuel with
  | zero => intro content pr h; cases h
  | succ f ih =>
      intro content pr h
      unfold opcScanF at h
      rcases h1 : opcScanStep content with - | pq <;> rw [h1] at h
      · cases h
      · rcases List.mem_cons.mp h with h2 | h2
        · subst h2
          exact opcScanStep_stripped (by rw [h1])
        · exact ih pq.2 pr h2

theorem strLt_eq_of_both_false {a b : Str} (h1 : strLt a b = false)
    (h2 : strLt b a = false) : a = b := by
  induction a generalizing b with
  | nil =>
      cases b with
      | nil => rfl
      | cons d ds => simp [strLt] at h1
  | cons c cs ih =>
      cases b with
      | nil => simp [strLt] at h2
      | cons d ds =>
          simp only [strLt] at h1 h2
          by_cases hcd : c < d
          · simp [hcd] at h1
          · by_cases hdc : d < c
            · simp [hdc] at h2
            · have hce : c = d := le_antisymm (not_lt.mp hdc) (not_lt.mp hcd)
              subst hce
              rw [if_neg hcd, if_neg hcd] at h1 h2
              rw [ih h1 h2]

theorem mem_alInsert {α : Type} {pr : Str × α} {k : Str} {v : α} :
    ∀ {m : List (Str × α)}, pr ∈ alInsert k v m → pr = (k, v) ∨ pr ∈ m := by
  intro m
  induction m with
  | nil => intro h; simpa [alInsert] using h
  | cons q rest ih =>
      intro h
      unfold alInsert at h
      by_cases h1 : strLt k q.1 = true
      · rw [if_pos h1] at h
        rcases List.mem_cons.mp h with h2 | h2
        · exact Or.inl h2
        · exact Or.inr h2
      · rw [if_neg h1] at h
        by_cases h2 : strLt q.1 k = true
        · rw [if_pos h2] at h
          rcases List.mem_cons.mp h with h3 | h3
          · exact Or.inr (by simp [h3])
          · rcases ih h3 with h4 | h4
            · exact Or.inl h4
            · exact Or.inr (by simp [h4])
        · rw [if_neg h2] at h
          rcases List.mem_cons.mp h with h3 | h3
          · have hkq : k = q.1 :=
              strLt_eq_of_both_false (Bool.not_eq_true _ ▸ h1)
                (Bool.not_eq_true _ ▸ h2)
            exact Or.inl (by rw [h3, hkq])
          · exact Or.inr (by simp [h3])

theorem mem_foldl_alInsert {α : Type} :
    ∀ {qs : List (Str × α)} {acc : List (Str × α)} {pr : Str × α},
    pr ∈ qs.foldl (fun m p => alInsert p.1 p.2 m) acc → pr ∈ acc ∨ pr ∈ qs := by
  intro qs
  induction qs with
  | nil => intro acc pr h; exact Or.inl h
  | cons q rest ih =>
      intro acc pr h
      rw [List.foldl_cons] at h
      rcases ih h with h1 | h1
      · rcases mem_alInsert h1 with h2 | h2
        · exact Or.inr (by simp [h2])
        · exact Or.inl h2
      · exact Or.inr (by simp [h1])

theorem partRawOkB_intro {p : Str × Str} (h1 : p.1 ≠ [])
    (h2 : ∀ c ∈ p.1, c ≠ '\n' ∧ c ≠ ' ' ∧ c ≠ '\r')
    (h3 : ∀ i, ¬ occursAt markerNoSp p.2 i) : partRawOkB p = true := by
  unfold partRawOkB
  simp only [Bool.and_eq_true, Bool.not_eq_true', List.all_eq_true]
  refine ⟨⟨by simpa using h1, ?_⟩, (containsSub_false_iff _ _).mpr h3⟩
  intro c hc
  obtain ⟨k1, k2, k3⟩ := h2 c hc
  simp [k1, k2, k3]

theorem padList_mem :
    ∀ {ps : List (Str × Str)} {pads : List Str} {q : Str × Str},
    q ∈ padList ps pads →
    ∃ p ∈ ps, ∃ w, (w = [] ∨ w ∈ pads) ∧ q = (p.1, p.2 ++ w) := by
  intro ps
  induction ps with
  | nil => intro pads q h; cases h
  | cons p rest ih =>
      intro pads q h
      rcases List.mem_cons.mp h with h1 | h1
      · refine ⟨p, by simp, pads.headD [], ?_, h1⟩
        cases pads with
        | nil => exact Or.inl rfl
        | cons w ws => exact Or.inr (by simp)
      · obtain ⟨p2, hp2, w, hw, hq⟩ := ih h1
        refine ⟨p2, by simp [hp2], w, ?_, hq⟩
        rcases hw with hw | hw
        · exact Or.inl hw
        · exact Or.inr (List.mem_of_mem_tail hw)

theorem padList_map_strip :
    ∀ (ps : List (Str × Str)) (pads : List Str),
    (∀ p ∈ ps, dropTrailing isBodyWs p.2 = p.2) →
    (∀ w ∈ pads, ∀ c ∈ w, isBodyWs c = true) →
    (padList ps pads).map (fun p => (p.1, dropTrailing isBodyWs p.2)) = ps := by
  intro ps
  induction ps with
  | nil => intro pads _ _; rfl
  | cons p rest ih =>
      intro pads hstrip hpads
      have hhead : ∀ c ∈ pads.headD [], isBodyWs c = true := by
        cases pads with
        | nil => intro c hc; cases hc
        | cons w ws => exact hpads w (by simp)
      show ((p.1, p.2 ++ pads.headD []).1,
          dropTrailing isBodyWs (p.1, p.2 ++ pads.headD []).2) ::
          (padList rest pads.tail).map _ = p :: rest
      rw [dropTrailing_append_ws hhead, hstrip p (by simp),
          ih pads.tail (fun q hq => hstrip q (by simp [hq]))
            (fun w hw => hpads w (List.mem_of_mem_tail hw))]

theorem padList_map_fst :
    ∀ (ps : List (Str × Str)) (pads : List Str),
    (padList ps pads).map (·.1) = ps.map (·.1) := by
  intro ps
  induction ps with
  | nil => intro pads; rfl
  | cons p rest ih =>
      intro pads
      show p.1 :: (padList rest pads.tail).map (·.1) = p.1 :: rest.map (·.1)
      rw [ih pads.tail]

theorem padList_length (ps : List (Str × Str)) (pads : List Str) :
    (padList ps pads).length = ps.length := by
  induction ps generalizing pads with
  | nil => rfl
  | cons p rest ih =>
      show (padList rest pads.tail).length + 1 = rest.length + 1
      rw [ih pads.tail]

/-- Loading an emission whose bodies carry extra trailing whitespace
    recovers the same canonical parts. -/
theorem opcLoadParts_padded {ps : List (Str × Str)} {pads : List Str}
    (hcanon : canonicalPartsB ps = true)
    (hpads : ∀ w ∈ pads, ∀ c ∈ w, isBodyWs c = true) :
    opcLoadParts (canonicalHeader ++ partsBlocks (padList ps pads)) = ps := by
  obtain ⟨hok, hpw⟩ := canonicalPartsB_spec hcanon
  have hraw : ∀ q ∈ padList ps pads, partRawOkB q = true := by
    intro q hq
    obtain ⟨p, hp, w, hw, rfl⟩ := padList_mem hq
    obtain ⟨k1, k2, k3, -⟩ := partOkB_spec (hok p hp)
    refine partRawOkB_intro k1 k2 ?_
    refine not_occursAt_append_ws p.2 w markerNoSp_ne_nil markerNoSp_no_ws k3 ?_
    rcases hw with hw | hw
    · subst hw; intro c hc; cases hc
    · exact hpads w hw
  have hfuel : (padList ps pads).length + 1 ≤
      (canonicalHeader ++ partsBlocks (padList ps pads)).length := by
    rw [List.length_append]
    have h1 := partsBlocks_length_ge (padList ps pads)
    have h2 : 0 < canonicalHeader.length := by decide
    omega
  unfold opcLoadParts
  rw [opcScanF_emission (padList ps pads) _ canonicalHeader hfuel
        canonicalHeader_ne_nil canonicalHeader_no_marker canonicalHeader_last hraw]
  rw [padList_map_strip ps pads
        (fun p hp => (partOkB_spec (hok p hp)).2.2.2) hpads]
  exact foldl_alInsert_sorted ps [] (by simp) hpw

/-! ### Claim C1 -/
/-- C1 (amended): the forward translation followed by the sidecar-driven
    reverse translation is byte-identical exactly on containers already in
    the writer's canonical emitted form — fixed header, parts listed in
    sorted path order with canonical separators and no trailing
    whitespace.  For such containers, loading recovers precisely the
    recorded part order and raw parts, and re-emission reproduces the
    container byte for byte; in particular `emit ∘ build ∘ load` is
    idempotent on all containers.  (On a container not of this form the
    writer normalizes the header, the part order and the separators, so
    byte-identity fails — see the counterexample.) -/
theorem claimC1_sidecar_roundtrip (ps : List (Str × Str))
    (hcanon : canonicalPartsB ps = true) :
    buildMetadata (opcLoad (writeWithMetadata ⟨ps.map (·.1), ps⟩)) =
      ⟨ps.map (·.1), ps⟩ ∧
    mdlRoundTrip (writeWithMetadata ⟨ps.map (·.1), ps⟩) =
      writeWithMetadata ⟨ps.map (·.1), ps⟩ := by
  have hM := writeWithMetadata_canonical hcanon
  have hbm : buildMetadata (opcLoad (writeWithMetadata ⟨ps.map (·.1), ps⟩)) =
      ⟨ps.map (·.1), ps⟩ := by
    rw [hM]
    exact buildMetadata_of_emission hcanon
  refine ⟨hbm, ?_⟩
  unfold mdlRoundTrip
  rw [hbm]

/-- C1 counterexample: a container that is not in the writer's canonical
    form (here: a one-line header differing from the canonical template) is
    not reproduced byte-for-byte by the forward-then-reverse pipeline, so
    the round-trip property does not hold for every MDL container. -/
theorem claimC1_counterexample :
    mdlRoundTrip (str "junk\n__MWOPC_PART_BEGIN__ /simulink/a.xml\nhello\n\n") ≠
      str "junk\n__MWOPC_PART_BEGIN__ /simulink/a.xml\nhello\n\n" := by decide

/-- C1 witness: a concrete two-part canonical container round-trips. -/
theorem claimC1_witness :
    canonicalPartsB
      [(str "/simulink/blockdiagram.xml", str "<Model/>"),
       (str "/simulink/systems/system_root.xml", str "<System/>")] = true ∧
    (buildMetadata (opcLoad (writeWithMetadata
        ⟨[(str "/simulink/blockdiagram.xml", str "<Model/>"),
          (str "/simulink/systems/system_root.xml", str "<System/>")].map (·.1),
         [(str "/simulink/blockdiagram.xml", str "<Model/>"),
          (str "/simulink/systems/system_root.xml", str "<System/>")]⟩)) =
      ⟨[(str "/simulink/blockdiagram.xml", str "<Model/>"),
        (str "/simulink/systems/system_root.xml", str "<System/>")].map (·.1),
       [(str "/simulink/blockdiagram.xml", str "<Model/>"),
        (str "/simulink/systems/system_root.xml", str "<System/>")]⟩ ∧
     mdlRoundTrip (writeWithMetadata
        ⟨[(str "/simulink/blockdiagram.xml", str "<Model/>"),
          (str "/simulink/systems/system_root.xml", str "<System/>")].map (·.1),
         [(str "/simulink/blockdiagram.xml", str "<Model/>"),
          (str "/simulink/systems/system_root.xml", str "<System/>")]⟩) =
      writeWithMetadata
        ⟨[(str "/simulink/blockdiagram.xml", str "<Model/>"),
          (str "/simulink/systems/system_root.xml", str "<System/>")].map (·.1),
         [(str "/simulink/blockdiagram.xml", str "<Model/>"),
          (str "/simulink/systems/system_root.xml", str "<System/>")]⟩) :=
  ⟨by decide, claimC1_sidecar_roundtrip _ (by decide)⟩

/-! ### Claim C9 -/
/-- C9: every part the OPC extractor stores has its body stripped of every
    trailing newline, carriage return and space (and its path stripped of
    trailing spaces and carriage returns); consequently a container whose
    part bodies carry extra trailing whitespace loads to exactly the same
    part map as the container without it. -/
theorem claimC9_trailing_whitespace (content : Str) (ps : List (Str × Str))
    (pads : List Str) (hcanon : canonicalPartsB ps = true)
    (hpads : ∀ w ∈ pads, ∀ c ∈ w, isBodyWs c = true) :
    (∀ pr ∈ (opcLoad content).parts,
        dropTrailing isPathWs pr.1 = pr.1 ∧ dropTrailing isBodyWs pr.2 = pr.2) ∧
    (opcLoad (canonicalHeader ++ partsBlocks (padList ps pads))).parts = ps ∧
    opcLoad (canonicalHeader ++ partsBlocks (padList ps pads)) =
      opcLoad (canonicalHeader ++ partsBlocks ps) := by
  refine ⟨?_, opcLoadParts_padded hcanon hpads, ?_⟩
  · intro pr hpr
    rcases mem_foldl_alInsert hpr with h1 | h1
    · cases h1
    · obtain ⟨h2, h3⟩ := opcScanF_stripped _ content pr h1
      exact ⟨h2, h3⟩
  · show OpcExtractor.mk _ = OpcExtractor.mk _
    rw [opcLoadParts_padded hcanon hpads, opcLoadParts_emission hcanon]

/-- C9 witness: a concrete container with and without trailing whitespace
    loads identically, and its stored parts are stripped. -/
theorem claimC9_witness :
    canonicalPartsB [(str "/simulink/a.xml", str "<a/>")] = true ∧
    (∀ w ∈ [str "  \r\n"], ∀ c ∈ w, isBodyWs c = true) ∧
    ((∀ pr ∈ (opcLoad (str "x")).parts,
        dropTrailing isPathWs pr.1 = pr.1 ∧ dropTrailing isBodyWs pr.2 = pr.2) ∧
     (opcLoad (canonicalHeader ++
        partsBlocks (padList [(str "/simulink/a.xml", str "<a/>")]
          [str "  \r\n"]))).parts = [(str "/simulink/a.xml", str "<a/>")] ∧
     opcLoad (canonicalHeader ++
        partsBlocks (padList [(str "/simulink/a.xml", str "<a/>")]
          [str "  \r\n"])) =
       opcLoad (canonicalHeader ++
        partsBlocks [(str "/simulink/a.xml", str "<a/>")])) :=
  ⟨by decide, by decide,
   claimC9_trailing_whitespace (str "x") _ _ (by decide) (by decide)⟩

/-! ### Lemmas supporting the endpoint-parsing claim -/
theorem takeWhile_eq_self_of_all {p : Char → Bool} {s : Str}
    (h : ∀ c ∈ s, p c = true) : s.takeWhile p = s := by
  induction s with
  | nil => rfl
  | cons c rest ih =>
      rw [List.takeWhile_cons, if_pos (h c (by simp))]
      rw [ih (fun d hd => h d (by simp [hd]))]

theorem digit_char_props {c : Char} (h : isDigitChar c = true) :
    isSpaceChar c = false ∧ c ≠ '-' ∧ c ≠ '+' := by
  refine ⟨?_, ?_, ?_⟩
  · cases hsp : isSpaceChar c
    · rfl
    · exfalso
      have h6 : c = ' ' ∨ c = '\t' ∨ c = '\n' ∨ c = '\r' ∨ c = '\x0b' ∨ c = '\x0c' := by
        simpa [isSpaceChar, or_assoc] using hsp
      rcases h6 with h1 | h1 | h1 | h1 | h1 | h1 <;>
        (subst h1; exact absurd h (by decide))
  · intro hc; subst hc; exact absurd h (by decide)
  · intro hc; subst hc; exact absurd h (by decide)

theorem stoiOpt_digits {ds : Str} (hne : ds ≠ [])
    (hd : ∀ c ∈ ds, isDigitChar c = true) :
    stoiOpt ds = some ((digitsVal 0 ds : Nat) : Int) := by
  obtain ⟨d, rest, rfl⟩ := List.exists_cons_of_ne_nil hne
  obtain ⟨hsp, hdash, hplus⟩ := digit_char_props (hd d (by simp))
  have hlead : leadingDigits (d :: rest) = d :: rest :=
    takeWhile_eq_self_of_all hd
  have hdrop : dropWhileCh isSpaceChar (d :: rest) = d :: rest := by
    rw [dropWhileCh_cons, hsp]; simp
  unfold stoiOpt
  simp only [hdrop]
  split
  · rename_i heq
    exact absurd (List.head_eq_of_cons_eq heq.symm).symm hdash
  · rename_i heq
    exact absurd (List.head_eq_of_cons_eq heq.symm).symm hplus
  · rw [if_neg (by rw [hlead]; simp), hlead]

theorem findChr_eq_none {c : Char} {s : Str} (h : c ∉ s) : findChr c s = none := by
  unfold findChr
  rw [findSub_eq_none_iff]
  exact (not_occursAt_singleton_iff c s).mpr h

theorem findChr_append_cons {c : Char} (x y : Str) (h : c ∉ x) :
    findChr c (x ++ c :: y) = some x.length := by
  unfold findChr
  refine findSub_append_start [c] x (c :: y) (by simp)
    ((not_occursAt_singleton_iff c x).mpr h) ?_ ⟨y, rfl⟩
  intro d hd hmem
  have hdc : d = c := by simpa using hmem
  subst hdc
  exact h (mem_of_getLastQ hd)

/-! ### Claim C8 -/
/-- C8 (amended): endpoint parsing of `<id>#<kind>:<idx>` returns the
    `(id, kind, idx)` triple whenever the index portion parses as an
    integer under `std::stoi` (any integer, not only positive ones), and
    returns the recoverable empty result when the `#` separator is absent.
    When the index portion is not an integer the failure is an uncaught
    `std::stoi` exception (`Except.error`), not a recoverable
    `malformed_endpoint`; see the counterexample. -/
theorem claimC8_endpoint_parse (id kind ds spec : Str)
    (h1 : '#' ∉ id) (h2 : ':' ∉ kind) (h3 : ds ≠ [])
    (h4 : ∀ c ∈ ds, isDigitChar c = true) (h5 : '#' ∉ spec) :
    endpointParse (id ++ '#' :: (kind ++ ':' :: ds)) =
      .ok (some ⟨id, kind, ((digitsVal 0 ds : Nat) : Int)⟩) ∧
    endpointParse spec = .ok none := by
  constructor
  · have hsplit : '#' :: (kind ++ ':' :: ds) = ('#' :: kind) ++ ':' :: ds := by simp
    have hcolon : findChr ':' ('#' :: (kind ++ ':' :: ds)) = some (kind.length + 1) := by
      rw [hsplit, findChr_append_cons ('#' :: kind) ds (by
        intro hmem
        rcases List.mem_cons.mp hmem with h | h
        · cases h
        · exact h2 h)]
      simp
    have hdrop2 : (id ++ '#' :: (kind ++ ':' :: ds)).drop
        (kind.length + 1 + id.length + 1) = ds := by
      have hre : id ++ '#' :: (kind ++ ':' :: ds) = (id ++ '#' :: kind ++ [':']) ++ ds := by
        simp
      have harith : kind.length + 1 + id.length + 1 =
          (id ++ '#' :: kind ++ [':']).length := by
        simp; omega
      rw [harith, hre, drop_append_exact]
    have htake : (id ++ '#' :: (kind ++ ':' :: ds)).take (id.length) = id :=
      List.take_left' rfl
    have hdrop3 : (id ++ '#' :: (kind ++ ':' :: ds)).drop (id.length + 1) =
        kind ++ ':' :: ds := drop_append_succ id _ '#'
    have htake2 : ((id ++ '#' :: (kind ++ ':' :: ds)).drop (id.length + 1)).take
        (kind.length + 1 + id.length - id.length - 1) = kind := by
      rw [hdrop3, show kind.length + 1 + id.length - id.length - 1 = kind.length by omega]
      exact List.take_left' rfl
    simp only [endpointParse, findChr_append_cons id (kind ++ ':' :: ds) h1,
      drop_append_exact, hcolon, Option.map_some', hdrop2,
      stoiOpt_digits h3 h4, htake, htake2]
  · simp only [endpointParse, findChr_eq_none h5]

/-- C8 counterexample: a non-integer index portion makes `endpoint::parse`
    throw out of `std::stoi` (modelled `Except.error`) instead of failing
    recoverably, and a zero or negative index is accepted rather than
    rejected. -/
theorem claimC8_counterexample :
    endpointParse (str "A#in:x") = .error () ∧
    endpointParse (str "A#in:0") = .ok (some ⟨str "A", str "in", 0⟩) ∧
    endpointParse (str "A#in:-2") = .ok (some ⟨str "A", str "in", -2⟩) := by
  decide

/-- C8 witness: the amended theorem applied to `A#in:3` and to the
    separator-free string `Ain3`. -/
theorem claimC8_witness :
    ('#' ∉ str "A") ∧ (':' ∉ str "in") ∧ str "3" ≠ [] ∧
    (∀ c ∈ str "3", isDigitChar c = true) ∧ ('#' ∉ str "Ain3") ∧
    (endpointParse (str "A" ++ '#' :: (str "in" ++ ':' :: str "3")) =
      .ok (some ⟨str "A", str "in", ((digitsVal 0 (str "3") : Nat) : Int)⟩) ∧
     endpointParse (str "Ain3") = .ok none) :=
  ⟨by decide, by decide, by decide, by decide, by decide,
   claimC8_endpoint_parse (str "A") (str "in") (str "3") (str "Ain3")
     (by decide) (by decide) (by decide) (by decide) (by decide)⟩

/-! ### Lemmas supporting the port-default claim -/
theorem except_bind_ok {e a b : Type} (x : a) (f : a → Except e b) :
    (Except.ok x >>= f : Except e b) = f x := rfl

theorem except_bind_error {e a b : Type} (err : e) (f : a → Except e b) :
    (Except.error err >>= f : Except e b) = Except.error err := rfl

theorem except_bind_ok_fun {e a : Type} (x : Except e a) :
    (x >>= fun y => (Except.ok y : Except e a)) = x := by
  cases x <;> rfl

theorem except_bind_pure_fun {e a : Type} (x : Except e a) :
    (x >>= fun y => (pure y : Except e a)) = x := by
  cases x <;> rfl

theorem foldlM_ports_invariant {α : Type} (f : Block → α → Except Unit Block)
    (hp : ∀ b x b', f b x = .ok b' →
      b'.port_in = b.port_in ∧ b'.port_out = b.port_out) :
    ∀ (xs : List α) (b b' : Block), xs.foldlM f b = .ok b' →
      b'.port_in = b.port_in ∧ b'.port_out = b.port_out := by
  intro xs
  induction xs with
  | nil =>
      intro b b' h
      simp only [List.foldlM_nil, pure, Except.pure] at h
      cases h
      exact ⟨rfl, rfl⟩
  | cons x rest ih =>
      intro b b' h
      rw [List.foldlM_cons] at h
      cases hf : f b x with
      | error e =>
          rw [hf] at h
          rw [except_bind_error] at h
          exact Except.noConfusion h
      | ok b1 =>
          rw [hf] at h
          rw [except_bind_ok] at h
          have hstep := hp b x b1 hf
          have hrest := ih b1 b' h
          exact ⟨hrest.1.trans hstep.1, hrest.2.trans hstep.2⟩

/-! ### Claim C10 -/
/-- C10: a `<Block>` element without a `<PortCounts>` child parses to a
    block with `port_in = 1` and `port_out = 1` (the member-initializer
    defaults), whatever the block type: no later step of `parse_block`
    touches the port counts. -/
theorem parseBlockP_ports (b : Block) (p : XmlElement) (b' : Block)
    (h : parseBlockP b p = .ok b') :
    b'.port_in = b.port_in ∧ b'.port_out = b.port_out := by
  unfold parseBlockP at h
  simp only [] at h
  split at h
  · simp only [pure, Except.pure] at h
    cases h
    exact ⟨rfl, rfl⟩
  · split at h
    · split at h
      · cases h
      · simp only [pure, Except.pure] at h
        cases h
        exact ⟨rfl, rfl⟩
    · simp only [pure, Except.pure] at h
      cases h
      exact ⟨rfl, rfl⟩

theorem parseBlockPort_ports (b : Block) (p : XmlElement) (b' : Block)
    (h : parseBlockPort b p = .ok b') :
    b'.port_in = b.port_in ∧ b'.port_out = b.port_out := by
  unfold parseBlockPort at h
  simp only [] at h
  split at h
  · cases h
  · split at h
    · simp only [pure, Except.pure] at h
      cases h
      exact ⟨rfl, rfl⟩
    · split at h
      · simp only [pure, Except.pure] at h
        cases h
        exact ⟨rfl, rfl⟩
      · simp only [pure, Except.pure] at h
        cases h
        exact ⟨rfl, rfl⟩

theorem claimC10_port_defaults (elem : XmlElement) (b : Block)
    (hnpc : elem.child (str "PortCounts") = none)
    (hok : parse_block elem = .ok b) :
    b.port_in = 1 ∧ b.port_out = 1 := by
  unfold parse_block at hok
  rw [hnpc] at hok
  simp only [pure_bind] at hok
  cases hf1 : (elem.childrenByTag (str "P")).foldlM parseBlockP
      { type := elem.attr (str "BlockType"), name := elem.attr (str "Name"),
        sid := elem.attr (str "SID") } with
  | error e =>
      rw [hf1, except_bind_error] at hok
      exact Except.noConfusion hok
  | ok b1 =>
      rw [hf1, except_bind_ok] at hok
      have hports1 : b1.port_in = 1 ∧ b1.port_out = 1 := by
        have h0 := foldlM_ports_invariant parseBlockP parseBlockP_ports _ _ _ hf1
        simpa using h0
      cases hsys : elem.child (str "System") <;> simp only [hsys] at hok <;>
        cases hm : elem.child (str "Mask") <;> simp only [hm] at hok <;>
          cases hpp : elem.child (str "PortProperties") <;>
            simp only [hpp, except_bind_ok, except_bind_ok_fun, except_bind_pure_fun] at hok
      case none.none.none =>
        cases hok
        exact hports1
      case none.none.some pp =>
        have h3 := foldlM_ports_invariant parseBlockPort parseBlockPort_ports _ _ _ hok
        exact ⟨h3.1.trans hports1.1, h3.2.trans hports1.2⟩
      case none.some.none mask =>
        cases hok
        simpa using hports1
      case none.some.some mask pp =>
        have h3 := foldlM_ports_invariant parseBlockPort parseBlockPort_ports _ _ _ hok
        simp only [] at h3
        exact ⟨h3.1.trans hports1.1, h3.2.trans hports1.2⟩
      case some.none.none sysRef =>
        cases hok
        simpa using hports1
      case some.none.some sysRef pp =>
        have h3 := foldlM_ports_invariant parseBlockPort parseBlockPort_ports _ _ _ hok
        simp only [] at h3
        exact ⟨h3.1.trans hports1.1, h3.2.trans hports1.2⟩
      case some.some.none sysRef mask =>
        cases hok
        simpa using hports1
      case some.some.some sysRef mask pp =>
        have h3 := foldlM_ports_invariant parseBlockPort parseBlockPort_ports _ _ _ hok
        simp only [] at h3
        exact ⟨h3.1.trans hports1.1, h3.2.trans hports1.2⟩

/-- C10 witness: a concrete Gain block element without `PortCounts`. -/
theorem claimC10_witness :
    (XmlElement.mk (str "Block")
      [(str "BlockType", str "Gain"), (str "Name", str "G"), (str "SID", str "4")]
      [] [XmlElement.mk (str "P") [(str "Name", str "Gain")] (str "2.5") []]).child
        (str "PortCounts") = none ∧
    parse_block (XmlElement.mk (str "Block")
      [(str "BlockType", str "Gain"), (str "Name", str "G"), (str "SID", str "4")]
      [] [XmlElement.mk (str "P") [(str "Name", str "Gain")] (str "2.5") []]) =
      .ok { type := str "Gain", name := str "G", sid := str "4",
            parameters := [(str "Gain", str "2.5")] } ∧
    (({ type := str "Gain", name := str "G", sid := str "4",
        parameters := [(str "Gain", str "2.5")] } : Block).port_in = 1 ∧
     ({ type := str "Gain", name := str "G", sid := str "4",
        parameters := [(str "Gain", str "2.5")] } : Block).port_out = 1) :=
  ⟨by decide, by decide,
   claimC10_port_defaults
     (XmlElement.mk (str "Block")
       [(str "BlockType", str "Gain"), (str "Name", str "G"), (str "SID", str "4")]
       [] [XmlElement.mk (str "P") [(str "Name", str "Gain")] (str "2.5") []])
     { type := str "Gain", name := str "G", sid := str "4",
       parameters := [(str "Gain", str "2.5")] }
     (by decide) (by decide)⟩

/-! ### Lemmas supporting the emission-comment claim -/
theorem startsWith_of_prefix {p s : Str} (h : p <+: s) : startsWith p s = true :=
  startsWith_iff.mpr h

theorem prefix_append_right {p s : Str} (t : Str) (h : p <+: s) : p <+: s ++ t :=
  h.trans (List.prefix_append s t)

/-- C3 (amended): for every block type other than SubSystem the emitted
    code is the `generate_block_body` output, which always begins with the
    `// <BlockType>: <BlockName>` comment line; and the operation code of
    `generate_parts` always separates the system code from the output
    assignments with a single `// Outputs` comment line.  A resolvable
    SubSystem block breaks the discipline: its inlined code begins with a
    decorated `// ─── Subsystem: <name> ───` marker instead (see the
    counterexample). -/
theorem claimC3_emission_comments (m? : Option Model) (fuel : Nat) (blk : Block)
    (inputs : List Str) (out_var varPfx state_var : Str) (smap : List (Str × Str))
    (hnotss : blk.type ≠ str "SubSystem")
    (sys : System) (pfx : Str) (p : GeneratedParts)
    (hgp : generate_parts m? sys pfx = .ok p) :
    generate_block_code m? fuel blk inputs out_var varPfx state_var smap =
      .ok (generate_block_body blk inputs out_var varPfx state_var smap) ∧
    startsWith (indent_ ++ str "// " ++ blk.type ++ str ": " ++ blk.name ++ ['\n'])
      (generate_block_body blk inputs out_var varPfx state_var smap).2 = true ∧
    ∃ sysCode outCode, p.operation_code =
      sysCode ++ ['\n'] ++ indent_ ++ str "// Outputs\n" ++ outCode := by
  refine ⟨?_, ?_, ?_⟩
  · unfold generate_block_code generate_block_codeG
    rw [if_neg hnotss]
  · apply startsWith_of_prefix
    unfold generate_block_body
    simpa [List.append_assoc] using
      List.prefix_append
        (indent_ ++ str "// " ++ blk.type ++ str ": " ++ blk.name ++ ['\n'])
        (generate_block_rest blk inputs out_var varPfx state_var smap).2
  · unfold generate_parts at hgp
    split at hgp
    · exact Except.noConfusion hgp
    · split at hgp
      · exact Except.noConfusion hgp
      · simp only [] at hgp
        split at hgp
        · exact Except.noConfusion hgp
        · split at hgp
          · exact Except.noConfusion hgp
          · cases hgp
            exact ⟨_, _, rfl⟩

/-- C3 witness: a concrete Gain block and the empty system. -/
theorem claimC3_witness :
    c3Blk.type ≠ str "SubSystem" ∧
    generate_parts none c3EmptySys [] = .ok c3Parts ∧
    (generate_block_code none 0 c3Blk [] (str "G") (str "G") [] [] =
      .ok (generate_block_body c3Blk [] (str "G") (str "G") [] []) ∧
     startsWith (indent_ ++ str "// " ++ c3Blk.type ++ str ": " ++ c3Blk.name ++ ['\n'])
       (generate_block_body c3Blk [] (str "G") (str "G") [] []).2 = true ∧
     ∃ sysCode outCode, c3Parts.operation_code =
       sysCode ++ ['\n'] ++ indent_ ++ str "// Outputs\n" ++ outCode) :=
  ⟨by decide, by decide,
   claimC3_emission_comments none 0 c3Blk [] (str "G") (str "G") [] [] (by decide)
     c3EmptySys [] c3Parts (by decide)⟩

/-- C3 counterexample: a resolvable SubSystem block's emitted code carries
    no `// SubSystem: <name>` comment at all; it opens with the decorated
    `// ─── Subsystem: <name> ───` marker instead. -/
theorem claimC3_counterexample :
    (generate_block_code (some c3SubModel) 1 c3SubBlk
        [] (str "Inner_out1") (str "Inner") [] []).map
      (fun pr => containsSub (str "// SubSystem: Inner") pr.2) = .ok false ∧
    (generate_block_code (some c3SubModel) 1 c3SubBlk
        [] (str "Inner_out1") (str "Inner") [] []).map
      (fun pr => startsWith (indent_ ++ str "// ─── Subsystem: Inner ───\n") pr.2) =
      .ok true := by
  decide

/-! ### Claim C7 -/
/-- C7 (amended): `resolve_input` either appends exactly one connection
    (when one of its documented fallbacks resolves the name) or returns
    the connection list unchanged; in particular a reference none of the
    lookups resolve is skipped silently — the function has no error or
    diagnostic channel at all, so no `lift_unresolved_reference`
    diagnostic is ever surfaced. -/
theorem claimC7_resolve_skip (expr : Str) (vm : List (Str × Int × Int))
    (conns : List IrConnection) (ds dp : Int)
    (hntodo : findSub (str "// TODO:") (trimStr expr) = none)
    (h1 : alLookup (trimStr expr) vm = none)
    (h2 : alLookup (str "state." ++ trimStr expr ++ str "_state") vm = none)
    (h3 : alLookup ((trimStr expr).drop 6) vm = none) :
    resolve_input expr vm conns ds dp = conns ∧
    ∀ e : Str, resolve_input e vm conns ds dp = conns ∨
      ∃ s q, resolve_input e vm conns ds dp =
        conns ++ [{ src_sid := s, src_port := q, dst_sid := ds, dst_port := dp }] := by
  constructor
  · unfold resolve_input
    simp only [hntodo, h1]
    split_ifs <;> simp_all [h1, h2, h3]
  · intro e
    unfold resolve_input
    simp only []
    split_ifs <;> try exact Or.inl rfl
    repeat' split
    all_goals first
      | exact Or.inl rfl
      | exact Or.inr ⟨_, _, rfl⟩

/-- C7 witness: an unresolved name leaves the connections unchanged. -/
theorem claimC7_witness :
    findSub (str "// TODO:") (trimStr (str "mystery_sig")) = none ∧
    alLookup (trimStr (str "mystery_sig")) [(str "known", ((3 : Int), (1 : Int)))] = none ∧
    alLookup (str "state." ++ trimStr (str "mystery_sig") ++ str "_state")
      [(str "known", ((3 : Int), (1 : Int)))] = none ∧
    alLookup ((trimStr (str "mystery_sig")).drop 6)
      [(str "known", ((3 : Int), (1 : Int)))] = none ∧
    (resolve_input (str "mystery_sig") [(str "known", ((3 : Int), (1 : Int)))] [] 7 1 = [] ∧
     ∀ e : Str, resolve_input e [(str "known", ((3 : Int), (1 : Int)))] [] 7 1 = [] ∨
       ∃ s q, resolve_input e [(str "known", ((3 : Int), (1 : Int)))] [] 7 1 =
         [] ++ [{ src_sid := s, src_port := q, dst_sid := 7, dst_port := 1 }]) :=
  ⟨by decide, by decide, by decide, by decide,
   claimC7_resolve_skip (str "mystery_sig") [(str "known", ((3 : Int), (1 : Int)))] [] 7 1
     (by decide) (by decide) (by decide) (by decide)⟩

/-- C7 counterexample: the unresolved reference produces nothing at all —
    no connection and no diagnostic (the result is only the unchanged
    connection list), while a resolvable one produces its connection. -/
theorem claimC7_counterexample :
    resolve_input (str "mystery_sig") [(str "known", ((3 : Int), (1 : Int)))] [] 7 1 = [] ∧
    resolve_input (str "known") [(str "known", ((3 : Int), (1 : Int)))] [] 7 1 =
      [{ src_sid := 3, src_port := 1, dst_sid := 7, dst_port := 1 }] := by
  decide

/-! ### Claim C5 -/
/-- C5: a dependency cycle that survives stateful-block breaking is not
    surfaced as any error — code generation succeeds, and the blocks on
    the cycle are silently omitted from the generated operation code.
    Here two Gain blocks feed each other: `generate_parts` returns
    success, and the operation code is just the empty system code followed
    by the `// Outputs` section — neither Gain is emitted and no
    diagnostic of any kind appears. -/
theorem claimC5_cycle_dropped :
    (generate_parts none
        { blocks :=
            [ { type := str "Gain", name := str "CycA", sid := str "1",
                parameters := [(str "Gain", str "2.0")] },
              { type := str "Gain", name := str "CycB", sid := str "2" } ],
          connections :=
            [ { source := str "1#out:1", destination := str "2#in:1" },
              { source := str "2#out:1", destination := str "1#in:1" } ] } []).map
      (fun p => p.operation_code) = .ok (str "\n        // Outputs\n") := by
  decide

theorem getLinesF_fuel {s : Str} {f1 f2 : Nat} (h1 : s.length ≤ f1) (h2 : s.length ≤ f2) :
    getLinesF f1 s = getLinesF f2 s := by
  induction f1 generalizing s f2 with
  | zero =>
      have hs : s = [] := List.eq_nil_of_length_eq_zero (Nat.le_zero.mp h1)
      subst hs
      cases f2 <;> rfl
  | succ f1 ih =>
      cases s with
      | nil => cases f2 <;> rfl
      | cons c rest =>
          cases f2 with
          | zero => simp at h2
          | succ f2 =>
              simp only [getLinesF]
              cases hf : findChr '\n' (c :: rest) with
              | none => rfl
              | some i =>
                  have hlen : ((c :: rest).drop (i + 1)).length ≤ f1 ∧
                      ((c :: rest).drop (i + 1)).length ≤ f2 := by
                    simp only [List.length_drop, List.length_cons] at *
                    omega
                  show (c :: rest).take i :: getLinesF f1 ((c :: rest).drop (i + 1)) =
                    (c :: rest).take i :: getLinesF f2 ((c :: rest).drop (i + 1))
                  rw [ih hlen.1 hlen.2]

theorem getLines_cons (x rest : Str) (hx : '\n' ∉ x) :
    getLines (x ++ '\n' :: rest) = x :: getLines rest := by
  have hfind : findChr '\n' (x ++ '\n' :: rest) = some x.length := by
    apply findSub_append_start ['\n'] x ('\n' :: rest) (by simp)
    · exact (not_occursAt_singleton_iff '\n' x).mpr hx
    · intro c hc hmem
      simp at hmem
      subst hmem
      apply hx
      rw [List.getLast?_eq_getElem?] at hc
      rcases List.getElem?_eq_some.mp hc with ⟨hlt, hEq⟩
      exact hEq ▸ List.getElem_mem hlt
    · exact ⟨rest, rfl⟩
  have hdrop : (x ++ '\n' :: rest).drop (x.length + 1) = rest := by
    have he : x ++ '\n' :: rest = (x ++ ['\n']) ++ rest := by simp
    rw [he, show x.length + 1 = (x ++ ['\n']).length by simp, List.drop_left]
  have htake : (x ++ '\n' :: rest).take x.length = x := List.take_left x _
  show getLinesF (x ++ '\n' :: rest).length (x ++ '\n' :: rest) = _
  cases hxs : x ++ '\n' :: rest with
  | nil => exact absurd hxs (by simp)
  | cons c t =>
      rw [hxs] at hfind hdrop htake
      simp only [List.length_cons, getLinesF]
      rw [hfind]
      show (c :: t).take x.length :: getLinesF t.length ((c :: t).drop (x.length + 1)) =
        x :: getLines rest
      rw [htake, hdrop]
      congr 1
      apply getLinesF_fuel
      · have := congrArg List.length hxs
        simp at this
        omega
      · exact le_refl _

theorem getLines_join (lines : List Str) (h : ∀ l ∈ lines, '\n' ∉ l) :
    getLines (joinLines lines) = lines := by
  induction lines with
  | nil => rfl
  | cons l rest ih =>
      show getLines (l ++ '\n' :: joinLines rest) = l :: rest
      rw [getLines_cons l _ (h l (by simp)), ih (fun l hl => h l (by simp [hl]))]

theorem dropWhileCh_eq_self {p : Char → Bool} {s : Str}
    (h : ∀ c, s.head? = some c → p c = false) : dropWhileCh p s = s := by
  cases s with
  | nil => rfl
  | cons c t =>
      unfold dropWhileCh
      rw [h c rfl]
      rfl

theorem dropTrailing_eq_self {p : Char → Bool} {s : Str}
    (h : ∀ c, s.getLast? = some c → p c = false) : dropTrailing p s = s := by
  unfold dropTrailing
  rw [dropWhileCh_eq_self, List.reverse_reverse]
  intro c hc
  exact h c (by rwa [← List.head?_reverse])

theorem trimStr_eval (pad core : Str) (hpad : ∀ c ∈ pad, isTrimWs c = true)
    (hhead : ∀ c, core.head? = some c → isTrimWs c = false)
    (hlast : ∀ c, core.getLast? = some c → isTrimWs c = false) :
    trimStr (pad ++ core) = core := by
  unfold trimStr
  rw [dropWhileCh_append_sat _ hpad, dropWhileCh_eq_self hhead,
    dropTrailing_eq_self hlast]

theorem getLast?_concat (x : Str) {y : Str} {c : Char} (h : y.getLast? = some c) :
    (x ++ y).getLast? = some c := by
  have hy : y ≠ [] := by intro e; subst e; simp at h
  have hrev : (x ++ y).reverse.head? = y.reverse.head? := by
    rw [List.reverse_append]
    cases hyr : y.reverse with
    | nil => exact absurd (by simpa using congrArg List.reverse hyr) hy
    | cons a t => simp
  rw [← List.head?_reverse, hrev, List.head?_reverse]
  exact h

theorem braceFold_const {t : Str} (h : ∀ c ∈ t, c ≠ '\x7b' ∧ c ≠ '\x7d') :
    ∀ d : Int, t.foldl braceF d = d := by
  induction t with
  | nil => intro d; rfl
  | cons c rest ih =>
      intro d
      obtain ⟨h1, h2⟩ := h c (by simp)
      show List.foldl braceF (braceF d c) rest = d
      rw [show braceF d c = d from by unfold braceF; rw [if_neg h1, if_neg h2]]
      exact ih (fun c hc => h c (by simp [hc])) d

theorem not_occursAt_of_head {n x : Str} {c : Char} (hn : n[0]? = some c)
    (hc : c ∉ x) : ∀ i, ¬ occursAt n x i := by
  intro i hocc
  have hne : n ≠ [] := by intro e; subst e; simp at hn
  have hk : 0 < n.length := List.length_pos.mpr hne
  have hh := occursAt_getElem n x i 0 hocc hk
  rw [Nat.add_zero, hn] at hh
  rcases List.getElem?_eq_some.mp hh with ⟨hlt, hEq⟩
  exact hc (hEq ▸ List.getElem_mem hlt)

theorem litOk_facts {s : Str} (h : litOk s = true) :
    s ≠ [] ∧ ∀ c ∈ s, isTrimWs c = false ∧ c ≠ '*' ∧ c ≠ 'k' ∧ c ≠ '\x7b' ∧ c ≠ '\x7d' := by
  unfold litOk at h
  rw [Bool.and_eq_true] at h
  obtain ⟨h1, h2⟩ := h
  constructor
  · intro e; subst e; simp at h1
  · intro c hc
    have h3 := List.all_eq_true.mp h2 c hc
    simp only [Bool.and_eq_true, Bool.not_eq_true', beq_eq_false_iff_ne] at h3
    exact ⟨h3.1.1.1.1, h3.1.1.1.2, h3.1.1.2, h3.1.2, h3.2⟩

theorem lineExprOk_facts {s : Str} (h : lineExprOk s = true) :
    s ≠ [] ∧ (∀ c, s.head? = some c → isTrimWs c = false) ∧
    (∀ c, s.getLast? = some c → isTrimWs c = false) ∧
    ∀ c ∈ s, c ≠ '\x7b' ∧ c ≠ '\x7d' ∧ c ≠ '\n' := by
  unfold lineExprOk at h
  rw [Bool.and_eq_true, Bool.and_eq_true] at h
  obtain ⟨⟨h1, h2⟩, h3⟩ := h
  refine ⟨?_, ?_, ?_, ?_⟩
  · intro e; subst e; simp at h1
  · intro c hc; rw [hc] at h1; simpa using h1
  · intro c hc; rw [hc] at h2; simpa using h2
  · intro c hc
    have h4 := List.all_eq_true.mp h3 c hc
    simp only [Bool.and_eq_true, Bool.not_eq_true', beq_eq_false_iff_ne] at h4
    exact ⟨h4.1.1, h4.1.2, h4.2⟩

theorem mem_of_getLast?M {s : Str} {c : Char} (h : s.getLast? = some c) : c ∈ s := by
  rw [List.getLast?_eq_getElem?] at h
  rcases List.getElem?_eq_some.mp h with ⟨hlt, hEq⟩
  exact hEq ▸ List.getElem_mem hlt

theorem mem_of_head?M {s : Str} {c : Char} (h : s.head? = some c) : c ∈ s := by
  cases s with
  | nil => simp at h
  | cons a t =>
      simp at h
      rw [← h]
      exact List.mem_cons_self a t

theorem head?_append_left {x : Str} (y : Str) (hx : x ≠ []) :
    (x ++ y).head? = x.head? := by
  cases x with
  | nil => exact absurd rfl hx
  | cons a t => rfl

theorem trimStr_eq_self {s : Str}
    (hh : ∀ c, s.head? = some c → isTrimWs c = false)
    (hl : ∀ c, s.getLast? = some c → isTrimWs c = false) : trimStr s = s := by
  unfold trimStr
  rw [dropWhileCh_eq_self hh, dropTrailing_eq_self hl]

theorem unSemi_semi {val : Str} (h : val.getLast? = some ';') :
    unSemi val = val.dropLast := by
  unfold unSemi
  rw [h]
  rfl

theorem extractCoeffNum_eval {cs : Str} {d : Dec} (h : stodOpt cs = some d) :
    extractCoeffNum cs = d := by
  unfold extractCoeffNum
  rw [h]

theorem extractCoeffK_eval (F0 F1 : Str) (h0 : litOk F0 = true) {d : Dec}
    (hs : stodOpt F0 = some d) :
    extractCoeffK (F0 ++ (str " * k + " ++ F1)) = d := by
  obtain ⟨hne, hmem⟩ := litOk_facts h0
  have hfind : findSub (str " * k") (F0 ++ (str " * k + " ++ F1)) = some F0.length := by
    apply findSub_append_start _ _ _ (by simp [str])
    · apply not_occursAt_of_head (c := ' ') rfl
      intro hsp
      exact absurd (hmem ' ' hsp).1 (by decide)
    · intro c hc hcn
      have hcmem : c ∈ F0 := mem_of_getLast?M hc
      have hfacts := hmem c hcmem
      simp [str] at hcn
      rcases hcn with h | h | h | h
      · exact absurd hfacts.1 (by rw [h]; decide)
      · exact hfacts.2.1 h
      · exact absurd hfacts.1 (by rw [h]; decide)
      · exact hfacts.2.2.1 h
    · exact ⟨str " + " ++ F1, rfl⟩
  unfold extractCoeffK
  rw [hfind]
  show extractCoeffNum (trimStr ((F0 ++ (str " * k + " ++ F1)).take F0.length)) = d
  rw [List.take_left]
  rw [trimStr_eq_self (fun c hc => (hmem c (mem_of_head?M hc)).1)
      (fun c hc => (hmem c (mem_of_getLast?M hc)).1)]
  exact extractCoeffNum_eval hs

theorem extract_coeff_found {t : Str} (pfx : Str) {i : Nat} (hsw : startsWith pfx t = true)
    (hfe : findChr '=' t = some i) :
    extract_coeff t pfx = extractCoeffVal (t.drop (i + 1)) := by
  unfold extract_coeff
  rw [hsw, hfe]
  rfl

theorem extractCoeffVal_eval (F0 F1 : Str) (h0 : litOk F0 = true) (h1 : litOk F1 = true)
    {d : Dec} (hs : stodOpt F0 = some d) :
    extractCoeffVal (' ' :: (F0 ++ (str " * k + " ++ (F1 ++ str ";")))) = d := by
  obtain ⟨hne0, hmem0⟩ := litOk_facts h0
  have hlast : (F0 ++ (str " * k + " ++ (F1 ++ str ";"))).getLast? = some ';' :=
    getLast?_concat _ (getLast?_concat _ (getLast?_concat _ rfl))
  have htrim : trimStr (' ' :: (F0 ++ (str " * k + " ++ (F1 ++ str ";")))) =
      F0 ++ (str " * k + " ++ (F1 ++ str ";")) := by
    refine trimStr_eval ([' '])
      (F0 ++ (str " * k + " ++ (F1 ++ str ";"))) (by decide) ?_ ?_
    · intro c hc
      rw [head?_append_left _ hne0] at hc
      exact (hmem0 c (mem_of_head?M hc)).1
    · intro c hc
      rw [hlast] at hc
      cases hc
      decide
  have hdl : (F0 ++ (str " * k + " ++ (F1 ++ str ";"))).dropLast =
      F0 ++ (str " * k + " ++ F1) := by
    have he : F0 ++ (str " * k + " ++ (F1 ++ str ";")) =
        (F0 ++ (str " * k + " ++ F1)) ++ [';'] := by simp [str]
    rw [he, List.dropLast_concat]
  unfold extractCoeffVal
  rw [htrim, unSemi_semi hlast, hdl]
  exact extractCoeffK_eval F0 F1 h0 hs

theorem extractUnVal_eval (inp : Str) (h : lineExprOk inp = true) :
    extractUnVal (' ' :: (inp ++ str ";")) = inp := by
  obtain ⟨hne, hh, hl, hmem⟩ := lineExprOk_facts h
  have hlast : (inp ++ str ";").getLast? = some ';' := getLast?_concat _ rfl
  have ht1 : trimStr (' ' :: (inp ++ str ";")) = inp ++ str ";" := by
    refine trimStr_eval ([' ']) (inp ++ str ";") (by decide) ?_ ?_
    · intro c hc
      rw [head?_append_left _ hne] at hc
      exact hh c hc
    · intro c hc
      rw [hlast] at hc
      cases hc
      decide
  unfold extractUnVal
  rw [ht1, unSemi_semi hlast]
  rw [show (inp ++ str ";").dropLast = inp from by
    rw [show inp ++ str ";" = inp ++ [';'] from rfl, List.dropLast_concat]]
  exact trimStr_eq_self hh hl

theorem prescanStep_eq (st : PrescanSt) (l : Str) :
    prescanStep st l = prescanCore st (trimStr l) := rfl

theorem prescanCore_comment (st : PrescanSt) (rest : Str) (hstop : st.stopped = false) :
    prescanCore st ('/' :: ('/' :: rest)) = prescanComment st (trimStr rest) := by
  unfold prescanCore
  rw [hstop]
  rfl

theorem prescanCore_scope (st : PrescanSt) (t : Str) (hstop : st.stopped = false)
    (hsc : st.in_tf_scope = true) (hne : t.isEmpty = false)
    (hcm : startsWith (str "//") t = false) :
    prescanCore st t = prescanTfLine st t := by
  unfold prescanCore
  rw [hstop, hne, hcm, hsc]
  rfl

theorem prescanCore_open (st : PrescanSt) (hstop : st.stopped = false)
    (hsc : st.in_tf_scope = false) (hty : st.scan_block_type = str "TransferFcn") :
    prescanCore st (str "\x7b") =
    { st with in_tf_scope := true, tf_brace_depth := 1, tf_name := st.scan_block_name
              tf_u_n := [], tf_b0 := Dec.ofInt 0, tf_b1 := Dec.ofInt 0
              tf_a0 := Dec.ofInt 0, tf_a1 := Dec.ofInt 0 } := by
  unfold prescanCore
  rw [hstop, hsc, hty]
  rfl

theorem prescanCore_plain (st : PrescanSt) (t : Str) (hstop : st.stopped = false)
    (hsc : st.in_tf_scope = false) (hne : t.isEmpty = false)
    (hcm : startsWith (str "//") t = false)
    (hnb : ¬(t = str "\x7b" ∧ st.scan_block_type = str "TransferFcn")) :
    prescanCore st t = prescanRegister st t := by
  unfold prescanCore
  rw [hstop, hne, hcm, hsc, if_neg hnb]
  rfl

theorem prescanRegister_noop (st : PrescanSt) (t : Str)
    (hsw : startsWith (str "state.") t = false) :
    prescanRegister st t = st := by
  unfold prescanRegister
  rw [if_neg (by intro h; rw [hsw] at h; exact absurd h.1 (by simp)),
      if_neg (by intro h; rw [hsw] at h; exact absurd h.1 (by simp))]

theorem prescanComment_set (st : PrescanSt) (comment : Str) {i : Nat}
    (hno : comment ≠ str "Outputs")
    (hskip : ¬(startsWith (str "TransferFcn:") comment = true ∧
               st.scan_block_type = str "TransferFcn"))
    (hfc : findChr ':' comment = some i) :
    prescanComment st comment =
    { st with scan_block_type := trimStr (comment.take i)
              scan_block_name := xml_decode (trimStr (comment.drop (i + 1))) } := by
  unfold prescanComment
  rw [if_neg hno, if_neg hskip, hfc]

theorem prescanComment_skip (st : PrescanSt) (comment : Str)
    (hno : comment ≠ str "Outputs")
    (hpre : startsWith (str "TransferFcn:") comment = true)
    (hty : st.scan_block_type = str "TransferFcn") :
    prescanComment st comment = st := by
  unfold prescanComment
  rw [if_neg hno, if_pos ⟨hpre, hty⟩]

theorem prescanTfFin_pos (st : PrescanSt) (hpos : 0 < st.tf_brace_depth) :
    prescanTfFin st = st := by
  unfold prescanTfFin
  rw [if_neg (by omega)]

theorem prescanTfFin_close (st : PrescanSt) (hd : st.tf_brace_depth ≤ 0) :
    prescanTfFin st =
    { st with
      tf_data := alInsert st.tf_name
        ({ input_var := st.tf_u_n
           numerator := if st.tf_b0.nonzero then '[' :: (fmtG st.tf_b0 ++ str " 1]")
                        else str "[1]"
           denominator := '[' :: (fmtG st.tf_a0 ++ str " 1]") } : PrescanTF) st.tf_data,
      in_tf_scope := false, scan_block_type := [], scan_block_name := [] } := by
  unfold prescanTfFin
  rw [if_pos hd]

theorem prescanTfLine_noop (st : PrescanSt) (t : Str)
    (hfold : t.foldl braceF st.tf_brace_depth = st.tf_brace_depth)
    (hun : startsWith (str "float u_n = ") t = false)
    (hb0 : startsWith (str "float b0_d") t = false)
    (hb1 : startsWith (str "float b1_d") t = false)
    (ha0 : startsWith (str "float a0_d") t = false)
    (ha1 : startsWith (str "float a1_d") t = false)
    (hpos : 0 < st.tf_brace_depth) :
    prescanTfLine st t = st := by
  unfold prescanTfLine
  rw [hfold, hun, hb0, hb1, ha0, ha1]
  show prescanTfFin st = st
  exact prescanTfFin_pos st hpos

theorem prescanTfLine_setb0 (st : PrescanSt) (t : Str)
    (hfold : t.foldl braceF st.tf_brace_depth = st.tf_brace_depth)
    (hun : startsWith (str "float u_n = ") t = false)
    (hb0 : startsWith (str "float b0_d") t = true)
    (hb1 : startsWith (str "float b1_d") t = false)
    (ha0 : startsWith (str "float a0_d") t = false)
    (ha1 : startsWith (str "float a1_d") t = false)
    (hpos : 0 < st.tf_brace_depth) :
    prescanTfLine st t = { st with tf_b0 := extract_coeff t (str "float b0_d = ") } := by
  unfold prescanTfLine
  rw [hfold, hun, hb0, hb1, ha0, ha1]
  show prescanTfFin { st with tf_b0 := extract_coeff t (str "float b0_d = ") } = _
  exact prescanTfFin_pos _ hpos

theorem prescanTfLine_setb1 (st : PrescanSt) (t : Str)
    (hfold : t.foldl braceF st.tf_brace_depth = st.tf_brace_depth)
    (hun : startsWith (str "float u_n = ") t = false)
    (hb0 : startsWith (str "float b0_d") t = false)
    (hb1 : startsWith (str "float b1_d") t = true)
    (ha0 : startsWith (str "float a0_d") t = false)
    (ha1 : startsWith (str "float a1_d") t = false)
    (hpos : 0 < st.tf_brace_depth) :
    prescanTfLine st t = { st with tf_b1 := extract_coeff t (str "float b1_d = ") } := by
  unfold prescanTfLine
  rw [hfold, hun, hb0, hb1, ha0, ha1]
  show prescanTfFin { st with tf_b1 := extract_coeff t (str "float b1_d = ") } = _
  exact prescanTfFin_pos _ hpos

theorem prescanTfLine_seta0 (st : PrescanSt) (t : Str)
    (hfold : t.foldl braceF st.tf_brace_depth = st.tf_brace_depth)
    (hun : startsWith (str "float u_n = ") t = false)
    (hb0 : startsWith (str "float b0_d") t = false)
    (hb1 : startsWith (str "float b1_d") t = false)
    (ha0 : startsWith (str "float a0_d") t = true)
    (ha1 : startsWith (str "float a1_d") t = false)
    (hpos : 0 < st.tf_brace_depth) :
    prescanTfLine st t = { st with tf_a0 := extract_coeff t (str "float a0_d = ") } := by
  unfold prescanTfLine
  rw [hfold, hun, hb0, hb1, ha0, ha1]
  show prescanTfFin { st with tf_a0 := extract_coeff t (str "float a0_d = ") } = _
  exact prescanTfFin_pos _ hpos

theorem prescanTfLine_seta1 (st : PrescanSt) (t : Str)
    (hfold : t.foldl braceF st.tf_brace_depth = st.tf_brace_depth)
    (hun : startsWith (str "float u_n = ") t = false)
    (hb0 : startsWith (str "float b0_d") t = false)
    (hb1 : startsWith (str "float b1_d") t = false)
    (ha0 : startsWith (str "float a0_d") t = false)
    (ha1 : startsWith (str "float a1_d") t = true)
    (hpos : 0 < st.tf_brace_depth) :
    prescanTfLine st t = { st with tf_a1 := extract_coeff t (str "float a1_d = ") } := by
  unfold prescanTfLine
  rw [hfold, hun, hb0, hb1, ha0, ha1]
  show prescanTfFin { st with tf_a1 := extract_coeff t (str "float a1_d = ") } = _
  exact prescanTfFin_pos _ hpos

theorem prescanTfLine_un (st : PrescanSt) (t : Str) {i : Nat}
    (hfold : t.foldl braceF st.tf_brace_depth = st.tf_brace_depth)
    (hun : startsWith (str "float u_n = ") t = true)
    (hfe : findChr '=' t = some i)
    (hb0 : startsWith (str "float b0_d") t = false)
    (hb1 : startsWith (str "float b1_d") t = false)
    (ha0 : startsWith (str "float a0_d") t = false)
    (ha1 : startsWith (str "float a1_d") t = false)
    (hpos : 0 < st.tf_brace_depth) :
    prescanTfLine st t = { st with tf_u_n := extractUnVal (t.drop (i + 1)) } := by
  unfold prescanTfLine
  rw [hfold, hun, hfe, hb0, hb1, ha0, ha1]
  show prescanTfFin { st with tf_u_n := extractUnVal (t.drop (i + 1)) } = _
  exact prescanTfFin_pos _ hpos

theorem prescanTfLine_close (st : PrescanSt) (hd : st.tf_brace_depth = 1) :
    prescanTfLine st (str "\x7d") =
    { st with
      tf_brace_depth := 0,
      tf_data := alInsert st.tf_name
        ({ input_var := st.tf_u_n
           numerator := if st.tf_b0.nonzero then '[' :: (fmtG st.tf_b0 ++ str " 1]")
                        else str "[1]"
           denominator := '[' :: (fmtG st.tf_a0 ++ str " 1]") } : PrescanTF) st.tf_data,
      in_tf_scope := false, scan_block_type := [], scan_block_name := [] } := by
  unfold prescanTfLine
  rw [show (str "\x7d").foldl braceF st.tf_brace_depth = st.tf_brace_depth - 1 from rfl,
    hd]
  show prescanTfFin { st with tf_brace_depth := (1 : Int) - 1 } = _
  rw [prescanTfFin_close _ (by show (1 : Int) - 1 ≤ 0; decide)]
  rfl

theorem generate_block_body_tf1 (blk : Block) (inputs : List Str) (ov vp sv : Str)
    (smap : List (Str × Str)) (n0 n1 d0 d1 : Dec)
    (htype : blk.type = str "TransferFcn")
    (htf : parse_transfer_function blk = { num := [n0, n1], den := [d0, d1], order := 1 }) :
    (generate_block_body blk inputs ov vp sv smap).2 =
    joinLines (tfLines blk.name (formatFloat n0) (formatFloat n1) (formatFloat d0)
      (formatFloat d1) (get_input inputs 0) vp ov) := by
  set_option maxRecDepth 4000 in
  simp only [generate_block_body, generate_block_rest, htype, htf]
  set_option maxRecDepth 16000 in
  simp [joinLines, tfLines, tfL1, tfL2, tfL3, tfL4, tfL5, tfL6, tfL7, tfL8, tfL9,
    tfL10, tfL11, tfL12, tfL13, tfL14, tfCoeffCore, tfSP, str, indent_, intToStr,
    natToStr, Nat.toDigits, Nat.toDigitsCore, Nat.digitChar]

theorem getLast?_append_right_ne {x y : Str} (hy : y ≠ []) :
    (x ++ y).getLast? = y.getLast? := by
  cases hg : y.getLast? with
  | none =>
      exfalso
      have h2 := (List.getLast?_isSome (l := y)).mpr hy
      rw [hg] at h2
      simp at h2
  | some c =>
      exact getLast?_concat x hg

theorem prescanTfRecover (name F0 F1 G0 G1 inp vp ov : Str) {b0v a0v : Dec}
    (sid0 : Int) (vm0 : List (Str × Int × Int))
    (hname : lineExprOk name = true)
    (hdec : xml_decode name = name)
    (h0 : litOk F0 = true) (h1 : litOk F1 = true)
    (h2 : litOk G0 = true) (h3 : litOk G1 = true)
    (hinp : lineExprOk inp = true)
    (hvp : ∀ c ∈ vp, c ≠ '\x7b' ∧ c ≠ '\x7d')
    (hb0 : stodOpt F0 = some b0v)
    (ha0 : stodOpt G0 = some a0v) :
    (prescan (tfLines name F0 F1 G0 G1 inp vp ov) sid0 vm0).tf_data =
    [(name, tfPtf inp b0v a0v)] := by
  obtain ⟨hnameNE, hnameH, hnameL, hnameM⟩ := lineExprOk_facts hname
  obtain ⟨hinpNE, hinpH, hinpL, hinpM⟩ := lineExprOk_facts hinp
  have hSPbr : ∀ c ∈ tfSP vp, c ≠ '\x7b' ∧ c ≠ '\x7d' := by
    intro c hc
    simp only [tfSP, List.mem_append] at hc
    rcases hc with h | h | h
    · exact (by decide : ∀ c ∈ str "state.", c ≠ '\x7b' ∧ c ≠ '\x7d') c h
    · exact hvp c h
    · exact (by decide : ∀ c ∈ str "_tf_", c ≠ '\x7b' ∧ c ≠ '\x7d') c h
  have hbrCo : ∀ (pfxS F G : Str), (∀ c ∈ pfxS, c ≠ '\x7b' ∧ c ≠ '\x7d') →
      litOk F = true → litOk G = true →
      ∀ c ∈ tfCoeffCore pfxS F G, c ≠ '\x7b' ∧ c ≠ '\x7d' := by
    intro pfxS F G hp hF hG c hc
    simp only [tfCoeffCore, List.mem_append] at hc
    rcases hc with h | h | h | h | h
    · exact hp c h
    · have hx := (litOk_facts hF).2 c h
      exact ⟨hx.2.2.2.1, hx.2.2.2.2⟩
    · exact (by decide : ∀ c ∈ str " * k + ", c ≠ '\x7b' ∧ c ≠ '\x7d') c h
    · have hx := (litOk_facts hG).2 c h
      exact ⟨hx.2.2.2.1, hx.2.2.2.2⟩
    · exact (by decide : ∀ c ∈ str ";", c ≠ '\x7b' ∧ c ≠ '\x7d') c h
  -- trim facts
  have ht1 : trimStr (tfL1 name) = str "// TransferFcn: " ++ name := by
    refine trimStr_eval (str "        ")
      (str "// TransferFcn: " ++ name) (by decide) ?_ ?_
    · intro c hc
      rw [show (str "// TransferFcn: " ++ name).head? = some '/' from rfl] at hc
      cases hc
      decide
    · intro c hc
      rw [show (str "// TransferFcn: " ++ name).getLast? = name.getLast? from
        getLast?_append_right_ne hnameNE] at hc
      exact hnameL c hc
  have htc1 : trimStr (str " TransferFcn: " ++ name) = str "TransferFcn: " ++ name := by
    refine trimStr_eval ([' '])
      (str "TransferFcn: " ++ name) (by decide) ?_ ?_
    · intro c hc
      rw [show (str "TransferFcn: " ++ name).head? = some 'T' from rfl] at hc
      cases hc
      decide
    · intro c hc
      rw [show (str "TransferFcn: " ++ name).getLast? = name.getLast? from
        getLast?_append_right_ne hnameNE] at hc
      exact hnameL c hc
  have htrimname : trimStr (' ' :: name) = name := by
    refine trimStr_eval ([' ']) (name) (by decide) hnameH hnameL
  have ht2 : trimStr (tfL2 name) =
      str "// TransferFcn: " ++ (name ++ str " (order 1)") := by
    refine trimStr_eval (str "        ")
      (str "// TransferFcn: " ++ (name ++ str " (order 1)")) (by decide) ?_ ?_
    · intro c hc
      rw [show (str "// TransferFcn: " ++ (name ++ str " (order 1)")).head? = some '/'
        from rfl] at hc
      cases hc
      decide
    · intro c hc
      rw [show (str "// TransferFcn: " ++ (name ++ str " (order 1)")).getLast? =
        some ')' from getLast?_concat _ (getLast?_concat _ rfl)] at hc
      cases hc
      decide
  have htc2 : trimStr (str " TransferFcn: " ++ (name ++ str " (order 1)")) =
      str "TransferFcn: " ++ (name ++ str " (order 1)") := by
    refine trimStr_eval ([' '])
      (str "TransferFcn: " ++ (name ++ str " (order 1)")) (by decide) ?_ ?_
    · intro c hc
      rw [show (str "TransferFcn: " ++ (name ++ str " (order 1)")).head? = some 'T'
        from rfl] at hc
      cases hc
      decide
    · intro c hc
      rw [show (str "TransferFcn: " ++ (name ++ str " (order 1)")).getLast? =
        some ')' from getLast?_concat _ (getLast?_concat _ rfl)] at hc
      cases hc
      decide
  have ht5 : trimStr (tfL5 F0 F1) = tfCoeffCore (str "float b0_d = ") F0 F1 := by
    refine trimStr_eval (str "            ")
      (tfCoeffCore (str "float b0_d = ") F0 F1) (by decide) ?_ ?_
    · intro c hc
      rw [show (tfCoeffCore (str "float b0_d = ") F0 F1).head? = some 'f' from rfl] at hc
      cases hc
      decide
    · intro c hc
      rw [show (tfCoeffCore (str "float b0_d = ") F0 F1).getLast? = some ';' from
        getLast?_concat _ (getLast?_concat _ (getLast?_concat _
          (getLast?_concat _ rfl)))] at hc
      cases hc
      decide
  have ht6 : trimStr (tfL6 F0 F1) = tfCoeffCore (str "float b1_d = -") F0 F1 := by
    refine trimStr_eval (str "            ")
      (tfCoeffCore (str "float b1_d = -") F0 F1) (by decide) ?_ ?_
    · intro c hc
      rw [show (tfCoeffCore (str "float b1_d = -") F0 F1).head? = some 'f' from rfl] at hc
      cases hc
      decide
    · intro c hc
      rw [show (tfCoeffCore (str "float b1_d = -") F0 F1).getLast? = some ';' from
        getLast?_concat _ (getLast?_concat _ (getLast?_concat _
          (getLast?_concat _ rfl)))] at hc
      cases hc
      decide
  have ht7 : trimStr (tfL7 G0 G1) = tfCoeffCore (str "float a0_d = ") G0 G1 := by
    refine trimStr_eval (str "            ")
      (tfCoeffCore (str "float a0_d = ") G0 G1) (by decide) ?_ ?_
    · intro c hc
      rw [show (tfCoeffCore (str "float a0_d = ") G0 G1).head? = some 'f' from rfl] at hc
      cases hc
      decide
    · intro c hc
      rw [show (tfCoeffCore (str "float a0_d = ") G0 G1).getLast? = some ';' from
        getLast?_concat _ (getLast?_concat _ (getLast?_concat _
          (getLast?_concat _ rfl)))] at hc
      cases hc
      decide
  have ht8 : trimStr (tfL8 G0 G1) = tfCoeffCore (str "float a1_d = -") G0 G1 := by
    refine trimStr_eval (str "            ")
      (tfCoeffCore (str "float a1_d = -") G0 G1) (by decide) ?_ ?_
    · intro c hc
      rw [show (tfCoeffCore (str "float a1_d = -") G0 G1).head? = some 'f' from rfl] at hc
      cases hc
      decide
    · intro c hc
      rw [show (tfCoeffCore (str "float a1_d = -") G0 G1).getLast? = some ';' from
        getLast?_concat _ (getLast?_concat _ (getLast?_concat _
          (getLast?_concat _ rfl)))] at hc
      cases hc
      decide
  have ht9 : trimStr (tfL9 inp) = str "float u_n = " ++ (inp ++ str ";") := by
    refine trimStr_eval (str "            ")
      (str "float u_n = " ++ (inp ++ str ";")) (by decide) ?_ ?_
    · intro c hc
      rw [show (str "float u_n = " ++ (inp ++ str ";")).head? = some 'f' from rfl] at hc
      cases hc
      decide
    · intro c hc
      rw [show (str "float u_n = " ++ (inp ++ str ";")).getLast? = some ';' from
        getLast?_concat _ (getLast?_concat _ rfl)] at hc
      cases hc
      decide
  have ht10 : trimStr (tfL10 vp) =
      str "float y_n = (b0_d * u_n + b1_d * " ++
        (tfSP vp ++ (str "u0 - a1_d * " ++ (tfSP vp ++ str "x0) / a0_d;"))) := by
    refine trimStr_eval (str "            ")
      (str "float y_n = (b0_d * u_n + b1_d * " ++
        (tfSP vp ++ (str "u0 - a1_d * " ++ (tfSP vp ++ str "x0) / a0_d;"))))
      (by decide) ?_ ?_
    · intro c hc
      rw [show (str "float y_n = (b0_d * u_n + b1_d * " ++
        (tfSP vp ++ (str "u0 - a1_d * " ++ (tfSP vp ++ str "x0) / a0_d;")))).head? =
        some 'f' from rfl] at hc
      cases hc
      decide
    · intro c hc
      rw [show (str "float y_n = (b0_d * u_n + b1_d * " ++
        (tfSP vp ++ (str "u0 - a1_d * " ++ (tfSP vp ++ str "x0) / a0_d;")))).getLast? =
        some ';' from
        getLast?_concat _ (getLast?_concat _ (getLast?_concat _
          (getLast?_concat _ rfl)))] at hc
      cases hc
      decide
  have ht11 : trimStr (tfL11 vp) = tfSP vp ++ str "u0 = u_n;" := by
    refine trimStr_eval (str "            ")
      (tfSP vp ++ str "u0 = u_n;") (by decide) ?_ ?_
    · intro c hc
      rw [show (tfSP vp ++ str "u0 = u_n;").head? = some 's' from rfl] at hc
      cases hc
      decide
    · intro c hc
      rw [show (tfSP vp ++ str "u0 = u_n;").getLast? = some ';' from
        getLast?_concat _ rfl] at hc
      cases hc
      decide
  have ht12 : trimStr (tfL12 vp) = tfSP vp ++ str "x0 = y_n;" := by
    refine trimStr_eval (str "            ")
      (tfSP vp ++ str "x0 = y_n;") (by decide) ?_ ?_
    · intro c hc
      rw [show (tfSP vp ++ str "x0 = y_n;").head? = some 's' from rfl] at hc
      cases hc
      decide
    · intro c hc
      rw [show (tfSP vp ++ str "x0 = y_n;").getLast? = some ';' from
        getLast?_concat _ rfl] at hc
      cases hc
      decide
  have ht14 : trimStr (tfL14 ov vp) =
      str "auto " ++ (ov ++ (str " = " ++ (tfSP vp ++ str "x0;"))) := by
    refine trimStr_eval (str "        ")
      (str "auto " ++ (ov ++ (str " = " ++ (tfSP vp ++ str "x0;"))))
      (by decide) ?_ ?_
    · intro c hc
      rw [show (str "auto " ++ (ov ++ (str " = " ++ (tfSP vp ++ str "x0;")))).head? =
        some 'a' from rfl] at hc
      cases hc
      decide
    · intro c hc
      rw [show (str "auto " ++ (ov ++ (str " = " ++ (tfSP vp ++ str "x0;")))).getLast? =
        some ';' from
        getLast?_concat _ (getLast?_concat _ (getLast?_concat _
          (getLast?_concat _ rfl)))] at hc
      cases hc
      decide
    -- abbreviations for the two inert extracted coefficients
  have hex5 : extract_coeff (tfCoeffCore (str "float b0_d = ") F0 F1)
      (str "float b0_d = ") = b0v := by
    refine (extract_coeff_found (t := tfCoeffCore (str "float b0_d = ") F0 F1)
      (str "float b0_d = ") (i := 11) rfl rfl).trans ?_
    rw [show (tfCoeffCore (str "float b0_d = ") F0 F1).drop (11 + 1) =
      ' ' :: (F0 ++ (str " * k + " ++ (F1 ++ str ";"))) from rfl]
    exact extractCoeffVal_eval F0 F1 h0 h1 hb0
  have hex7 : extract_coeff (tfCoeffCore (str "float a0_d = ") G0 G1)
      (str "float a0_d = ") = a0v := by
    refine (extract_coeff_found (t := tfCoeffCore (str "float a0_d = ") G0 G1)
      (str "float a0_d = ") (i := 11) rfl rfl).trans ?_
    rw [show (tfCoeffCore (str "float a0_d = ") G0 G1).drop (11 + 1) =
      ' ' :: (G0 ++ (str " * k + " ++ (G1 ++ str ";"))) from rfl]
    exact extractCoeffVal_eval G0 G1 h2 h3 ha0
  have hbr9 : ∀ c ∈ str "float u_n = " ++ (inp ++ str ";"), c ≠ '\x7b' ∧ c ≠ '\x7d' := by
    intro c hc
    simp only [List.mem_append] at hc
    rcases hc with h | h | h
    · exact (by decide : ∀ c ∈ str "float u_n = ", c ≠ '\x7b' ∧ c ≠ '\x7d') c h
    · have hx := hinpM c h
      exact ⟨hx.1, hx.2.1⟩
    · exact (by decide : ∀ c ∈ str ";", c ≠ '\x7b' ∧ c ≠ '\x7d') c h
  have hbr10 : ∀ c ∈ str "float y_n = (b0_d * u_n + b1_d * " ++
      (tfSP vp ++ (str "u0 - a1_d * " ++ (tfSP vp ++ str "x0) / a0_d;"))),
      c ≠ '\x7b' ∧ c ≠ '\x7d' := by
    intro c hc
    simp only [List.mem_append] at hc
    rcases hc with h | h | h | h | h
    · exact (by decide : ∀ c ∈ str "float y_n = (b0_d * u_n + b1_d * ",
        c ≠ '\x7b' ∧ c ≠ '\x7d') c h
    · exact hSPbr c h
    · exact (by decide : ∀ c ∈ str "u0 - a1_d * ", c ≠ '\x7b' ∧ c ≠ '\x7d') c h
    · exact hSPbr c h
    · exact (by decide : ∀ c ∈ str "x0) / a0_d;", c ≠ '\x7b' ∧ c ≠ '\x7d') c h
  have hbr11 : ∀ c ∈ tfSP vp ++ str "u0 = u_n;", c ≠ '\x7b' ∧ c ≠ '\x7d' := by
    intro c hc
    simp only [List.mem_append] at hc
    rcases hc with h | h
    · exact hSPbr c h
    · exact (by decide : ∀ c ∈ str "u0 = u_n;", c ≠ '\x7b' ∧ c ≠ '\x7d') c h
  have hbr12 : ∀ c ∈ tfSP vp ++ str "x0 = y_n;", c ≠ '\x7b' ∧ c ≠ '\x7d' := by
    intro c hc
    simp only [List.mem_append] at hc
    rcases hc with h | h
    · exact hSPbr c h
    · exact (by decide : ∀ c ∈ str "x0 = y_n;", c ≠ '\x7b' ∧ c ≠ '\x7d') c h
  have e1 : prescanStep (tfStInit sid0 vm0) (tfL1 name) = tfStNamed name sid0 vm0 := by
    refine (prescanStep_eq _ _).trans ?_
    rw [ht1]
    refine (prescanCore_comment (tfStInit sid0 vm0)
      (str " TransferFcn: " ++ name) rfl).trans ?_
    rw [htc1]
    refine (prescanComment_set (tfStInit sid0 vm0) (str "TransferFcn: " ++ name)
      (i := 11) (of_decide_eq_false rfl)
      (fun hcon => absurd hcon.2 (of_decide_eq_false rfl)) rfl).trans ?_
    rw [show (str "TransferFcn: " ++ name).drop (11 + 1) = ' ' :: name from rfl,
      htrimname, hdec,
      show trimStr ((str "TransferFcn: " ++ name).take 11) = str "TransferFcn" from rfl]
    rfl
  have e2 : prescanStep (tfStNamed name sid0 vm0) (tfL2 name) =
      tfStNamed name sid0 vm0 := by
    refine (prescanStep_eq _ _).trans ?_
    rw [ht2]
    refine (prescanCore_comment (tfStNamed name sid0 vm0)
      (str " TransferFcn: " ++ (name ++ str " (order 1)")) rfl).trans ?_
    rw [htc2]
    exact prescanComment_skip (tfStNamed name sid0 vm0)
      (str "TransferFcn: " ++ (name ++ str " (order 1)"))
      (of_decide_eq_false rfl) rfl rfl
  have e3 : prescanStep (tfStNamed name sid0 vm0) tfL3 =
      tfStMid name [] (Dec.ofInt 0) (Dec.ofInt 0) (Dec.ofInt 0) (Dec.ofInt 0)
        sid0 vm0 := by
    refine (prescanStep_eq _ _).trans ?_
    rw [show trimStr tfL3 = str "\x7b" from rfl]
    exact (prescanCore_open (tfStNamed name sid0 vm0) rfl rfl rfl).trans rfl
  have e4 : prescanStep
      (tfStMid name [] (Dec.ofInt 0) (Dec.ofInt 0) (Dec.ofInt 0) (Dec.ofInt 0)
        sid0 vm0) tfL4 =
      tfStMid name [] (Dec.ofInt 0) (Dec.ofInt 0) (Dec.ofInt 0) (Dec.ofInt 0)
        sid0 vm0 := by
    refine (prescanStep_eq _ _).trans ?_
    rw [show trimStr tfL4 = str "float k = 2.0f / cfg.dt;" from rfl]
    refine (prescanCore_scope
      (tfStMid name [] (Dec.ofInt 0) (Dec.ofInt 0) (Dec.ofInt 0) (Dec.ofInt 0)
        sid0 vm0) (str "float k = 2.0f / cfg.dt;") rfl rfl rfl rfl).trans ?_
    exact prescanTfLine_noop (tfStMid name [] (Dec.ofInt 0) (Dec.ofInt 0) (Dec.ofInt 0) (Dec.ofInt 0)
        sid0 vm0)
      (str "float k = 2.0f / cfg.dt;") rfl rfl rfl rfl rfl rfl
      (by show (0:Int) < 1; decide)
  have e5 : prescanStep
      (tfStMid name [] (Dec.ofInt 0) (Dec.ofInt 0) (Dec.ofInt 0) (Dec.ofInt 0)
        sid0 vm0) (tfL5 F0 F1) =
      tfStMid name [] b0v (Dec.ofInt 0) (Dec.ofInt 0) (Dec.ofInt 0) sid0 vm0 := by
    refine (prescanStep_eq _ _).trans ?_
    rw [ht5]
    refine (prescanCore_scope
      (tfStMid name [] (Dec.ofInt 0) (Dec.ofInt 0) (Dec.ofInt 0) (Dec.ofInt 0)
        sid0 vm0) (tfCoeffCore (str "float b0_d = ") F0 F1) rfl rfl rfl rfl).trans ?_
    refine (prescanTfLine_setb0 (tfStMid name [] (Dec.ofInt 0) (Dec.ofInt 0) (Dec.ofInt 0) (Dec.ofInt 0)
        sid0 vm0)
      (tfCoeffCore (str "float b0_d = ") F0 F1)
      (braceFold_const (hbrCo (str "float b0_d = ") F0 F1 (by decide) h0 h1) _)
      rfl rfl rfl rfl rfl (by show (0:Int) < 1; decide)).trans ?_
    rw [hex5]
    rfl
  have e6 : prescanStep
      (tfStMid name [] b0v (Dec.ofInt 0) (Dec.ofInt 0) (Dec.ofInt 0) sid0 vm0)
      (tfL6 F0 F1) =
      tfStMid name [] b0v
        (extract_coeff (tfCoeffCore (str "float b1_d = -") F0 F1)
          (str "float b1_d = "))
        (Dec.ofInt 0) (Dec.ofInt 0) sid0 vm0 := by
    refine (prescanStep_eq _ _).trans ?_
    rw [ht6]
    refine (prescanCore_scope
      (tfStMid name [] b0v (Dec.ofInt 0) (Dec.ofInt 0) (Dec.ofInt 0) sid0 vm0)
      (tfCoeffCore (str "float b1_d = -") F0 F1) rfl rfl rfl rfl).trans ?_
    exact (prescanTfLine_setb1 (tfStMid name [] b0v (Dec.ofInt 0) (Dec.ofInt 0) (Dec.ofInt 0) sid0 vm0)
      (tfCoeffCore (str "float b1_d = -") F0 F1)
      (braceFold_const (hbrCo (str "float b1_d = -") F0 F1 (by decide) h0 h1) _)
      rfl rfl rfl rfl rfl (by show (0:Int) < 1; decide)).trans rfl
  have e7 : prescanStep
      (tfStMid name [] b0v
        (extract_coeff (tfCoeffCore (str "float b1_d = -") F0 F1)
          (str "float b1_d = "))
        (Dec.ofInt 0) (Dec.ofInt 0) sid0 vm0) (tfL7 G0 G1) =
      tfStMid name [] b0v
        (extract_coeff (tfCoeffCore (str "float b1_d = -") F0 F1)
          (str "float b1_d = "))
        a0v (Dec.ofInt 0) sid0 vm0 := by
    refine (prescanStep_eq _ _).trans ?_
    rw [ht7]
    refine (prescanCore_scope
      (tfStMid name [] b0v
        (extract_coeff (tfCoeffCore (str "float b1_d = -") F0 F1)
          (str "float b1_d = "))
        (Dec.ofInt 0) (Dec.ofInt 0) sid0 vm0)
      (tfCoeffCore (str "float a0_d = ") G0 G1) rfl rfl rfl rfl).trans ?_
    refine (prescanTfLine_seta0 (tfStMid name [] b0v
        (extract_coeff (tfCoeffCore (str "float b1_d = -") F0 F1)
          (str "float b1_d = "))
        (Dec.ofInt 0) (Dec.ofInt 0) sid0 vm0)
      (tfCoeffCore (str "float a0_d = ") G0 G1)
      (braceFold_const (hbrCo (str "float a0_d = ") G0 G1 (by decide) h2 h3) _)
      rfl rfl rfl rfl rfl (by show (0:Int) < 1; decide)).trans ?_
    rw [hex7]
    rfl
  have e8 : prescanStep
      (tfStMid name [] b0v
        (extract_coeff (tfCoeffCore (str "float b1_d = -") F0 F1)
          (str "float b1_d = "))
        a0v (Dec.ofInt 0) sid0 vm0) (tfL8 G0 G1) =
      tfStMid name [] b0v
        (extract_coeff (tfCoeffCore (str "float b1_d = -") F0 F1)
          (str "float b1_d = "))
        a0v
        (extract_coeff (tfCoeffCore (str "float a1_d = -") G0 G1)
          (str "float a1_d = "))
        sid0 vm0 := by
    refine (prescanStep_eq _ _).trans ?_
    rw [ht8]
    refine (prescanCore_scope
      (tfStMid name [] b0v
        (extract_coeff (tfCoeffCore (str "float b1_d = -") F0 F1)
          (str "float b1_d = "))
        a0v (Dec.ofInt 0) sid0 vm0)
      (tfCoeffCore (str "float a1_d = -") G0 G1) rfl rfl rfl rfl).trans ?_
    exact (prescanTfLine_seta1 (tfStMid name [] b0v
        (extract_coeff (tfCoeffCore (str "float b1_d = -") F0 F1)
          (str "float b1_d = "))
        a0v (Dec.ofInt 0) sid0 vm0)
      (tfCoeffCore (str "float a1_d = -") G0 G1)
      (braceFold_const (hbrCo (str "float a1_d = -") G0 G1 (by decide) h2 h3) _)
      rfl rfl rfl rfl rfl (by show (0:Int) < 1; decide)).trans rfl
  have e9 : prescanStep
      (tfStMid name [] b0v
        (extract_coeff (tfCoeffCore (str "float b1_d = -") F0 F1)
          (str "float b1_d = "))
        a0v
        (extract_coeff (tfCoeffCore (str "float a1_d = -") G0 G1)
          (str "float a1_d = "))
        sid0 vm0) (tfL9 inp) =
      tfStMid name inp b0v
        (extract_coeff (tfCoeffCore (str "float b1_d = -") F0 F1)
          (str "float b1_d = "))
        a0v
        (extract_coeff (tfCoeffCore (str "float a1_d = -") G0 G1)
          (str "float a1_d = "))
        sid0 vm0 := by
    refine (prescanStep_eq _ _).trans ?_
    rw [ht9]
    refine (prescanCore_scope
      (tfStMid name [] b0v
        (extract_coeff (tfCoeffCore (str "float b1_d = -") F0 F1)
          (str "float b1_d = "))
        a0v
        (extract_coeff (tfCoeffCore (str "float a1_d = -") G0 G1)
          (str "float a1_d = "))
        sid0 vm0) (str "float u_n = " ++ (inp ++ str ";")) rfl rfl rfl rfl).trans ?_
    refine (prescanTfLine_un (tfStMid name [] b0v
        (extract_coeff (tfCoeffCore (str "float b1_d = -") F0 F1)
          (str "float b1_d = "))
        a0v
        (extract_coeff (tfCoeffCore (str "float a1_d = -") G0 G1)
          (str "float a1_d = "))
        sid0 vm0)
      (str "float u_n = " ++ (inp ++ str ";")) (i := 10) (braceFold_const hbr9 _)
      rfl rfl rfl rfl rfl rfl (by show (0:Int) < 1; decide)).trans ?_
    rw [show (str "float u_n = " ++ (inp ++ str ";")).drop (10 + 1) =
      ' ' :: (inp ++ str ";") from rfl, extractUnVal_eval inp hinp]
    rfl
  have e10 : prescanStep
      (tfStMid name inp b0v
        (extract_coeff (tfCoeffCore (str "float b1_d = -") F0 F1)
          (str "float b1_d = "))
        a0v
        (extract_coeff (tfCoeffCore (str "float a1_d = -") G0 G1)
          (str "float a1_d = "))
        sid0 vm0) (tfL10 vp) =
      tfStMid name inp b0v
        (extract_coeff (tfCoeffCore (str "float b1_d = -") F0 F1)
          (str "float b1_d = "))
        a0v
        (extract_coeff (tfCoeffCore (str "float a1_d = -") G0 G1)
          (str "float a1_d = "))
        sid0 vm0 := by
    refine (prescanStep_eq _ _).trans ?_
    rw [ht10]
    refine (prescanCore_scope
      (tfStMid name inp b0v
        (extract_coeff (tfCoeffCore (str "float b1_d = -") F0 F1)
          (str "float b1_d = "))
        a0v
        (extract_coeff (tfCoeffCore (str "float a1_d = -") G0 G1)
          (str "float a1_d = "))
        sid0 vm0)
      (str "float y_n = (b0_d * u_n + b1_d * " ++
        (tfSP vp ++ (str "u0 - a1_d * " ++ (tfSP vp ++ str "x0) / a0_d;"))))
      rfl rfl rfl rfl).trans ?_
    exact prescanTfLine_noop (tfStMid name inp b0v
        (extract_coeff (tfCoeffCore (str "float b1_d = -") F0 F1)
          (str "float b1_d = "))
        a0v
        (extract_coeff (tfCoeffCore (str "float a1_d = -") G0 G1)
          (str "float a1_d = "))
        sid0 vm0)
      (str "float y_n = (b0_d * u_n + b1_d * " ++
        (tfSP vp ++ (str "u0 - a1_d * " ++ (tfSP vp ++ str "x0) / a0_d;"))))
      (braceFold_const hbr10 _)
      rfl rfl rfl rfl rfl (by show (0:Int) < 1; decide)
  have e11 : prescanStep
      (tfStMid name inp b0v
        (extract_coeff (tfCoeffCore (str "float b1_d = -") F0 F1)
          (str "float b1_d = "))
        a0v
        (extract_coeff (tfCoeffCore (str "float a1_d = -") G0 G1)
          (str "float a1_d = "))
        sid0 vm0) (tfL11 vp) =
      tfStMid name inp b0v
        (extract_coeff (tfCoeffCore (str "float b1_d = -") F0 F1)
          (str "float b1_d = "))
        a0v
        (extract_coeff (tfCoeffCore (str "float a1_d = -") G0 G1)
          (str "float a1_d = "))
        sid0 vm0 := by
    refine (prescanStep_eq _ _).trans ?_
    rw [ht11]
    refine (prescanCore_scope
      (tfStMid name inp b0v
        (extract_coeff (tfCoeffCore (str "float b1_d = -") F0 F1)
          (str "float b1_d = "))
        a0v
        (extract_coeff (tfCoeffCore (str "float a1_d = -") G0 G1)
          (str "float a1_d = "))
        sid0 vm0) (tfSP vp ++ str "u0 = u_n;") rfl rfl rfl rfl).trans ?_
    exact prescanTfLine_noop (tfStMid name inp b0v
        (extract_coeff (tfCoeffCore (str "float b1_d = -") F0 F1)
          (str "float b1_d = "))
        a0v
        (extract_coeff (tfCoeffCore (str "float a1_d = -") G0 G1)
          (str "float a1_d = "))
        sid0 vm0)
      (tfSP vp ++ str "u0 = u_n;") (braceFold_const hbr11 _)
      rfl rfl rfl rfl rfl (by show (0:Int) < 1; decide)
  have e12 : prescanStep
      (tfStMid name inp b0v
        (extract_coeff (tfCoeffCore (str "float b1_d = -") F0 F1)
          (str "float b1_d = "))
        a0v
        (extract_coeff (tfCoeffCore (str "float a1_d = -") G0 G1)
          (str "float a1_d = "))
        sid0 vm0) (tfL12 vp) =
      tfStMid name inp b0v
        (extract_coeff (tfCoeffCore (str "float b1_d = -") F0 F1)
          (str "float b1_d = "))
        a0v
        (extract_coeff (tfCoeffCore (str "float a1_d = -") G0 G1)
          (str "float a1_d = "))
        sid0 vm0 := by
    refine (prescanStep_eq _ _).trans ?_
    rw [ht12]
    refine (prescanCore_scope
      (tfStMid name inp b0v
        (extract_coeff (tfCoeffCore (str "float b1_d = -") F0 F1)
          (str "float b1_d = "))
        a0v
        (extract_coeff (tfCoeffCore (str "float a1_d = -") G0 G1)
          (str "float a1_d = "))
        sid0 vm0) (tfSP vp ++ str "x0 = y_n;") rfl rfl rfl rfl).trans ?_
    exact prescanTfLine_noop (tfStMid name inp b0v
        (extract_coeff (tfCoeffCore (str "float b1_d = -") F0 F1)
          (str "float b1_d = "))
        a0v
        (extract_coeff (tfCoeffCore (str "float a1_d = -") G0 G1)
          (str "float a1_d = "))
        sid0 vm0)
      (tfSP vp ++ str "x0 = y_n;") (braceFold_const hbr12 _)
      rfl rfl rfl rfl rfl (by show (0:Int) < 1; decide)
  have e13 : prescanStep
      (tfStMid name inp b0v
        (extract_coeff (tfCoeffCore (str "float b1_d = -") F0 F1)
          (str "float b1_d = "))
        a0v
        (extract_coeff (tfCoeffCore (str "float a1_d = -") G0 G1)
          (str "float a1_d = "))
        sid0 vm0) tfL13 =
      tfStDone name inp b0v
        (extract_coeff (tfCoeffCore (str "float b1_d = -") F0 F1)
          (str "float b1_d = "))
        a0v
        (extract_coeff (tfCoeffCore (str "float a1_d = -") G0 G1)
          (str "float a1_d = "))
        sid0 vm0 := by
    refine (prescanStep_eq _ _).trans ?_
    rw [show trimStr tfL13 = str "\x7d" from rfl]
    refine (prescanCore_scope
      (tfStMid name inp b0v
        (extract_coeff (tfCoeffCore (str "float b1_d = -") F0 F1)
          (str "float b1_d = "))
        a0v
        (extract_coeff (tfCoeffCore (str "float a1_d = -") G0 G1)
          (str "float a1_d = "))
        sid0 vm0) (str "\x7d") rfl rfl rfl rfl).trans ?_
    exact (prescanTfLine_close _ rfl).trans rfl
  have e14 : prescanStep
      (tfStDone name inp b0v
        (extract_coeff (tfCoeffCore (str "float b1_d = -") F0 F1)
          (str "float b1_d = "))
        a0v
        (extract_coeff (tfCoeffCore (str "float a1_d = -") G0 G1)
          (str "float a1_d = "))
        sid0 vm0) (tfL14 ov vp) =
      tfStDone name inp b0v
        (extract_coeff (tfCoeffCore (str "float b1_d = -") F0 F1)
          (str "float b1_d = "))
        a0v
        (extract_coeff (tfCoeffCore (str "float a1_d = -") G0 G1)
          (str "float a1_d = "))
        sid0 vm0 := by
    refine (prescanStep_eq _ _).trans ?_
    rw [ht14]
    refine (prescanCore_plain
      (tfStDone name inp b0v
        (extract_coeff (tfCoeffCore (str "float b1_d = -") F0 F1)
          (str "float b1_d = "))
        a0v
        (extract_coeff (tfCoeffCore (str "float a1_d = -") G0 G1)
          (str "float a1_d = "))
        sid0 vm0)
      (str "auto " ++ (ov ++ (str " = " ++ (tfSP vp ++ str "x0;"))))
      rfl rfl rfl rfl
      (fun hcon => absurd hcon.2 (of_decide_eq_false rfl))).trans ?_
    exact prescanRegister_noop _ _ rfl
  show ((tfLines name F0 F1 G0 G1 inp vp ov).foldl prescanStep
    (tfStInit sid0 vm0)).tf_data = _
  rw [show tfLines name F0 F1 G0 G1 inp vp ov =
    [tfL1 name, tfL2 name, tfL3, tfL4, tfL5 F0 F1, tfL6 F0 F1, tfL7 G0 G1,
     tfL8 G0 G1, tfL9 inp, tfL10 vp, tfL11 vp, tfL12 vp, tfL13, tfL14 ov vp]
    from rfl]
  simp only [List.foldl_cons, List.foldl_nil]
  rw [e1, e2, e3, e4, e5, e6, e7, e8, e9, e10, e11, e12, e13, e14]
  rfl

theorem nl_not_mem_append {a b : Str} (ha : '\n' ∉ a) (hb : '\n' ∉ b) :
    '\n' ∉ a ++ b := by
  intro h
  rcases List.mem_append.mp h with h | h
  · exact ha h
  · exact hb h

theorem litOk_no_nl {s : Str} (h : litOk s = true) : '\n' ∉ s := fun hm =>
  absurd ((litOk_facts h).2 '\n' hm).1 (by decide)

theorem tfLines_no_nl {name F0 F1 G0 G1 inp vp ov : Str}
    (hname : '\n' ∉ name) (hF0 : '\n' ∉ F0) (hF1 : '\n' ∉ F1)
    (hG0 : '\n' ∉ G0) (hG1 : '\n' ∉ G1) (hinp : '\n' ∉ inp)
    (hvp : '\n' ∉ vp) (hov : '\n' ∉ ov) :
    ∀ l ∈ tfLines name F0 F1 G0 G1 inp vp ov, '\n' ∉ l := by
  have hSP : '\n' ∉ tfSP vp :=
    nl_not_mem_append (by decide) (nl_not_mem_append hvp (by decide))
  have hCo : ∀ (pfxS F G : Str), '\n' ∉ pfxS → '\n' ∉ F → '\n' ∉ G →
      '\n' ∉ tfCoeffCore pfxS F G := fun pfxS F G hp hF hG =>
    nl_not_mem_append hp (nl_not_mem_append hF
      (nl_not_mem_append (by decide) (nl_not_mem_append hG (by decide))))
  intro l hl
  simp only [tfLines, List.mem_cons, List.not_mem_nil, or_false] at hl
  rcases hl with h | h | h | h | h | h | h | h | h | h | h | h | h | h
  all_goals subst h
  · exact nl_not_mem_append (by decide) (nl_not_mem_append (by decide) hname)
  · exact nl_not_mem_append (by decide)
      (nl_not_mem_append (by decide) (nl_not_mem_append hname (by decide)))
  · decide
  · decide
  · exact nl_not_mem_append (by decide) (hCo _ _ _ (by decide) hF0 hF1)
  · exact nl_not_mem_append (by decide) (hCo _ _ _ (by decide) hF0 hF1)
  · exact nl_not_mem_append (by decide) (hCo _ _ _ (by decide) hG0 hG1)
  · exact nl_not_mem_append (by decide) (hCo _ _ _ (by decide) hG0 hG1)
  · exact nl_not_mem_append (by decide)
      (nl_not_mem_append (by decide) (nl_not_mem_append hinp (by decide)))
  · exact nl_not_mem_append (by decide) (nl_not_mem_append (by decide)
      (nl_not_mem_append hSP (nl_not_mem_append (by decide)
        (nl_not_mem_append hSP (by decide)))))
  · exact nl_not_mem_append (by decide) (nl_not_mem_append hSP (by decide))
  · exact nl_not_mem_append (by decide) (nl_not_mem_append hSP (by decide))
  · decide
  · exact nl_not_mem_append (by decide) (nl_not_mem_append (by decide)
      (nl_not_mem_append hov (nl_not_mem_append (by decide)
        (nl_not_mem_append hSP (by decide)))))

/-- C2: amended Tustin-invertibility. For an order-1 TransferFcn block whose
    continuous coefficient pair is `([n0, n1], [d0, d1])`, pre-scanning the
    lines of the forward-emitted block body recovers exactly one `tf_data`
    entry under the block's name, whose `input_var` is the block's first
    input and whose Numerator/Denominator strings are rebuilt from the
    `stod`-parsed leading coefficients; and whenever the float formatting
    round-trips and the trailing coefficients are 1 (the normalized
    continuous form), the re-parsed coefficient lists agree with
    `([n0, n1], [d0, d1])` up to `Dec.eqv`.  The hypotheses state that the
    formatted literals and names are free of the marker characters the
    pre-scan keys on. -/
theorem claimC2_tf_lift (blk : Block) (inputs : List Str)
    (out_var varPfx state_var : Str) (smap : List (Str × Str))
    (n0 n1 d0 d1 : Dec) (b0v a0v b0w a0w : Dec)
    (sid0 : Int) (vm0 : List (Str × Int × Int))
    (htype : blk.type = str "TransferFcn")
    (htf : parse_transfer_function blk = { num := [n0, n1], den := [d0, d1], order := 1 })
    (hname : lineExprOk blk.name = true)
    (hdec : xml_decode blk.name = blk.name)
    (h0 : litOk (formatFloat n0) = true) (h1 : litOk (formatFloat n1) = true)
    (h2 : litOk (formatFloat d0) = true) (h3 : litOk (formatFloat d1) = true)
    (hinp : lineExprOk (get_input inputs 0) = true)
    (hvp : ∀ c ∈ varPfx, c ≠ '\x7b' ∧ c ≠ '\x7d' ∧ c ≠ '\n')
    (hov : '\n' ∉ out_var)
    (hb0 : stodOpt (formatFloat n0) = some b0v)
    (ha0 : stodOpt (formatFloat d0) = some a0v) :
    (prescan (getLines
        (generate_block_body blk inputs out_var varPfx state_var smap).2)
      sid0 vm0).tf_data =
      [(blk.name, tfPtf (get_input inputs 0) b0v a0v)] ∧
    (parse_coefficients ('[' :: (fmtG b0v ++ str " 1]")) = [b0w, Dec.ofInt 1] →
     parse_coefficients ('[' :: (fmtG a0v ++ str " 1]")) = [a0w, Dec.ofInt 1] →
     Dec.eqv b0w b0v → Dec.eqv a0w a0v →
     Dec.eqv b0v n0 → Dec.eqv a0v d0 →
     Dec.eqv n1 (Dec.ofInt 1) → Dec.eqv d1 (Dec.ofInt 1) →
     b0v.nonzero = true →
     List.Forall₂ Dec.eqv
       (parse_coefficients (tfPtf (get_input inputs 0) b0v a0v).numerator) [n0, n1] ∧
     List.Forall₂ Dec.eqv
       (parse_coefficients (tfPtf (get_input inputs 0) b0v a0v).denominator) [d0, d1]) := by
  constructor
  · rw [generate_block_body_tf1 blk inputs out_var varPfx state_var smap
      n0 n1 d0 d1 htype htf]
    rw [getLines_join _ (tfLines_no_nl
      (fun hm => absurd ((lineExprOk_facts hname).2.2.2 '\n' hm).2.2 (fun h => h rfl))
      (litOk_no_nl h0) (litOk_no_nl h1) (litOk_no_nl h2) (litOk_no_nl h3)
      (fun hm => absurd ((lineExprOk_facts hinp).2.2.2 '\n' hm).2.2 (fun h => h rfl))
      (fun hm => absurd ((hvp '\n' hm).2.2) (fun h => h rfl))
      hov)]
    exact prescanTfRecover blk.name (formatFloat n0) (formatFloat n1)
      (formatFloat d0) (formatFloat d1) (get_input inputs 0) varPfx out_var
      sid0 vm0 hname hdec h0 h1 h2 h3 hinp
      (fun c hc => ⟨(hvp c hc).1, (hvp c hc).2.1⟩) hb0 ha0
  · intro hreN hreD heq1 heq2 heqv0 heqv2 hn1 hd1 hnz
    constructor
    · have hnum : (tfPtf (get_input inputs 0) b0v a0v).numerator =
          '[' :: (fmtG b0v ++ str " 1]") := by
        simp only [tfPtf]
        rw [hnz]
        rfl
      rw [hnum, hreN]
      exact List.Forall₂.cons (Dec.eqv_trans heq1 heqv0)
        (List.Forall₂.cons (Dec.eqv_symm hn1) List.Forall₂.nil)
    · rw [show (tfPtf (get_input inputs 0) b0v a0v).denominator =
        '[' :: (fmtG a0v ++ str " 1]") from rfl, hreD]
      exact List.Forall₂.cons (Dec.eqv_trans heq2 heqv2)
        (List.Forall₂.cons (Dec.eqv_symm hd1) List.Forall₂.nil)

/-- C2 witness: the round-trip at `N = [0.3 1]`, `D = [0.02 1]`. -/
theorem claimC2_witness :
    (prescan (getLines (generate_block_body c2Blk [str "in.u"] (str "Filter")
        (str "Filter") [] []).2) 1 []).tf_data =
      [(str "Filter", tfPtf (str "in.u") (⟨300000, 6⟩ : Dec) (⟨20000, 6⟩ : Dec))] ∧
    (parse_coefficients ('[' :: (fmtG (⟨300000, 6⟩ : Dec) ++ str " 1]")) =
       [(⟨3, 1⟩ : Dec), Dec.ofInt 1] →
     parse_coefficients ('[' :: (fmtG (⟨20000, 6⟩ : Dec) ++ str " 1]")) =
       [(⟨2, 2⟩ : Dec), Dec.ofInt 1] →
     Dec.eqv ⟨3, 1⟩ ⟨300000, 6⟩ → Dec.eqv ⟨2, 2⟩ ⟨20000, 6⟩ →
     Dec.eqv ⟨300000, 6⟩ ⟨3, 1⟩ → Dec.eqv ⟨20000, 6⟩ ⟨2, 2⟩ →
     Dec.eqv (Dec.ofInt 1) (Dec.ofInt 1) → Dec.eqv (Dec.ofInt 1) (Dec.ofInt 1) →
     Dec.nonzero ⟨300000, 6⟩ = true →
     List.Forall₂ Dec.eqv
       (parse_coefficients (tfPtf (str "in.u") (⟨300000, 6⟩ : Dec)
         (⟨20000, 6⟩ : Dec)).numerator) [⟨3, 1⟩, Dec.ofInt 1] ∧
     List.Forall₂ Dec.eqv
       (parse_coefficients (tfPtf (str "in.u") (⟨300000, 6⟩ : Dec)
         (⟨20000, 6⟩ : Dec)).denominator) [⟨2, 2⟩, Dec.ofInt 1]) :=
  claimC2_tf_lift c2Blk [str "in.u"] (str "Filter") (str "Filter") [] []
    ⟨3, 1⟩ (Dec.ofInt 1) ⟨2, 2⟩ (Dec.ofInt 1) ⟨300000, 6⟩ ⟨20000, 6⟩ ⟨3, 1⟩ ⟨2, 2⟩
    1 []
    (by decide) (by decide) (by decide) (by decide) (by decide) (by decide)
    (by decide) (by decide) (by decide) (by decide) (by decide)
    (by decide) (by decide)

set_option maxRecDepth 4000 in
/-- No line of `c2CexLines` contains a newline. -/
theorem c2CexLines_no_nl : ∀ l ∈ c2CexLines, '\n' ∉ l := by decide

set_option maxRecDepth 20000 in
/-- The emitted block code joins `c2CexLines` with newlines. -/
theorem c2CexBody_flat : c2CexBody = joinLines c2CexLines := by decide

set_option maxRecDepth 20000 in
/-- The pre-scan of the emitted lines recovers `Numerator "[1]"` and
    `Denominator "[0 1]"`: no line matches the `" * k"` coefficient
    markers, so every recovered coefficient stays zero. -/
theorem c2CexPrescan :
    (alLookup (str "Filter") ((prescan c2CexLines 1 []).tf_data)).map
      (fun t => (t.numerator, t.denominator)) = some (str "[1]", str "[0 1]") := by
  decide

set_option maxRecDepth 20000 in
set_option maxHeartbeats 1000000 in
/-- `generate_block_code` on `c2CexBlk` emits exactly `c2CexBody`. -/
theorem c2CexBody_eq :
    (generate_block_body c2CexBlk [str "in.u"] (str "Filter")
      (str "Filter") (str "state.Filter_tf") []).2 = c2CexBody := by
  have htf : parse_transfer_function c2CexBlk =
      { num := [⟨3, 1⟩, ⟨0, 0⟩], den := [⟨1, 0⟩, ⟨5, 1⟩, ⟨2, 0⟩], order := 2 } := by
    decide
  have hf0 : formatFloat (⟨0, 0⟩ : Dec) = str "0.000000f" := by decide
  have hf3 : formatFloat (⟨3, 1⟩ : Dec) = str "0.300000f" := by decide
  have hf1 : formatFloat (⟨1, 0⟩ : Dec) = str "1.000000f" := by decide
  have hf5 : formatFloat (⟨5, 1⟩ : Dec) = str "0.500000f" := by decide
  have hf2 : formatFloat (⟨2, 0⟩ : Dec) = str "2.000000f" := by decide
  have hgi : get_input [str "in.u"] 0 = str "in.u" := by decide
  have hty : c2CexBlk.type = str "TransferFcn" := rfl
  simp only [generate_block_body, generate_block_rest, hty]
  rw [
  if_neg (show ¬(str "TransferFcn" = str "Gain") from by decide),
  if_neg (show ¬(str "TransferFcn" = str "Sum") from by decide),
  if_neg (show ¬(str "TransferFcn" = str "Product") from by decide),
  if_neg (show ¬(str "TransferFcn" = str "Saturate") from by decide),
  if_neg (show ¬(str "TransferFcn" = str "MinMax") from by decide),
  if_neg (show ¬(str "TransferFcn" = str "Abs") from by decide),
  if_neg (show ¬(str "TransferFcn" = str "Constant") from by decide),
  if_neg (show ¬(str "TransferFcn" = str "UnitDelay" ∨ str "TransferFcn" = str "Memory") from by decide),
  if_neg (show ¬(str "TransferFcn" = str "Integrator" ∨ str "TransferFcn" = str "DiscreteIntegrator") from by decide),
  if_neg (show ¬(str "TransferFcn" = str "RelationalOperator") from by decide),
  if_neg (show ¬(str "TransferFcn" = str "Logic") from by decide),
  if_neg (show ¬(str "TransferFcn" = str "Switch") from by decide),
  if_neg (show ¬(str "TransferFcn" = str "Trigonometry") from by decide),
  if_neg (show ¬(str "TransferFcn" = str "Math") from by decide), if_true]
  simp [htf, hf0, hf3, hf1, hf5, hf2, hgi, Dec.ofInt,
    intToStr, natToStr, Nat.toDigits, Nat.toDigitsCore, Nat.digitChar, c2CexBody]

/-- C2 counterexample: for the order-2 TransferFcn `c2CexBlk`
    (`N = [0.3 0]`, `D = [1 0.5 2]`) the pre-scan of the emitted block
    body lifts to `Numerator "[1]"`, `Denominator "[0 1]"` — the emitted
    `*k2 + ` lines never match the pre-scan's `" * k"` marker, so both
    coefficient lists (of lengths 2 vs 3) are unrecoverable, refuting the
    claim for order 2. -/
theorem claimC2_counterexample :
    (alLookup (str "Filter")
      ((prescan (getLines (generate_block_body c2CexBlk [str "in.u"] (str "Filter")
          (str "Filter") (str "state.Filter_tf") []).2) 1 []).tf_data)).map
      (fun t => (t.numerator, t.denominator)) = some (str "[1]", str "[0 1]") ∧
    (parse_coefficients (str "[0 1]")).length = 2 ∧
    (parse_coefficients (str "[1 0.5 2]")).length = 3 := by
  refine ⟨?_, by decide, by decide⟩
  rw [c2CexBody_eq, c2CexBody_flat, getLines_join _ c2CexLines_no_nl, c2CexPrescan]

/-! ### C4: topological scheduling of `generate_system_code`
     (oc_codegen.hpp lines 457-534) -/
theorem alLookup_alInsert_self {α : Type} (k : Str) (v : α) (m : List (Str × α)) :
    alLookup k (alInsert k v m) = some v := by
  induction m with
  | nil => simp [alInsert, alLookup]
  | cons p rest ih =>
      unfold alInsert
      by_cases h1 : strLt k p.1 = true
      · simp only [h1, if_true]
        simp [alLookup]
      · rw [if_neg (by simpa using h1)]
        by_cases h2 : strLt p.1 k = true
        · rw [if_pos h2]
          unfold alLookup
          rw [if_neg (Ne.symm (ne_of_strLt h2))]
          exact ih
        · rw [if_neg (by simpa using h2)]
          have hEq : p.1 = k := strLt_eq_of_both_false (by simpa using h2) (by simpa using h1)
          unfold alLookup
          rw [if_pos hEq.symm]

theorem alLookup_alInsert_ne {α : Type} {k k' : Str} (h : k' ≠ k) (v : α)
    (m : List (Str × α)) : alLookup k' (alInsert k v m) = alLookup k' m := by
  induction m with
  | nil =>
      show (if k' = k then some v else alLookup k' []) = alLookup k' []
      rw [if_neg h]
  | cons p rest ih =>
      unfold alInsert
      by_cases h1 : strLt k p.1 = true
      · rw [if_pos h1]
        show (if k' = k then some v else alLookup k' (p :: rest)) = alLookup k' (p :: rest)
        rw [if_neg h]
      · rw [if_neg (by simpa using h1)]
        by_cases h2 : strLt p.1 k = true
        · rw [if_pos h2]
          unfold alLookup
          by_cases h3 : k' = p.1
          · rw [if_pos h3, if_pos h3]
          · rw [if_neg h3, if_neg h3]
            exact ih
        · rw [if_neg (by simpa using h2)]
          have hEq : p.1 = k := strLt_eq_of_both_false (by simpa using h2) (by simpa using h1)
          unfold alLookup
          rw [if_neg (hEq ▸ h), if_neg (hEq ▸ h)]

theorem alLookup_some_mem_keys {α : Type} {k : Str} {m : List (Str × α)} {v : α}
    (h : alLookup k m = some v) : k ∈ m.map Prod.fst := by
  induction m with
  | nil => simp [alLookup] at h
  | cons p rest ih =>
      unfold alLookup at h
      by_cases h1 : k = p.1
      · exact List.mem_cons.mpr (Or.inl h1)
      · rw [if_neg h1] at h
        exact List.mem_cons.mpr (Or.inr (ih h))

theorem alLookup_some_mem {α : Type} {k : Str} {m : List (Str × α)} {v : α}
    (h : alLookup k m = some v) : (k, v) ∈ m := by
  induction m with
  | nil => simp [alLookup] at h
  | cons p rest ih =>
      unfold alLookup at h
      by_cases h1 : k = p.1
      · rw [if_pos h1] at h
        injection h with h2
        exact List.mem_cons.mpr (Or.inl (by rw [h1, ← h2]))
      · rw [if_neg h1] at h
        exact List.mem_cons_of_mem p (ih h)

theorem alInsert_keys_mem {α : Type} {m : List (Str × α)} {k : Str}
    (hs : (m.map Prod.fst).Pairwise (fun a b => strLt a b = true))
    (hk : k ∈ m.map Prod.fst) (v : α) :
    (alInsert k v m).map Prod.fst = m.map Prod.fst := by
  induction m with
  | nil => simp at hk
  | cons p rest ih =>
      rw [List.map_cons, List.pairwise_cons] at hs
      unfold alInsert
      by_cases h1 : k = p.1
      · subst h1
        rw [if_neg (by simp [strLt_irrefl]), if_neg (by simp [strLt_irrefl])]
        rfl
      · have hkr : k ∈ rest.map Prod.fst := by
          rcases List.mem_cons.mp hk with h | h
          · exact absurd h h1
          · exact h
        have hlt : strLt p.1 k = true := hs.1 k hkr
        rw [if_neg (by simp [strLt_asymm hlt]), if_pos hlt]
        simp only [List.map_cons]
        rw [ih hs.2 hkr]

theorem ssContains_iff {k : Str} {s : List Str} : ssContains k s = true ↔ k ∈ s := by
  induction s with
  | nil => simp [ssContains]
  | cons a t ih =>
      unfold ssContains at *
      rw [List.contains_cons]
      simp only [Bool.or_eq_true, beq_iff_eq, List.mem_cons]
      rw [← ih]

theorem mem_ssErase {k : Str} {s : List Str} (hnd : s.Nodup) :
    ∀ x, x ∈ ssErase k s ↔ x ∈ s ∧ x ≠ k := by
  induction s with
  | nil => simp [ssErase]
  | cons a t ih =>
      rw [List.nodup_cons] at hnd
      intro x
      unfold ssErase
      by_cases h1 : k = a
      · subst h1
        rw [if_pos rfl]
        constructor
        · intro hx
          exact ⟨List.mem_cons_of_mem _ hx, fun hEq => hnd.1 (hEq ▸ hx)⟩
        · rintro ⟨hx, hne⟩
          rcases List.mem_cons.mp hx with h | h
          · exact absurd h hne
          · exact h
      · rw [if_neg h1]
        constructor
        · intro hx
          rcases List.mem_cons.mp hx with h | h
          · exact ⟨List.mem_cons.mpr (Or.inl h), fun hEq => h1 (by rw [← hEq, h])⟩
          · have := (ih hnd.2 x).mp h
            exact ⟨List.mem_cons_of_mem _ this.1, this.2⟩
        · rintro ⟨hx, hne⟩
          rcases List.mem_cons.mp hx with h | h
          · exact List.mem_cons.mpr (Or.inl h)
          · exact List.mem_cons_of_mem _ ((ih hnd.2 x).mpr ⟨h, hne⟩)

theorem ssErase_subset {k x : Str} {s : List Str} (h : x ∈ ssErase k s) : x ∈ s := by
  induction s with
  | nil => simpa [ssErase] using h
  | cons a t ih =>
      unfold ssErase at h
      by_cases h1 : k = a
      · rw [if_pos h1] at h
        exact List.mem_cons_of_mem _ h
      · rw [if_neg h1] at h
        rcases List.mem_cons.mp h with h2 | h2
        · exact List.mem_cons.mpr (Or.inl h2)
        · exact List.mem_cons_of_mem _ (ih h2)

theorem ssErase_nodup {k : Str} {s : List Str} (hnd : s.Nodup) :
    (ssErase k s).Nodup := by
  induction s with
  | nil => simpa [ssErase] using hnd
  | cons a t ih =>
      rw [List.nodup_cons] at hnd
      unfold ssErase
      by_cases h1 : k = a
      · rw [if_pos h1]
        exact hnd.2
      · rw [if_neg h1]
        rw [List.nodup_cons]
        exact ⟨fun hmem => hnd.1 (ssErase_subset hmem), ih hnd.2⟩

theorem ssErase_not_mem {k : Str} {s : List Str} (h : k ∉ s) : ssErase k s = s := by
  induction s with
  | nil => rfl
  | cons a t ih =>
      unfold ssErase
      rw [if_neg (fun hEq => h (by rw [hEq]; exact List.mem_cons_self a t))]
      rw [ih (fun hm => h (List.mem_cons_of_mem _ hm))]

theorem filter_length_ssErase {k : Str} {s : List Str} (p : Str → Bool)
    (hnd : s.Nodup) (hk : k ∈ s) (hpk : p k = true) :
    ((ssErase k s).filter p).length + 1 = (s.filter p).length := by
  induction s with
  | nil => cases hk
  | cons a t ih =>
      rw [List.nodup_cons] at hnd
      unfold ssErase
      by_cases h1 : k = a
      · subst h1
        rw [if_pos rfl, List.filter_cons, if_pos (by rw [hpk])]
        simp
      · rw [if_neg h1]
        have hkt : k ∈ t := by
          rcases List.mem_cons.mp hk with h | h
          · exact absurd h h1
          · exact h
        rw [List.filter_cons, List.filter_cons]
        by_cases h2 : p a = true
        · rw [if_pos (by rw [h2]), if_pos (by rw [h2])]
          simp only [List.length_cons]
          have := ih hnd.2 hkt
          omega
        · rw [if_neg (by simp [h2]), if_neg (by simp [h2])]
          exact ih hnd.2 hkt

theorem alLookup_isSome_iff {α : Type} {k : Str} {m : List (Str × α)} :
    (alLookup k m).isSome = true ↔ k ∈ m.map Prod.fst := by
  induction m with
  | nil => simp [alLookup]
  | cons p rest ih =>
      unfold alLookup
      by_cases h1 : k = p.1
      · rw [if_pos h1]
        simp only [List.map_cons, List.mem_cons, Option.isSome_some]
        exact ⟨fun _ => Or.inl h1, fun _ => trivial⟩
      · rw [if_neg h1]
        simp only [List.map_cons, List.mem_cons]
        rw [ih]
        exact ⟨fun h => Or.inr h, fun h => h.elim (fun h2 => absurd h2 h1) id⟩

theorem alContains_iff {α : Type} {k : Str} {m : List (Str × α)} :
    alContains k m = true ↔ k ∈ m.map Prod.fst := alLookup_isSome_iff

theorem alLookup_none_of_not_mem {α : Type} {k : Str} {m : List (Str × α)}
    (h : k ∉ m.map Prod.fst) : alLookup k m = none := by
  cases hl : alLookup k m with
  | none => rfl
  | some v => exact absurd (alLookup_some_mem_keys hl) h

theorem mem_keys_alInsert {α : Type} {x k : Str} {v : α} {m : List (Str × α)}
    (h : x ∈ (alInsert k v m).map Prod.fst) : x = k ∨ x ∈ m.map Prod.fst := by
  rcases List.mem_map.mp h with ⟨pr, hpr, hx⟩
  rcases mem_alInsert hpr with h1 | h1
  · exact Or.inl (by rw [← hx, h1])
  · exact Or.inr (hx ▸ List.mem_map_of_mem Prod.fst h1)

theorem self_mem_keys_alInsert {α : Type} (k : Str) (v : α) (m : List (Str × α)) :
    k ∈ (alInsert k v m).map Prod.fst := by
  induction m with
  | nil => simp [alInsert]
  | cons p rest ih =>
      unfold alInsert
      by_cases h1 : strLt k p.1 = true
      · rw [if_pos h1, List.map_cons]
        exact List.mem_cons.mpr (Or.inl rfl)
      · rw [if_neg h1]
        by_cases h2 : strLt p.1 k = true
        · rw [if_pos h2]
          simp only [List.map_cons, List.mem_cons]
          exact Or.inr ih
        · rw [if_neg h2]
          have hpk : p.1 = k := strLt_eq_of_both_false (by simpa using h2) (by simpa using h1)
          rw [List.map_cons]
          exact List.mem_cons.mpr (Or.inl hpk.symm)

theorem keys_mono_alInsert {α : Type} {x k : Str} {v : α} {m : List (Str × α)}
    (h : x ∈ m.map Prod.fst) : x ∈ (alInsert k v m).map Prod.fst := by
  induction m with
  | nil => simp at h
  | cons p rest ih =>
      unfold alInsert
      rw [List.map_cons, List.mem_cons] at h
      by_cases h1 : strLt k p.1 = true
      · rw [if_pos h1]
        simp only [List.map_cons, List.mem_cons]
        rcases h with h2 | h2
        · exact Or.inr (Or.inl h2)
        · exact Or.inr (Or.inr h2)
      · rw [if_neg h1]
        by_cases h2 : strLt p.1 k = true
        · rw [if_pos h2]
          simp only [List.map_cons, List.mem_cons]
          rcases h with h3 | h3
          · exact Or.inl h3
          · exact Or.inr (ih h3)
        · rw [if_neg h2]
          simp only [List.map_cons, List.mem_cons]
          exact h

theorem alInsert_sorted {α : Type} {k : Str} (v : α) {m : List (Str × α)}
    (h : (m.map Prod.fst).Pairwise (fun a b => strLt a b = true)) :
    ((alInsert k v m).map Prod.fst).Pairwise (fun a b => strLt a b = true) := by
  induction m with
  | nil => simp [alInsert]
  | cons p rest ih =>
      rw [List.map_cons, List.pairwise_cons] at h
      unfold alInsert
      by_cases h1 : strLt k p.1 = true
      · rw [if_pos h1]
        simp only [List.map_cons, List.pairwise_cons, List.mem_cons]
        refine ⟨?_, h.1, h.2⟩
        intro b hb
        rcases hb with hb | hb
        · rw [hb]; exact h1
        · exact strLt_trans h1 (h.1 b hb)
      · rw [if_neg h1]
        by_cases h2 : strLt p.1 k = true
        · rw [if_pos h2]
          simp only [List.map_cons, List.pairwise_cons]
          refine ⟨?_, ih h.2⟩
          intro b hb
          rcases mem_keys_alInsert hb with h3 | h3
          · rw [h3]; exact h2
          · exact h.1 b h3
        · rw [if_neg h2]
          simp only [List.map_cons, List.pairwise_cons]
          exact h

theorem mem_ssInsert {x k : Str} {s : List Str} :
    x ∈ ssInsert k s ↔ x = k ∨ x ∈ s := by
  induction s with
  | nil => simp [ssInsert]
  | cons a t ih =>
      unfold ssInsert
      by_cases h1 : strLt k a = true
      · rw [if_pos h1]; simp
      · rw [if_neg h1]
        by_cases h2 : strLt a k = true
        · rw [if_pos h2]
          simp only [List.mem_cons]
          rw [ih]
          constructor
          · rintro (h | h | h)
            · exact Or.inr (Or.inl h)
            · exact Or.inl h
            · exact Or.inr (Or.inr h)
          · rintro (h | h | h)
            · exact Or.inr (Or.inl h)
            · exact Or.inl h
            · exact Or.inr (Or.inr h)
        · rw [if_neg h2]
          have hak : a = k := strLt_eq_of_both_false (by simpa using h2) (by simpa using h1)
          subst hak
          simp only [List.mem_cons]
          constructor
          · rintro (h | h)
            · exact Or.inl h
            · exact Or.inr (Or.inr h)
          · rintro (h | h | h)
            · exact Or.inl h
            · exact Or.inl h
            · exact Or.inr h

theorem ssInsert_sorted {k : Str} {s : List Str}
    (h : s.Pairwise (fun a b => strLt a b = true)) :
    (ssInsert k s).Pairwise (fun a b => strLt a b = true) := by
  induction s with
  | nil => simp [ssInsert]
  | cons a t ih =>
      rw [List.pairwise_cons] at h
      unfold ssInsert
      by_cases h1 : strLt k a = true
      · rw [if_pos h1]
        simp only [List.pairwise_cons, List.mem_cons]
        refine ⟨?_, h.1, h.2⟩
        intro b hb
        rcases hb with hb | hb
        · rw [hb]; exact h1
        · exact strLt_trans h1 (h.1 b hb)
      · rw [if_neg h1]
        by_cases h2 : strLt a k = true
        · rw [if_pos h2]
          rw [List.pairwise_cons]
          refine ⟨?_, ih h.2⟩
          intro b hb
          rcases mem_ssInsert.mp hb with h3 | h3
          · rw [h3]; exact h2
          · exact h.1 b h3
        · rw [if_neg h2]
          rw [List.pairwise_cons]
          exact h

theorem alLookup_append_right {α : Type} {k : Str} {acc m : List (Str × α)}
    (h : ∀ q ∈ acc, q.1 ≠ k) : alLookup k (acc ++ m) = alLookup k m := by
  induction acc with
  | nil => rfl
  | cons q rest ih =>
      rw [List.cons_append]
      show (if k = q.1 then some q.2 else alLookup k (rest ++ m)) = alLookup k m
      rw [if_neg (fun hEq => h q (by simp) (by rw [hEq]))]
      exact ih (fun r hr => h r (by simp [hr]))

theorem alInsert_append_self {α : Type} {k : Str} (v c : α) {acc : List (Str × α)}
    (h : ∀ q ∈ acc, strLt q.1 k = true) :
    alInsert k v (acc ++ [(k, c)]) = acc ++ [(k, v)] := by
  induction acc with
  | nil =>
      show alInsert k v [(k, c)] = [(k, v)]
      unfold alInsert
      rw [if_neg (by simp [strLt_irrefl]), if_neg (by simp [strLt_irrefl])]
  | cons q rest ih =>
      have hq : strLt q.1 k = true := h q (by simp)
      rw [List.cons_append, List.cons_append]
      unfold alInsert
      rw [if_neg (by simp [strLt_asymm hq]), if_pos hq]
      rw [ih (fun r hr => h r (by simp [hr]))]

theorem al_entry_eq_of_nodup {α : Type} {k : Str} {a b : α} {m : List (Str × α)}
    (hnd : (m.map Prod.fst).Nodup) (ha : (k, a) ∈ m) (hb : (k, b) ∈ m) : a = b := by
  have h1 := alLookup_eq_of_mem_nodup hnd ha
  have h2 := alLookup_eq_of_mem_nodup hnd hb
  exact Option.some.inj (h1.symm.trans h2)

theorem find_block_by_sid_mem {sys : System} {sid : Str} {b : Block}
    (h : sys.find_block_by_sid sid = some b) : b ∈ sys.blocks ∧ b.sid = sid := by
  unfold System.find_block_by_sid at h
  refine ⟨List.mem_of_find?_eq_some h, ?_⟩
  have := List.find?_some h
  simpa using this

theorem find?_sid_of_nodup {bs : List Block} {b : Block}
    (hnd : (bs.map Block.sid).Nodup) (hb : b ∈ bs) :
    bs.find? (fun c => decide (c.sid = b.sid)) = some b := by
  induction bs with
  | nil => cases hb
  | cons c rest ih =>
      rw [List.map_cons, List.nodup_cons] at hnd
      rcases List.mem_cons.mp hb with h1 | h1
      · subst h1
        exact List.find?_cons_of_pos _ (by simp)
      · have hne : c.sid ≠ b.sid := fun hEq => hnd.1 (hEq ▸ List.mem_map_of_mem Block.sid h1)
        rw [List.find?_cons_of_neg _ (by simpa using hne)]
        exact ih hnd.2 h1

theorem find_block_by_sid_of_nodup {sys : System} {b : Block}
    (hnd : (sys.blocks.map Block.sid).Nodup) (hb : b ∈ sys.blocks) :
    sys.find_block_by_sid b.sid = some b :=
  find?_sid_of_nodup hnd hb

theorem append_singleton_cases {out pre post : List Str} {s k : Str}
    (h : out ++ [s] = pre ++ k :: post) :
    (k = s ∧ pre = out ∧ post = []) ∨ ∃ post2, out = pre ++ k :: post2 ∧ post = post2 ++ [s] := by
  rcases List.append_eq_append_iff.mp h with ⟨a2, ha1, ha2⟩ | ⟨c2, hc1, hc2⟩
  · cases a2 with
    | nil =>
        simp only [List.append_nil] at ha1
        rw [List.nil_append] at ha2
        injection ha2 with h1 h2
        exact Or.inl ⟨h1.symm, ha1, h2.symm⟩
    | cons x xs =>
        rw [List.cons_append] at ha2
        injection ha2 with h1 h2
        have := congrArg List.length h2
        simp only [List.length_nil, List.length_append, List.length_cons] at this
        omega
  · cases c2 with
    | nil =>
        simp at hc1
        rw [List.nil_append] at hc2
        injection hc2 with h1 h2
        exact Or.inl ⟨h1, hc1.symm, h2⟩
    | cons x xs =>
        rw [List.cons_append] at hc2
        injection hc2 with h1 h2
        subst h1
        exact Or.inr ⟨xs, by rw [hc1], h2⟩

theorem alContains_false_of_not_mem {α : Type} {k : Str} {m : List (Str × α)}
    (h : k ∉ m.map Prod.fst) : alContains k m = false := by
  unfold alContains
  rw [alLookup_none_of_not_mem h]
  rfl

theorem alLookup_append_last {α : Type} {k : Str} (c : α) {acc : List (Str × α)}
    (h : ∀ q ∈ acc, strLt q.1 k = true) : alLookup k (acc ++ [(k, c)]) = some c := by
  rw [alLookup_append_right (fun q hq => ne_of_strLt (h q hq))]
  show (if k = k then some c else alLookup k []) = some c
  rw [if_pos rfl]

theorem kahnDegF_fold (sys : System) (k : Str) :
    ∀ (ds : List Str) (c : Int) (acc : List (Str × Int)),
    (∀ q ∈ acc, strLt q.1 k = true) →
    ds.foldl (kahnDegF sys k) (acc ++ [(k, c)]) =
      acc ++ [(k, c + ((ds.filter (realDep sys)).length : Int))] := by
  intro ds
  induction ds with
  | nil =>
      intro c acc hacc
      simp
  | cons dep rest ih =>
      intro c acc hacc
      rw [List.foldl_cons]
      cases hfb : sys.find_block_by_sid dep with
      | none =>
          have hstep : kahnDegF sys k (acc ++ [(k, c)]) dep = acc ++ [(k, c)] := by
            unfold kahnDegF
            rw [hfb]
          have hreal : realDep sys dep = false := by
            unfold realDep
            rw [hfb]
          rw [hstep, ih c acc hacc, List.filter_cons, hreal]
          rfl
      | some blk =>
          have hreal : realDep sys dep = !blk.is_inport := by
            unfold realDep
            rw [hfb]
          by_cases hin : blk.is_inport = true
          · have hstep : kahnDegF sys k (acc ++ [(k, c)]) dep = acc ++ [(k, c)] := by
              unfold kahnDegF
              rw [hfb]
              show (if (!blk.is_inport) = true then
                  alInsert k ((alLookup k (acc ++ [(k, c)])).getD 0 + 1) (acc ++ [(k, c)])
                else acc ++ [(k, c)]) = acc ++ [(k, c)]
              rw [hin]
              rfl
            rw [hstep, ih c acc hacc, List.filter_cons, hreal, hin]
            rfl
          · have hin' : blk.is_inport = false := by
              cases hb : blk.is_inport
              · rfl
              · exact absurd hb hin
            have hstep : kahnDegF sys k (acc ++ [(k, c)]) dep =
                acc ++ [(k, c + 1)] := by
              unfold kahnDegF
              rw [hfb]
              show (if (!blk.is_inport) = true then
                  alInsert k ((alLookup k (acc ++ [(k, c)])).getD 0 + 1) (acc ++ [(k, c)])
                else acc ++ [(k, c)]) = acc ++ [(k, c + 1)]
              rw [hin']
              show alInsert k ((alLookup k (acc ++ [(k, c)])).getD 0 + 1) (acc ++ [(k, c)]) =
                acc ++ [(k, c + 1)]
              rw [alLookup_append_last c hacc]
              exact alInsert_append_self _ _ hacc
            rw [hstep, ih (c + 1) acc hacc, List.filter_cons, hreal, hin']
            show acc ++ [(k, c + 1 + _)] = acc ++ [(k, c + ((List.length (dep :: _) : Nat) : Int))]
            rw [List.length_cons]
            push_cast
            ring_nf

theorem kahnDegEntry_eq (sys : System) :
    ∀ (deps : List (Str × List Str)) (acc : List (Str × Int)),
    (acc.map Prod.fst ++ deps.map Prod.fst).Pairwise (fun a b => strLt a b = true) →
    deps.foldl (kahnDegEntry sys) acc =
      acc ++ deps.map (fun p => (p.1, ((p.2.filter (realDep sys)).length : Int))) := by
  intro deps
  induction deps with
  | nil =>
      intro acc _
      simp
  | cons p rest ih =>
      intro acc hpw
      rw [List.foldl_cons]
      have hlt : ∀ q ∈ acc.map Prod.fst, strLt q p.1 = true := by
        intro q hq
        have := (List.pairwise_append.mp hpw).2.2 q hq p.1 (by simp)
        exact this
      have hnotmem : p.1 ∉ acc.map Prod.fst := by
        intro hmem
        exact absurd rfl (ne_of_strLt (hlt p.1 hmem))
      have hentry : kahnDegEntry sys acc p =
          acc ++ [(p.1, ((p.2.filter (realDep sys)).length : Int))] := by
        unfold kahnDegEntry
        rw [alContains_false_of_not_mem hnotmem]
        show p.2.foldl (kahnDegF sys p.1) (alInsert p.1 0 acc) = _
        rw [alInsert_append_gt (0 : Int) (fun q hq => hlt q.1 (List.mem_map_of_mem Prod.fst hq))]
        rw [kahnDegF_fold sys p.1 p.2 0 acc (fun q hq => hlt q.1 (List.mem_map_of_mem Prod.fst hq))]
        rw [zero_add]
      rw [hentry, ih (acc ++ [(p.1, _)]) ?_]
      · rw [List.append_assoc, List.map_cons]
        rfl
      · rw [List.map_append]
        rw [List.map_cons, List.pairwise_append] at hpw ⊢
        constructor
        · rw [List.pairwise_append]
          refine ⟨hpw.1, by simp, ?_⟩
          intro a ha b hb
          simp only [List.map_cons, List.mem_singleton] at hb
          rw [show b = p.1 from by simpa using hb]
          exact hlt a ha
        · refine ⟨(List.pairwise_cons.mp hpw.2.1).2, ?_⟩
          intro a ha b hb
          rcases List.mem_append.mp ha with h1 | h1
          · exact hpw.2.2 a h1 b (by simp [hb])
          · rw [show a = p.1 from by simpa using h1]
            exact (List.pairwise_cons.mp hpw.2.1).1 b hb

theorem kahnInDegree_eq {deps : List (Str × List Str)} (sys : System)
    (hpw : (deps.map Prod.fst).Pairwise (fun a b => strLt a b = true)) :
    kahnInDegree deps sys =
      deps.map (fun p => (p.1, ((p.2.filter (realDep sys)).length : Int))) := by
  unfold kahnInDegree
  rw [kahnDegEntry_eq sys deps [] (by simpa using hpw)]
  rfl

theorem kahnStep_fold (sid : Str) (v : Str → Int) :
    ∀ (R D : List (Str × List Str)) (I : List (Str × Int)) (Q : List Str),
    (R.map Prod.fst).Nodup →
    (D.map Prod.fst).Pairwise (fun a b => strLt a b = true) →
    (∀ p ∈ R, p.1 ∈ D.map Prod.fst) →
    (∀ p ∈ R, alLookup p.1 I = some (v p.1)) →
    ((R.foldl (kahnStepF sid) (D, I, Q)).1.map Prod.fst = D.map Prod.fst)
    ∧ (∀ k, k ∉ R.map Prod.fst →
        alLookup k (R.foldl (kahnStepF sid) (D, I, Q)).1 = alLookup k D
        ∧ alLookup k (R.foldl (kahnStepF sid) (D, I, Q)).2.1 = alLookup k I)
    ∧ (∀ p ∈ R,
        (ssContains sid p.2 = true →
          alLookup p.1 (R.foldl (kahnStepF sid) (D, I, Q)).1 = some (ssErase sid p.2)
          ∧ alLookup p.1 (R.foldl (kahnStepF sid) (D, I, Q)).2.1 = some (v p.1 - 1))
        ∧ (ssContains sid p.2 = false →
          alLookup p.1 (R.foldl (kahnStepF sid) (D, I, Q)).1 = alLookup p.1 D
          ∧ alLookup p.1 (R.foldl (kahnStepF sid) (D, I, Q)).2.1 = alLookup p.1 I))
    ∧ (R.foldl (kahnStepF sid) (D, I, Q)).2.2 =
        Q ++ (R.filter (fun p => ssContains sid p.2 && decide (v p.1 - 1 = 0))).map Prod.fst := by
  intro R
  induction R with
  | nil =>
      intro D I Q _ _ _ _
      refine ⟨rfl, fun k _ => ⟨rfl, rfl⟩, fun p hp => absurd hp (List.not_mem_nil p), ?_⟩
      simp
  | cons p R' ih =>
      intro D I Q hnd hsort hmem hv
      rw [List.map_cons, List.nodup_cons] at hnd
      have hp1notR' : p.1 ∉ R'.map Prod.fst := hnd.1
      have hvp := hv p (by simp)
      have hkeysne : ∀ q ∈ R', q.1 ≠ p.1 := by
        intro q hq hEq
        exact hp1notR' (hEq ▸ List.mem_map_of_mem Prod.fst hq)
      rw [List.foldl_cons]
      by_cases hc : ssContains sid p.2 = true
      · have hstep : kahnStepF sid (D, I, Q) p =
            (alInsert p.1 (ssErase sid p.2) D,
             alInsert p.1 (v p.1 - 1) I,
             if v p.1 - 1 = 0 then Q ++ [p.1] else Q) := by
          unfold kahnStepF
          rw [hc]
          show (alInsert p.1 (ssErase sid p.2) D,
                alInsert p.1 ((alLookup p.1 I).getD 0 - 1) I,
                if (alLookup p.1 I).getD 0 - 1 = 0 then Q ++ [p.1] else Q) = _
          rw [hvp]
          rfl
        rw [hstep]
        have hkeysD' : (alInsert p.1 (ssErase sid p.2) D).map Prod.fst = D.map Prod.fst :=
          alInsert_keys_mem hsort (hmem p (by simp)) _
        have ihres := ih (alInsert p.1 (ssErase sid p.2) D)
          (alInsert p.1 (v p.1 - 1) I)
          (if v p.1 - 1 = 0 then Q ++ [p.1] else Q)
          hnd.2 (hkeysD' ▸ hsort)
          (fun q hq => hkeysD' ▸ hmem q (by simp [hq]))
          (fun q hq => by
            rw [alLookup_alInsert_ne (hkeysne q hq) _ I]
            exact hv q (by simp [hq]))
        obtain ⟨ih1, ih2, ih3, ih4⟩ := ihres
        refine ⟨ih1.trans hkeysD', ?_, ?_, ?_⟩
        · intro k hk
          have hkR' : k ∉ R'.map Prod.fst := fun h => hk (by simp [h])
          have hkp : k ≠ p.1 := fun h => hk (by simp [h])
          obtain ⟨e1, e2⟩ := ih2 k hkR'
          refine ⟨e1.trans ?_, e2.trans ?_⟩
          · exact alLookup_alInsert_ne hkp _ D
          · exact alLookup_alInsert_ne hkp _ I
        · intro q hq
          rcases List.mem_cons.mp hq with hq1 | hq1
          · subst hq1
            constructor
            · intro _
              obtain ⟨e1, e2⟩ := ih2 q.1 hp1notR'
              refine ⟨e1.trans ?_, e2.trans ?_⟩
              · exact alLookup_alInsert_self q.1 _ D
              · exact alLookup_alInsert_self q.1 _ I
            · intro hcf
              rw [hc] at hcf
              cases hcf
          · have hne := hkeysne q hq1
            obtain ⟨c1, c2⟩ := ih3 q hq1
            constructor
            · exact c1
            · intro hcf
              obtain ⟨e1, e2⟩ := c2 hcf
              refine ⟨e1.trans ?_, e2.trans ?_⟩
              · exact alLookup_alInsert_ne hne _ D
              · exact alLookup_alInsert_ne hne _ I
        · rw [ih4, List.filter_cons]
          by_cases hz : v p.1 - 1 = 0
          · rw [if_pos (show (ssContains sid p.2 && decide (v p.1 - 1 = 0)) = true by
              rw [hc, hz]; rfl), if_pos hz]
            rw [List.map_cons, List.append_assoc]
            rfl
          · rw [if_neg (show ¬ (ssContains sid p.2 && decide (v p.1 - 1 = 0)) = true by
              rw [hc]; simpa using hz), if_neg hz]
      · have hcf : ssContains sid p.2 = false := by
          cases hcb : ssContains sid p.2
          · rfl
          · exact absurd hcb hc
        have hstep : kahnStepF sid (D, I, Q) p = (D, I, Q) := by
          unfold kahnStepF
          rw [hcf]
          rfl
        rw [hstep]
        have ihres := ih D I Q hnd.2 hsort (fun q hq => hmem q (by simp [hq]))
          (fun q hq => hv q (by simp [hq]))
        obtain ⟨ih1, ih2, ih3, ih4⟩ := ihres
        refine ⟨ih1, ?_, ?_, ?_⟩
        · intro k hk
          exact ih2 k (fun h => hk (by simp [h]))
        · intro q hq
          rcases List.mem_cons.mp hq with hq1 | hq1
          · subst hq1
            constructor
            · intro hct
              rw [hct] at hcf
              cases hcf
            · intro _
              exact ih2 q.1 hp1notR'
          · exact ih3 q hq1
        · rw [ih4, List.filter_cons]
          rw [if_neg (show ¬ (ssContains sid p.2 && decide (v p.1 - 1 = 0)) = true by
            rw [hcf]; simp)]

theorem filter_eq_nil_of_count_zero {p : Str → Bool} {l : List Str}
    (h : (l.filter p).length = 0) : l.filter p = [] :=
  List.length_eq_zero.mp h

theorem kahnStep_spec (sys : System) (deps0 : List (Str × List Str)) (sid : Str)
    (deps : List (Str × List Str)) (ind : List (Str × Int))
    (hsorted : (deps0.map Prod.fst).Pairwise (fun a b => strLt a b = true))
    (i1 : deps.map Prod.fst = deps0.map Prod.fst)
    (i2 : ∀ k ∈ deps0.map Prod.fst, ((alLookup k deps).getD []).Nodup)
    (i4 : ∀ k ∈ deps0.map Prod.fst,
      alLookup k ind = some ((((alLookup k deps).getD []).filter (realDep sys)).length : Int))
    (hsidreal : realDep sys sid = true) :
    (kahnStep sid deps ind).1.map Prod.fst = deps0.map Prod.fst
    ∧ (∀ k ∈ deps0.map Prod.fst,
        (alLookup k (kahnStep sid deps ind).1).getD [] =
          ssErase sid ((alLookup k deps).getD []))
    ∧ (∀ k ∈ deps0.map Prod.fst,
        alLookup k (kahnStep sid deps ind).2.1 =
          some ((((ssErase sid ((alLookup k deps).getD [])).filter (realDep sys)).length : Int)))
    ∧ (∀ k, k ∈ (kahnStep sid deps ind).2.2 ↔
        (k ∈ deps0.map Prod.fst ∧ sid ∈ (alLookup k deps).getD []
          ∧ (ssErase sid ((alLookup k deps).getD [])).filter (realDep sys) = []))
    ∧ (kahnStep sid deps ind).2.2.Nodup := by
  have hK0nd : (deps0.map Prod.fst).Nodup := nodup_of_pairwise_strLt hsorted
  have hdnd : (deps.map Prod.fst).Nodup := by rw [i1]; exact hK0nd
  have hdsort : (deps.map Prod.fst).Pairwise (fun a b => strLt a b = true) := by
    rw [i1]; exact hsorted
  have hentry : ∀ k ∈ deps0.map Prod.fst,
      (k, (alLookup k deps).getD []) ∈ deps ∧ alLookup k deps = some ((alLookup k deps).getD []) := by
    intro k hk
    have hk' : k ∈ deps.map Prod.fst := by rw [i1]; exact hk
    obtain ⟨p, hp, hpk⟩ := List.mem_map.mp hk'
    have hlook : alLookup k deps = some p.2 := by
      rw [← hpk]
      exact alLookup_eq_of_mem_nodup hdnd hp
    rw [hlook]
    refine ⟨?_, rfl⟩
    have h2 : (p.1, p.2) ∈ deps := hp
    exact hpk ▸ h2
  have hmemK : ∀ p ∈ deps, p.1 ∈ deps0.map Prod.fst := by
    intro p hp
    rw [← i1]
    exact List.mem_map_of_mem Prod.fst hp
  have hentval : ∀ p ∈ deps, p.2 = (alLookup p.1 deps).getD [] := by
    intro p hp
    have := (hentry p.1 (hmemK p hp)).1
    exact al_entry_eq_of_nodup hdnd hp this
  have hv : ∀ p ∈ deps, alLookup p.1 ind = some ((fun k => (alLookup k ind).getD 0) p.1) := by
    intro p hp
    show alLookup p.1 ind = some ((alLookup p.1 ind).getD 0)
    rw [i4 p.1 (hmemK p hp)]
    rfl
  have hvval : ∀ k ∈ deps0.map Prod.fst,
      (fun k => (alLookup k ind).getD 0) k =
        ((((alLookup k deps).getD []).filter (realDep sys)).length : Int) := by
    intro k hk
    show (alLookup k ind).getD 0 = _
    rw [i4 k hk]
    rfl
  obtain ⟨f1, f2, f3, f4⟩ := kahnStep_fold sid (fun k => (alLookup k ind).getD 0)
    deps deps ind [] hdnd hdsort (fun p hp => List.mem_map_of_mem Prod.fst hp) hv
  have herase : ∀ k ∈ deps0.map Prod.fst,
      (alLookup k (kahnStep sid deps ind).1).getD [] =
        ssErase sid ((alLookup k deps).getD []) := by
    intro k hk
    obtain ⟨hent, hlook⟩ := hentry k hk
    obtain ⟨c1, c2⟩ := f3 (k, (alLookup k deps).getD []) hent
    by_cases hc : ssContains sid ((alLookup k deps).getD []) = true
    · have e1 : alLookup k (kahnStep sid deps ind).1 =
          some (ssErase sid ((alLookup k deps).getD [])) := (c1 hc).1
      rw [e1]
      rfl
    · have hcf : ssContains sid ((alLookup k deps).getD []) = false := by
        cases hcb : ssContains sid ((alLookup k deps).getD [])
        · rfl
        · exact absurd hcb hc
      have hnot : sid ∉ (alLookup k deps).getD [] := by
        intro hmem
        rw [ssContains_iff.mpr hmem] at hcf
        cases hcf
      have e1 : alLookup k (kahnStep sid deps ind).1 = alLookup k deps := (c2 hcf).1
      rw [e1, ssErase_not_mem hnot]
  have hcount : ∀ k ∈ deps0.map Prod.fst,
      alLookup k (kahnStep sid deps ind).2.1 =
        some ((((ssErase sid ((alLookup k deps).getD [])).filter (realDep sys)).length : Int)) := by
    intro k hk
    obtain ⟨hent, hlook⟩ := hentry k hk
    obtain ⟨c1, c2⟩ := f3 (k, (alLookup k deps).getD []) hent
    by_cases hc : ssContains sid ((alLookup k deps).getD []) = true
    · have hmem : sid ∈ (alLookup k deps).getD [] := ssContains_iff.mp hc
      have hlen := filter_length_ssErase (realDep sys) (i2 k hk) hmem hsidreal
      have e2 : alLookup k (kahnStep sid deps ind).2.1 =
          some ((alLookup k ind).getD 0 - 1) := (c1 hc).2
      rw [e2, i4 k hk]
      show some ((((((alLookup k deps).getD []).filter (realDep sys)).length : Int)) - 1) = _
      congr 1
      omega
    · have hcf : ssContains sid ((alLookup k deps).getD []) = false := by
        cases hcb : ssContains sid ((alLookup k deps).getD [])
        · rfl
        · exact absurd hcb hc
      have hnot : sid ∉ (alLookup k deps).getD [] := by
        intro hmem
        rw [ssContains_iff.mpr hmem] at hcf
        cases hcf
      have e2 : alLookup k (kahnStep sid deps ind).2.1 = alLookup k ind := (c2 hcf).2
      rw [e2, ssErase_not_mem hnot]
      exact i4 k hk
  have f4' : (kahnStep sid deps ind).2.2 =
      (deps.filter (fun p => ssContains sid p.2 &&
        decide ((fun k => (alLookup k ind).getD 0) p.1 - 1 = 0))).map Prod.fst := by
    have h := f4
    rw [List.nil_append] at h
    exact h
  refine ⟨f1.trans i1, herase, hcount, ?_, ?_⟩
  · intro k
    rw [f4']
    constructor
    · intro hk
      obtain ⟨p, hpf, hpk⟩ := List.mem_map.mp hk
      have hpd := List.mem_of_mem_filter hpf
      have hpred := List.of_mem_filter hpf
      simp only [Bool.and_eq_true, decide_eq_true_eq] at hpred
      have hkK : k ∈ deps0.map Prod.fst := by rw [← hpk]; exact hmemK p hpd
      have hval : p.2 = (alLookup k deps).getD [] := by rw [← hpk]; exact hentval p hpd
      have hmem : sid ∈ (alLookup k deps).getD [] := by
        rw [← hval]
        exact ssContains_iff.mp hpred.1
      refine ⟨hkK, hmem, ?_⟩
      have hlen := filter_length_ssErase (realDep sys) (i2 k hkK) hmem hsidreal
      have hv1 : (alLookup p.1 ind).getD 0 =
          ((((alLookup k deps).getD []).filter (realDep sys)).length : Int) := by
        rw [hpk, i4 k hkK]
        rfl
      have h5 := hpred.2
      rw [hv1] at h5
      apply filter_eq_nil_of_count_zero
      omega
    · rintro ⟨hkK, hmem, hfil⟩
      refine List.mem_map.mpr ⟨(k, (alLookup k deps).getD []), ?_, rfl⟩
      refine List.mem_filter.mpr ⟨(hentry k hkK).1, ?_⟩
      simp only [Bool.and_eq_true, decide_eq_true_eq]
      refine ⟨ssContains_iff.mpr hmem, ?_⟩
      have hlen := filter_length_ssErase (realDep sys) (i2 k hkK) hmem hsidreal
      rw [hfil] at hlen
      simp only [List.length_nil] at hlen
      show (alLookup k ind).getD 0 - 1 = 0
      rw [i4 k hkK]
      show (((((alLookup k deps).getD []).filter (realDep sys)).length : Int)) - 1 = 0
      omega
  · rw [f4']
    have hsub : ((deps.filter
        (fun p => ssContains sid p.2 && decide ((fun k => (alLookup k ind).getD 0) p.1 - 1 = 0))).map
        Prod.fst).Sublist (deps.map Prod.fst) :=
      (List.filter_sublist deps).map Prod.fst
    exact hsub.nodup hdnd

theorem kahnLoop_spec (sys : System) (deps0 : List (Str × List Str)) (rk : Str → Nat)
    (hsorted : (deps0.map Prod.fst).Pairwise (fun a b => strLt a b = true))
    (hKreal : ∀ k ∈ deps0.map Prod.fst, realDep sys k = true)
    (hRK : ∀ d, realDep sys d = true → d ∈ deps0.map Prod.fst)
    (hrank : ∀ k ∈ deps0.map Prod.fst, ∀ d ∈ (alLookup k deps0).getD [],
        realDep sys d = true → rk d < rk k) :
    ∀ fuel q deps ind out,
    kahnInv sys deps0 deps ind q out →
    deps0.length + 1 ≤ fuel + out.length →
    (kahnLoop fuel q deps ind out).Nodup
    ∧ (∀ k ∈ kahnLoop fuel q deps ind out, k ∈ deps0.map Prod.fst)
    ∧ (∀ k ∈ deps0.map Prod.fst, k ∈ kahnLoop fuel q deps ind out)
    ∧ (∀ k pre post, kahnLoop fuel q deps ind out = pre ++ k :: post →
        ∀ d ∈ (alLookup k deps0).getD [], realDep sys d = true → d ∈ pre) := by
  intro fuel
  induction fuel with
  | zero =>
      intro q deps ind out hinv hfuel
      obtain ⟨i1, i2, i3, i4, i5, i6, i7, i8, i9⟩ := hinv
      have hnd : out.Nodup := i5.of_append_left
      have hsub : out ⊆ deps0.map Prod.fst :=
        fun a ha => i6 a (List.mem_append.mpr (Or.inl ha))
      have hlen : out.length ≤ deps0.length := by
        have h1 := (List.subperm_of_subset hnd hsub).length_le
        rw [List.length_map] at h1
        exact h1
      exact absurd hfuel (by omega)
  | succ fuel ih =>
      intro q deps ind out hinv hfuel
      obtain ⟨i1, i2, i3, i4, i5, i6, i7, i8, i9⟩ := hinv
      cases q with
      | nil =>
          have hndout : out.Nodup := by simpa using i5
          have hsubout : ∀ k ∈ out, k ∈ deps0.map Prod.fst :=
            fun a ha => i6 a (by simpa using ha)
          have hcomp : ∀ n k, k ∈ deps0.map Prod.fst → rk k < n → k ∈ out := by
            intro n
            induction n with
            | zero => intro k _ h; omega
            | succ n ihn =>
                intro k hk hrkk
                by_contra hkout
                have hfil : ((alLookup k deps).getD []).filter (realDep sys) ≠ [] := by
                  intro hf
                  exact hkout (by simpa using i8 k hk hf)
                obtain ⟨d, hd⟩ := List.exists_mem_of_ne_nil _ hfil
                have hdf := List.mem_filter.mp hd
                have hdreal : realDep sys d = true := hdf.2
                obtain ⟨hd0, hdout⟩ := (i3 k hk d).mp hdf.1
                have hdK : d ∈ deps0.map Prod.fst := hRK d hdreal
                have hrkd : rk d < rk k := hrank k hk d hd0 hdreal
                exact hdout (ihn d hdK (by omega))
          refine ⟨hndout, hsubout, ?_, ?_⟩
          · intro k hk
            exact hcomp (rk k + 1) k hk (by omega)
          · intro k pre post hEq
            exact i9 k pre post hEq
      | cons sid rest =>
          have hsidK : sid ∈ deps0.map Prod.fst :=
            i6 sid (List.mem_append.mpr (Or.inr (by simp)))
          have hsidreal : realDep sys sid = true := hKreal sid hsidK
          obtain ⟨s1, s2, s3, s4, s5⟩ :=
            kahnStep_spec sys deps0 sid deps ind hsorted i1 i2 i4 hsidreal
          have hPout : ∀ a ∈ (kahnStep sid deps ind).2.2, a ∉ out ++ sid :: rest := by
            intro a haP hain
            obtain ⟨haK, hamem, _⟩ := (s4 a).mp haP
            have hfil := i7 a haK hain
            have : sid ∈ ((alLookup a deps).getD []).filter (realDep sys) :=
              List.mem_filter.mpr ⟨hamem, hsidreal⟩
            rw [hfil] at this
            cases this
          have hemb : ∀ a, a ∈ out ++ sid :: rest →
              a ∈ (out ++ [sid]) ++ (rest ++ (kahnStep sid deps ind).2.2) := by
            intro a ha
            rcases List.mem_append.mp ha with h | h
            · exact List.mem_append.mpr (Or.inl (List.mem_append.mpr (Or.inl h)))
            · rcases List.mem_cons.mp h with h | h
              · exact List.mem_append.mpr (Or.inl (List.mem_append.mpr (Or.inr (by simp [h]))))
              · exact List.mem_append.mpr (Or.inr (List.mem_append.mpr (Or.inl h)))
          have hinv' : kahnInv sys deps0 (kahnStep sid deps ind).1 (kahnStep sid deps ind).2.1
              (rest ++ (kahnStep sid deps ind).2.2) (out ++ [sid]) := by
            refine ⟨s1, ?_, ?_, ?_, ?_, ?_, ?_, ?_, ?_⟩
            · intro k hk
              rw [s2 k hk]
              exact ssErase_nodup (i2 k hk)
            · intro k hk d
              rw [s2 k hk]
              rw [mem_ssErase (i2 k hk) d]
              constructor
              · rintro ⟨hds, hneq⟩
                obtain ⟨h0, hout⟩ := (i3 k hk d).mp hds
                refine ⟨h0, ?_⟩
                intro hm
                rcases List.mem_append.mp hm with h | h
                · exact hout h
                · exact hneq (by simpa using h)
              · rintro ⟨h0, hout'⟩
                have hout : d ∉ out := fun h => hout' (List.mem_append.mpr (Or.inl h))
                have hneq : d ≠ sid := fun h => hout' (List.mem_append.mpr (Or.inr (by simp [h])))
                exact ⟨(i3 k hk d).mpr ⟨h0, hout⟩, hneq⟩
            · intro k hk
              rw [s2 k hk]
              exact s3 k hk
            · have hre : (out ++ [sid]) ++ (rest ++ (kahnStep sid deps ind).2.2) =
                  (out ++ sid :: rest) ++ (kahnStep sid deps ind).2.2 := by
                simp
              rw [hre, List.nodup_append]
              exact ⟨i5, s5, fun a ha haP => hPout a haP ha⟩
            · intro k hk
              rcases List.mem_append.mp hk with h | h
              · rcases List.mem_append.mp h with h1 | h1
                · exact i6 k (List.mem_append.mpr (Or.inl h1))
                · have : k = sid := by simpa using h1
                  rw [this]; exact hsidK
              · rcases List.mem_append.mp h with h1 | h1
                · exact i6 k (List.mem_append.mpr (Or.inr (by simp [h1])))
                · exact ((s4 k).mp h1).1
            · intro k hk hkin
              rw [s2 k hk]
              rcases List.mem_append.mp hkin with h | h
              · have hold : k ∈ out ++ sid :: rest := by
                  rcases List.mem_append.mp h with h1 | h1
                  · exact List.mem_append.mpr (Or.inl h1)
                  · exact List.mem_append.mpr (Or.inr (by simp [show k = sid by simpa using h1]))
                have hfil := i7 k hk hold
                rw [List.filter_eq_nil_iff] at hfil ⊢
                intro d hd
                exact hfil d (ssErase_subset hd)
              · rcases List.mem_append.mp h with h1 | h1
                · have hold : k ∈ out ++ sid :: rest :=
                    List.mem_append.mpr (Or.inr (by simp [h1]))
                  have hfil := i7 k hk hold
                  rw [List.filter_eq_nil_iff] at hfil ⊢
                  intro d hd
                  exact hfil d (ssErase_subset hd)
                · exact ((s4 k).mp h1).2.2
            · intro k hk hfil
              rw [s2 k hk] at hfil
              by_cases hm : sid ∈ (alLookup k deps).getD []
              · have hkP : k ∈ (kahnStep sid deps ind).2.2 := (s4 k).mpr ⟨hk, hm, hfil⟩
                exact List.mem_append.mpr (Or.inr (List.mem_append.mpr (Or.inr hkP)))
              · rw [ssErase_not_mem hm] at hfil
                exact hemb k (i8 k hk hfil)
            · intro k pre post hEq d hd hdreal
              rcases append_singleton_cases hEq with ⟨hks, hpre, hpost⟩ | ⟨post2, hout, hpost⟩
              · subst hks
                subst hpre
                have hfil := i7 k hsidK (List.mem_append.mpr (Or.inr (by simp)))
                by_contra hdpre
                have hdds : d ∈ (alLookup k deps).getD [] := (i3 k hsidK d).mpr ⟨hd, hdpre⟩
                have : d ∈ ((alLookup k deps).getD []).filter (realDep sys) :=
                  List.mem_filter.mpr ⟨hdds, hdreal⟩
                rw [hfil] at this
                cases this
              · exact i9 k pre post2 hout d hd hdreal
          have hfuel' : deps0.length + 1 ≤ fuel + (out ++ [sid]).length := by
            rw [List.length_append]
            simp only [List.length_cons, List.length_nil]
            omega
          exact ih (rest ++ (kahnStep sid deps ind).2.2) (kahnStep sid deps ind).1
            (kahnStep sid deps ind).2.1 (out ++ [sid]) hinv' hfuel'

theorem kahnSort_spec (sys : System) (deps0 : List (Str × List Str)) (rk : Str → Nat)
    (hsorted : (deps0.map Prod.fst).Pairwise (fun a b => strLt a b = true))
    (hds0 : ∀ p ∈ deps0, p.2.Pairwise (fun a b => strLt a b = true))
    (hKreal : ∀ k ∈ deps0.map Prod.fst, realDep sys k = true)
    (hRK : ∀ d, realDep sys d = true → d ∈ deps0.map Prod.fst)
    (hrank : ∀ k ∈ deps0.map Prod.fst, ∀ d ∈ (alLookup k deps0).getD [],
        realDep sys d = true → rk d < rk k) :
    (kahnSort deps0 sys).Nodup
    ∧ (∀ k ∈ kahnSort deps0 sys, k ∈ deps0.map Prod.fst)
    ∧ (∀ k ∈ deps0.map Prod.fst, k ∈ kahnSort deps0 sys)
    ∧ (∀ k pre post, kahnSort deps0 sys = pre ++ k :: post →
        ∀ d ∈ (alLookup k deps0).getD [], realDep sys d = true → d ∈ pre) := by
  have hK0nd : (deps0.map Prod.fst).Nodup := nodup_of_pairwise_strLt hsorted
  have hentry0 : ∀ k ∈ deps0.map Prod.fst,
      (k, (alLookup k deps0).getD []) ∈ deps0
        ∧ alLookup k deps0 = some ((alLookup k deps0).getD []) := by
    intro k hk
    obtain ⟨p, hp, hpk⟩ := List.mem_map.mp hk
    have hlook : alLookup k deps0 = some p.2 := by
      rw [← hpk]
      exact alLookup_eq_of_mem_nodup hK0nd hp
    rw [hlook]
    refine ⟨?_, rfl⟩
    have h2 : (p.1, p.2) ∈ deps0 := hp
    exact hpk ▸ h2
  have hind := kahnInDegree_eq sys hsorted
  have hkeysM : ((deps0.map (fun p =>
      (p.1, ((p.2.filter (realDep sys)).length : Int)))).map Prod.fst) = deps0.map Prod.fst := by
    rw [List.map_map]
    rfl
  have hMnd : ((deps0.map (fun p =>
      (p.1, ((p.2.filter (realDep sys)).length : Int)))).map Prod.fst).Nodup := by
    rw [hkeysM]
    exact hK0nd
  have hlookM : ∀ k ∈ deps0.map Prod.fst,
      alLookup k (deps0.map (fun p => (p.1, ((p.2.filter (realDep sys)).length : Int)))) =
        some (((((alLookup k deps0).getD []).filter (realDep sys)).length : Int)) := by
    intro k hk
    have hent := (hentry0 k hk).1
    have hmem := List.mem_map_of_mem
      (fun p => (p.1, ((p.2.filter (realDep sys)).length : Int))) hent
    exact alLookup_eq_of_mem_nodup hMnd hmem
  have hready : ∀ k, k ∈ (((kahnInDegree deps0 sys).filter
        (fun p => decide (p.2 = 0))).map (·.1)) ↔
      (k ∈ deps0.map Prod.fst ∧ ((alLookup k deps0).getD []).filter (realDep sys) = []) := by
    intro k
    rw [hind]
    constructor
    · intro hk
      obtain ⟨p, hpf, hpk⟩ := List.mem_map.mp hk
      have hpM := List.mem_of_mem_filter hpf
      have hpz := List.of_mem_filter hpf
      simp only [decide_eq_true_eq] at hpz
      obtain ⟨q, hq, hqp⟩ := List.mem_map.mp hpM
      have hq1 : q.1 = k := by rw [← hpk, ← hqp]
      have hkK : k ∈ deps0.map Prod.fst := hq1 ▸ List.mem_map_of_mem Prod.fst hq
      refine ⟨hkK, ?_⟩
      have hq2 : q.2 = (alLookup k deps0).getD [] := by
        have h2 : (q.1, q.2) ∈ deps0 := hq
        have h3 : (k, q.2) ∈ deps0 := hq1 ▸ h2
        exact al_entry_eq_of_nodup hK0nd h3 (hentry0 k hkK).1
      have hz : ((q.2.filter (realDep sys)).length : Int) = 0 := by
        rw [← hqp] at hpz
        exact hpz
      rw [← hq2]
      apply filter_eq_nil_of_count_zero
      exact_mod_cast hz
    · rintro ⟨hkK, hfil⟩
      have hent := (hentry0 k hkK).1
      refine List.mem_map.mpr ⟨(k, ((((alLookup k deps0).getD []).filter
        (realDep sys)).length : Int)), ?_, rfl⟩
      refine List.mem_filter.mpr ⟨List.mem_map_of_mem _ hent, ?_⟩
      rw [hfil]
      simp
  have hinv : kahnInv sys deps0 deps0 (kahnInDegree deps0 sys)
      (((kahnInDegree deps0 sys).filter (fun p => decide (p.2 = 0))).map (·.1)) [] := by
    refine ⟨rfl, ?_, ?_, ?_, ?_, ?_, ?_, ?_, ?_⟩
    · intro k hk
      exact nodup_of_pairwise_strLt (hds0 _ (hentry0 k hk).1)
    · intro k hk d
      constructor
      · intro h
        exact ⟨h, List.not_mem_nil d⟩
      · intro h
        exact h.1
    · intro k hk
      rw [hind]
      exact hlookM k hk
    · rw [List.nil_append]
      have hsub : ((((kahnInDegree deps0 sys).filter
          (fun p => decide (p.2 = 0))).map (·.1)).Sublist
          ((kahnInDegree deps0 sys).map (·.1))) :=
        (List.filter_sublist _).map _
      refine hsub.nodup ?_
      rw [hind]
      exact hMnd
    · intro k hk
      rw [List.nil_append] at hk
      exact ((hready k).mp hk).1
    · intro k hk hkin
      rw [List.nil_append] at hkin
      exact ((hready k).mp hkin).2
    · intro k hk hfil
      rw [List.nil_append]
      exact (hready k).mpr ⟨hk, hfil⟩
    · intro k pre post hEq
      exact absurd hEq (by cases pre <;> simp)
  have hfuel : deps0.length + 1 ≤ (deps0.length + 1) + ([] : List Str).length := by
    simp
  have hres := kahnLoop_spec sys deps0 rk hsorted hKreal hRK hrank
    (deps0.length + 1)
    (((kahnInDegree deps0 sys).filter (fun p => decide (p.2 = 0))).map (·.1))
    deps0 (kahnInDegree deps0 sys) [] hinv hfuel
  exact ⟨hres.1, hres.2.1, hres.2.2.1, hres.2.2.2⟩

theorem exceptBindOk {a b : Type} (x : a) (f : a → Except Unit b) :
    (Except.ok x >>= f : Except Unit b) = f x := rfl

theorem exceptBindErr {a b : Type} (f : a → Except Unit b) :
    (Except.error () >>= f : Except Unit b) = Except.error () := rfl

theorem foldlM_except_inv {σ γ : Type} (f : σ → γ → Except Unit σ) (P : σ → Prop)
    (hp : ∀ s c s', f s c = .ok s' → P s → P s') :
    ∀ (xs : List γ) (s s' : σ), xs.foldlM f s = .ok s' → P s → P s' := by
  intro xs
  induction xs with
  | nil =>
      intro s s' h hP
      simp only [List.foldlM_nil, pure, Except.pure] at h
      cases h
      exact hP
  | cons x rest ih =>
      intro s s' h hP
      rw [List.foldlM_cons] at h
      cases hf : f s x with
      | error e =>
          rw [hf] at h
          cases e
          rw [exceptBindErr] at h
          exact Except.noConfusion h
      | ok s1 =>
          rw [hf, exceptBindOk] at h
          exact ih s1 s' h (hp s x s1 hf hP)

theorem foldlM_except_append {σ γ : Type} (f : σ → γ → Except Unit σ) :
    ∀ (xs ys : List γ) (s s2 : σ), (xs ++ ys).foldlM f s = .ok s2 →
      ∃ s1, xs.foldlM f s = .ok s1 ∧ ys.foldlM f s1 = .ok s2 := by
  intro xs
  induction xs with
  | nil =>
      intro ys s s2 h
      exact ⟨s, rfl, h⟩
  | cons x rest ih =>
      intro ys s s2 h
      rw [List.cons_append, List.foldlM_cons] at h
      cases hf : f s x with
      | error e =>
          rw [hf] at h
          cases e
          rw [exceptBindErr] at h
          exact Except.noConfusion h
      | ok s1 =>
          rw [hf, exceptBindOk] at h
          obtain ⟨sm, h1, h2⟩ := ih ys s1 s2 h
          refine ⟨sm, ?_, h2⟩
          rw [List.foldlM_cons, hf, exceptBindOk]
          exact h1

theorem initFold_spec (bs : List Block) :
    ∀ acc : List (Str × List Str) × List (Str × List Str),
    ((acc.1.map Prod.fst).Pairwise (fun a b => strLt a b = true)) →
    (∀ p ∈ acc.1, p.2 = ([] : List Str)) →
    (((bs.foldl (fun (p : List (Str × List Str) × List (Str × List Str)) blk =>
        if blk.is_inport then p
        else (alInsert blk.sid ([] : List Str) p.1, alInsert blk.sid ([] : List Str) p.2))
        acc).1.map Prod.fst).Pairwise (fun a b => strLt a b = true))
    ∧ (∀ p ∈ (bs.foldl (fun (p : List (Str × List Str) × List (Str × List Str)) blk =>
        if blk.is_inport then p
        else (alInsert blk.sid ([] : List Str) p.1, alInsert blk.sid ([] : List Str) p.2))
        acc).1, p.2 = ([] : List Str))
    ∧ (∀ x, x ∈ (bs.foldl (fun (p : List (Str × List Str) × List (Str × List Str)) blk =>
        if blk.is_inport then p
        else (alInsert blk.sid ([] : List Str) p.1, alInsert blk.sid ([] : List Str) p.2))
        acc).1.map Prod.fst ↔
        (x ∈ acc.1.map Prod.fst ∨ ∃ blk ∈ bs, blk.is_inport = false ∧ blk.sid = x)) := by
  induction bs with
  | nil =>
      intro acc hsort hvals
      refine ⟨hsort, hvals, ?_⟩
      intro x
      simp
  | cons blk rest ih =>
      intro acc hsort hvals
      rw [List.foldl_cons]
      by_cases hin : blk.is_inport = true
      · have hstep : (if blk.is_inport then acc
            else (alInsert blk.sid ([] : List Str) acc.1, alInsert blk.sid ([] : List Str) acc.2))
            = acc := by
          rw [hin]
          rfl
        rw [hstep]
        obtain ⟨c1, c2, c3⟩ := ih acc hsort hvals
        refine ⟨c1, c2, ?_⟩
        intro x
        rw [c3 x]
        constructor
        · rintro (h | ⟨b, hb, hbin, hbs⟩)
          · exact Or.inl h
          · exact Or.inr ⟨b, by simp [hb], hbin, hbs⟩
        · rintro (h | ⟨b, hb, hbin, hbs⟩)
          · exact Or.inl h
          · rcases List.mem_cons.mp hb with h1 | h1
            · rw [h1] at hbin
              rw [hbin] at hin
              cases hin
            · exact Or.inr ⟨b, h1, hbin, hbs⟩
      · have hinf : blk.is_inport = false := by
          cases hb : blk.is_inport
          · rfl
          · exact absurd hb hin
        have hstep : (if blk.is_inport then acc
            else (alInsert blk.sid ([] : List Str) acc.1, alInsert blk.sid ([] : List Str) acc.2))
            = (alInsert blk.sid ([] : List Str) acc.1, alInsert blk.sid ([] : List Str) acc.2) := by
          rw [hinf]
          rfl
        rw [hstep]
        have hsort' : (((alInsert blk.sid ([] : List Str) acc.1 : List (Str × List Str)).map
            Prod.fst).Pairwise (fun a b => strLt a b = true)) := alInsert_sorted _ hsort
        have hvals' : ∀ p ∈ (alInsert blk.sid ([] : List Str) acc.1), p.2 = ([] : List Str) := by
          intro p hp
          rcases mem_alInsert hp with h | h
          · rw [h]
          · exact hvals p h
        obtain ⟨c1, c2, c3⟩ := ih (alInsert blk.sid ([] : List Str) acc.1,
          alInsert blk.sid ([] : List Str) acc.2) hsort' hvals'
        refine ⟨c1, c2, ?_⟩
        intro x
        rw [c3 x]
        constructor
        · rintro (h | ⟨b, hb, hbin, hbs⟩)
          · rcases mem_keys_alInsert h with h1 | h1
            · exact Or.inr ⟨blk, by simp, hinf, h1.symm⟩
            · exact Or.inl h1
          · exact Or.inr ⟨b, by simp [hb], hbin, hbs⟩
        · rintro (h | ⟨b, hb, hbin, hbs⟩)
          · exact Or.inl (keys_mono_alInsert h)
          · rcases List.mem_cons.mp hb with h1 | h1
            · refine Or.inl ?_
              rw [← hbs, h1]
              exact self_mem_keys_alInsert _ _ _
            · exact Or.inr ⟨b, h1, hbin, hbs⟩

theorem ac_deps_keys {sys : System} {state_sids : List Str} {src dst : Endpoint}
    {deps : List (Str × List Str)}
    (hsort : (deps.map Prod.fst).Pairwise (fun a b => strLt a b = true)) :
    (ac_deps sys state_sids src dst deps).map Prod.fst = deps.map Prod.fst := by
  unfold ac_deps
  by_cases hcont : alContains dst.blockSid deps = true
  · rw [if_pos hcont]
    show (if (!(match sys.find_block_by_sid src.blockSid with
        | some b => b.is_inport
        | none => false) && !(ssContains src.blockSid state_sids)) = true then
        alInsert dst.blockSid
          (ssInsert src.blockSid ((alLookup dst.blockSid deps).getD [])) deps
      else deps).map Prod.fst = deps.map Prod.fst
    by_cases hg : (!(match sys.find_block_by_sid src.blockSid with
        | some b => b.is_inport
        | none => false) && !(ssContains src.blockSid state_sids)) = true
    · rw [if_pos hg]
      exact alInsert_keys_mem hsort (alContains_iff.mp hcont) _
    · rw [if_neg hg]
  · rw [if_neg hcont]

theorem ac_deps_vals {sys : System} {state_sids : List Str} {src dst : Endpoint}
    {deps : List (Str × List Str)}
    (hvals : ∀ p ∈ deps, p.2.Pairwise (fun a b => strLt a b = true)) :
    ∀ p ∈ ac_deps sys state_sids src dst deps,
      p.2.Pairwise (fun a b => strLt a b = true) := by
  unfold ac_deps
  by_cases hcont : alContains dst.blockSid deps = true
  · rw [if_pos hcont]
    show ∀ p ∈ (if (!(match sys.find_block_by_sid src.blockSid with
        | some b => b.is_inport
        | none => false) && !(ssContains src.blockSid state_sids)) = true then
        alInsert dst.blockSid
          (ssInsert src.blockSid ((alLookup dst.blockSid deps).getD [])) deps
      else deps), p.2.Pairwise (fun a b => strLt a b = true)
    by_cases hg : (!(match sys.find_block_by_sid src.blockSid with
        | some b => b.is_inport
        | none => false) && !(ssContains src.blockSid state_sids)) = true
    · rw [if_pos hg]
      intro p hp
      rcases mem_alInsert hp with h | h
      · rw [h]
        apply ssInsert_sorted
        cases hl : alLookup dst.blockSid deps with
        | none => exact List.Pairwise.nil
        | some v =>
            have hm := alLookup_some_mem hl
            have := hvals (dst.blockSid, v) hm
            simpa using this
      · exact hvals p h
    · rw [if_neg hg]
      exact hvals
  · rw [if_neg hcont]
    exact hvals

theorem ac_deps_mono {sys : System} {state_sids : List Str} {src dst : Endpoint}
    {deps : List (Str × List Str)} :
    ∀ k x, x ∈ (alLookup k deps).getD [] →
      x ∈ (alLookup k (ac_deps sys state_sids src dst deps)).getD [] := by
  intro k x hx
  unfold ac_deps
  by_cases hcont : alContains dst.blockSid deps = true
  · rw [if_pos hcont]
    show x ∈ (alLookup k (if (!(match sys.find_block_by_sid src.blockSid with
        | some b => b.is_inport
        | none => false) && !(ssContains src.blockSid state_sids)) = true then
        alInsert dst.blockSid
          (ssInsert src.blockSid ((alLookup dst.blockSid deps).getD [])) deps
      else deps)).getD []
    by_cases hg : (!(match sys.find_block_by_sid src.blockSid with
        | some b => b.is_inport
        | none => false) && !(ssContains src.blockSid state_sids)) = true
    · rw [if_pos hg]
      by_cases hk : k = dst.blockSid
      · subst hk
        rw [alLookup_alInsert_self]
        exact mem_ssInsert.mpr (Or.inr hx)
      · rw [alLookup_alInsert_ne hk]
        exact hx
    · rw [if_neg hg]
      exact hx
  · rw [if_neg hcont]
    exact hx

theorem add_connection_cases {sys : System} {state_sids : List Str} {src : Endpoint}
    {src_var dst_str : Str} {deps binputs : List (Str × List Str)}
    {st' : List (Str × List Str) × List (Str × List Str)}
    (hok : add_connection sys state_sids src src_var dst_str deps binputs = .ok st') :
    st'.1 = deps ∨ ∃ dst, endpointParse dst_str = .ok (some dst)
      ∧ ¬ dst.portIndex < 1 ∧ st'.1 = ac_deps sys state_sids src dst deps := by
  unfold add_connection at hok
  cases hparse : endpointParse dst_str with
  | error e =>
      cases e
      rw [hparse] at hok
      exact Except.noConfusion hok
  | ok o =>
      cases o with
      | none =>
          rw [hparse] at hok
          have hok2 : (Except.ok (deps, binputs) :
              Except Unit (List (Str × List Str) × List (Str × List Str))) = .ok st' := hok
          injection hok2 with h
          exact Or.inl (by rw [← h])
      | some dst =>
          rw [hparse] at hok
          have hok2 : (if dst.portIndex < 1 then
              (Except.error () : Except Unit (List (Str × List Str) × List (Str × List Str)))
            else .ok (ac_deps sys state_sids src dst deps, ac_binputs dst src_var binputs))
              = .ok st' := hok
          by_cases hpi : dst.portIndex < 1
          · rw [if_pos hpi] at hok2
            exact Except.noConfusion hok2
          · rw [if_neg hpi] at hok2
            injection hok2 with h
            exact Or.inr ⟨dst, rfl, hpi, by rw [← h]⟩

theorem add_connection_keys {sys : System} {state_sids : List Str} {src : Endpoint}
    {src_var dst_str : Str} {deps binputs : List (Str × List Str)}
    {st' : List (Str × List Str) × List (Str × List Str)}
    (hok : add_connection sys state_sids src src_var dst_str deps binputs = .ok st')
    (hsort : (deps.map Prod.fst).Pairwise (fun a b => strLt a b = true)) :
    st'.1.map Prod.fst = deps.map Prod.fst := by
  rcases add_connection_cases hok with h | ⟨dst, _, _, h⟩
  · rw [h]
  · rw [h]
    exact ac_deps_keys hsort

theorem add_connection_vals {sys : System} {state_sids : List Str} {src : Endpoint}
    {src_var dst_str : Str} {deps binputs : List (Str × List Str)}
    {st' : List (Str × List Str) × List (Str × List Str)}
    (hok : add_connection sys state_sids src src_var dst_str deps binputs = .ok st')
    (hvals : ∀ p ∈ deps, p.2.Pairwise (fun a b => strLt a b = true)) :
    ∀ p ∈ st'.1, p.2.Pairwise (fun a b => strLt a b = true) := by
  rcases add_connection_cases hok with h | ⟨dst, _, _, h⟩
  · rw [h]
    exact hvals
  · rw [h]
    exact ac_deps_vals hvals

theorem add_connection_mono {sys : System} {state_sids : List Str} {src : Endpoint}
    {src_var dst_str : Str} {deps binputs : List (Str × List Str)}
    {st' : List (Str × List Str) × List (Str × List Str)}
    (hok : add_connection sys state_sids src src_var dst_str deps binputs = .ok st') :
    ∀ k x, x ∈ (alLookup k deps).getD [] → x ∈ (alLookup k st'.1).getD [] := by
  rcases add_connection_cases hok with h | ⟨dst, _, _, h⟩
  · rw [h]
    intro k x hx
    exact hx
  · rw [h]
    exact ac_deps_mono

theorem add_connection_adds {sys : System} {state_sids : List Str} {src dst : Endpoint}
    {src_var dst_str : Str} {deps binputs : List (Str × List Str)}
    {st' : List (Str × List Str) × List (Str × List Str)} {u : Block}
    (hok : add_connection sys state_sids src src_var dst_str deps binputs = .ok st')
    (hdst : endpointParse dst_str = .ok (some dst))
    (hcont : alContains dst.blockSid deps = true)
    (hu : sys.find_block_by_sid src.blockSid = some u)
    (hnin : u.is_inport = false)
    (hnstate : ssContains src.blockSid state_sids = false) :
    src.blockSid ∈ (alLookup dst.blockSid st'.1).getD [] := by
  have hguard : (!(match sys.find_block_by_sid src.blockSid with
      | some b => b.is_inport
      | none => false) && !(ssContains src.blockSid state_sids)) = true := by
    rw [hu, hnstate]
    show (!u.is_inport && !false) = true
    rw [hnin]
    rfl
  have hacd : ac_deps sys state_sids src dst deps =
      alInsert dst.blockSid
        (ssInsert src.blockSid ((alLookup dst.blockSid deps).getD [])) deps := by
    unfold ac_deps
    rw [if_pos hcont]
    show (if (!(match sys.find_block_by_sid src.blockSid with
        | some b => b.is_inport
        | none => false) && !(ssContains src.blockSid state_sids)) = true then
        alInsert dst.blockSid
          (ssInsert src.blockSid ((alLookup dst.blockSid deps).getD [])) deps
      else deps) = _
    rw [if_pos hguard]
  unfold add_connection at hok
  rw [hdst] at hok
  have hok2 : (if dst.portIndex < 1 then
      (Except.error () : Except Unit (List (Str × List Str) × List (Str × List Str)))
    else .ok (ac_deps sys state_sids src dst deps, ac_binputs dst src_var binputs))
      = .ok st' := hok
  by_cases hpi : dst.portIndex < 1
  · rw [if_pos hpi] at hok2
    exact Except.noConfusion hok2
  · rw [if_neg hpi] at hok2
    injection hok2 with h2
    have hd : st'.1 = ac_deps sys state_sids src dst deps := by rw [← h2]
    rw [hd, hacd, alLookup_alInsert_self]
    exact mem_ssInsert.mpr (Or.inl rfl)

theorem connStep_decomp {sys : System} {state_sids : List Str} {smap : List (Str × Str)}
    {st st' : List (Str × List Str) × List (Str × List Str)} {conn : Connection}
    (hok : connStep sys state_sids smap st conn = .ok st') :
    (endpointParse conn.source = .ok none ∧ st' = st)
    ∨ ∃ src st1, endpointParse conn.source = .ok (some src)
      ∧ ((conn.destination.isEmpty = true ∧ st1 = st)
        ∨ (conn.destination.isEmpty = false
          ∧ add_connection sys state_sids src
              ((alLookup (src.blockSid ++ str "#out:" ++ intToStr src.portIndex) smap).getD
                (str "0.0f /* unknown */"))
              conn.destination st.1 st.2 = .ok st1))
      ∧ conn.branches.foldlM (fun (st2 : List (Str × List Str) × List (Str × List Str))
          (br : Branch) =>
          add_connection sys state_sids src
            ((alLookup (src.blockSid ++ str "#out:" ++ intToStr src.portIndex) smap).getD
              (str "0.0f /* unknown */"))
            br.destination st2.1 st2.2) st1 = .ok st' := by
  unfold connStep at hok
  cases hps : endpointParse conn.source with
  | error e =>
      cases e
      rw [hps] at hok
      exact Except.noConfusion hok
  | ok o =>
      cases o with
      | none =>
          rw [hps] at hok
          have hok2 : (Except.ok st :
              Except Unit (List (Str × List Str) × List (Str × List Str))) = .ok st' := hok
          injection hok2 with h
          exact Or.inl ⟨rfl, h.symm⟩
      | some src =>
          rw [hps] at hok
          have hok2 : (match (if conn.destination.isEmpty then
              (Except.ok st : Except Unit (List (Str × List Str) × List (Str × List Str)))
            else add_connection sys state_sids src
              ((alLookup (src.blockSid ++ str "#out:" ++ intToStr src.portIndex) smap).getD
                (str "0.0f /* unknown */"))
              conn.destination st.1 st.2) with
            | .error e => (.error e : Except Unit (List (Str × List Str) × List (Str × List Str)))
            | .ok st1 => conn.branches.foldlM
                (fun (st2 : List (Str × List Str) × List (Str × List Str)) (br : Branch) =>
                add_connection sys state_sids src
                  ((alLookup (src.blockSid ++ str "#out:" ++ intToStr src.portIndex) smap).getD
                    (str "0.0f /* unknown */"))
                  br.destination st2.1 st2.2) st1) = .ok st' := hok
          by_cases hemp : conn.destination.isEmpty = true
          · rw [if_pos hemp] at hok2
            have hok3 : conn.branches.foldlM
                (fun (st2 : List (Str × List Str) × List (Str × List Str)) (br : Branch) =>
                add_connection sys state_sids src
                  ((alLookup (src.blockSid ++ str "#out:" ++ intToStr src.portIndex) smap).getD
                    (str "0.0f /* unknown */"))
                  br.destination st2.1 st2.2) st = .ok st' := hok2
            exact Or.inr ⟨src, st, rfl, Or.inl ⟨hemp, rfl⟩, hok3⟩
          · have hempf : conn.destination.isEmpty = false := by
              cases hb : conn.destination.isEmpty
              · rfl
              · exact absurd hb hemp
            rw [if_neg hemp] at hok2
            cases hst1 : add_connection sys state_sids src
                ((alLookup (src.blockSid ++ str "#out:" ++ intToStr src.portIndex) smap).getD
                  (str "0.0f /* unknown */"))
                conn.destination st.1 st.2 with
            | error e =>
                rw [hst1] at hok2
                exact Except.noConfusion hok2
            | ok st1 =>
                rw [hst1] at hok2
                have hok3 : conn.branches.foldlM
                    (fun (st2 : List (Str × List Str) × List (Str × List Str)) (br : Branch) =>
                    add_connection sys state_sids src
                      ((alLookup (src.blockSid ++ str "#out:" ++ intToStr src.portIndex) smap).getD
                        (str "0.0f /* unknown */"))
                      br.destination st2.1 st2.2) st1 = .ok st' := hok2
                exact Or.inr ⟨src, st1, rfl, Or.inr ⟨hempf, hst1⟩, hok3⟩

theorem connStep_pres {sys : System} {state_sids : List Str} {smap : List (Str × Str)}
    {st st' : List (Str × List Str) × List (Str × List Str)} {conn : Connection}
    (hok : connStep sys state_sids smap st conn = .ok st')
    (hsort : (st.1.map Prod.fst).Pairwise (fun a b => strLt a b = true))
    (hvals : ∀ p ∈ st.1, p.2.Pairwise (fun a b => strLt a b = true)) :
    st'.1.map Prod.fst = st.1.map Prod.fst
    ∧ (∀ p ∈ st'.1, p.2.Pairwise (fun a b => strLt a b = true)) := by
  rcases connStep_decomp hok with ⟨_, h⟩ | ⟨src, st1, hsrc, hstep1, hbr⟩
  · rw [h]
    exact ⟨rfl, hvals⟩
  · have hst1p : st1.1.map Prod.fst = st.1.map Prod.fst
        ∧ (∀ p ∈ st1.1, p.2.Pairwise (fun a b => strLt a b = true)) := by
      rcases hstep1 with ⟨_, h1⟩ | ⟨_, h1⟩
      · rw [h1]
        exact ⟨rfl, hvals⟩
      · have hk := add_connection_keys h1 hsort
        have hv := add_connection_vals h1 hvals
        exact ⟨hk, hv⟩
    have hinv := foldlM_except_inv _
      (fun s => s.1.map Prod.fst = st.1.map Prod.fst
        ∧ (∀ p ∈ s.1, p.2.Pairwise (fun a b => strLt a b = true)))
      (fun s br s2 hs hP => by
        have hsort2 : (s.1.map Prod.fst).Pairwise (fun a b => strLt a b = true) := by
          rw [hP.1]
          exact hsort
        have hk := add_connection_keys hs hsort2
        have hv := add_connection_vals hs hP.2
        exact ⟨hk.trans hP.1, hv⟩)
      conn.branches st1 st' hbr hst1p
    exact hinv

theorem connStep_mono {sys : System} {state_sids : List Str} {smap : List (Str × Str)}
    {st st' : List (Str × List Str) × List (Str × List Str)} {conn : Connection}
    (hok : connStep sys state_sids smap st conn = .ok st') :
    ∀ k x, x ∈ (alLookup k st.1).getD [] → x ∈ (alLookup k st'.1).getD [] := by
  rcases connStep_decomp hok with ⟨_, h⟩ | ⟨src, st1, hsrc, hstep1, hbr⟩
  · rw [h]
    intro k x hx
    exact hx
  · intro k x hx
    have hx1 : x ∈ (alLookup k st1.1).getD [] := by
      rcases hstep1 with ⟨_, h1⟩ | ⟨_, h1⟩
      · rw [h1]
        exact hx
      · exact add_connection_mono h1 k x hx
    have hinv := foldlM_except_inv _
      (fun s => x ∈ (alLookup k s.1).getD [])
      (fun s br s2 hs hP => add_connection_mono hs k x hP)
      conn.branches st1 st' hbr hx1
    exact hinv

theorem buildDeps_WF {sys : System} {state_sids : List Str} {smap : List (Str × Str)}
    {deps0 binputs : List (Str × List Str)}
    (hok : buildDepsInputs sys state_sids smap = .ok (deps0, binputs)) :
    deps0.map Prod.fst = (buildDepsInit sys).1.map Prod.fst
    ∧ ((deps0.map Prod.fst).Pairwise (fun a b => strLt a b = true))
    ∧ (∀ p ∈ deps0, p.2.Pairwise (fun a b => strLt a b = true)) := by
  have hinit := initFold_spec sys.blocks ([], []) (by exact List.Pairwise.nil)
    (by intro p hp; cases hp)
  have hisort : ((buildDepsInit sys).1.map Prod.fst).Pairwise
      (fun a b => strLt a b = true) := hinit.1
  have hivals : ∀ p ∈ (buildDepsInit sys).1, p.2 = ([] : List Str) := hinit.2.1
  unfold buildDepsInputs at hok
  have hres := foldlM_except_inv _
    (fun s => s.1.map Prod.fst = (buildDepsInit sys).1.map Prod.fst
      ∧ (∀ p ∈ s.1, p.2.Pairwise (fun a b => strLt a b = true)))
    (fun s c s2 hs hP => by
      have hsort2 : (s.1.map Prod.fst).Pairwise (fun a b => strLt a b = true) := by
        rw [hP.1]
        exact hisort
      have := connStep_pres hs hsort2 hP.2
      exact ⟨this.1.trans hP.1, this.2⟩)
    sys.connections (buildDepsInit sys) (deps0, binputs) hok
    ⟨rfl, by
      intro p hp
      rw [hivals p hp]
      exact List.Pairwise.nil⟩
  refine ⟨hres.1, ?_, hres.2⟩
  rw [hres.1]
  exact hisort

theorem buildDeps_keys_iff {sys : System} {state_sids : List Str} {smap : List (Str × Str)}
    {deps0 binputs : List (Str × List Str)}
    (hok : buildDepsInputs sys state_sids smap = .ok (deps0, binputs)) :
    ∀ x, x ∈ deps0.map Prod.fst ↔
      ∃ blk ∈ sys.blocks, blk.is_inport = false ∧ blk.sid = x := by
  intro x
  have hinit := initFold_spec sys.blocks ([], []) (by exact List.Pairwise.nil)
    (by intro p hp; cases hp)
  have hkeys := (buildDeps_WF hok).1
  rw [hkeys]
  have h3 : ∀ y, y ∈ (buildDepsInit sys).1.map Prod.fst ↔
      (y ∈ (([] : List (Str × List Str)), ([] : List (Str × List Str))).1.map Prod.fst
        ∨ ∃ blk ∈ sys.blocks, blk.is_inport = false ∧ blk.sid = y) := hinit.2.2
  rw [h3 x]
  constructor
  · rintro (h | h)
    · cases h
    · exact h
  · intro h
    exact Or.inr h

theorem buildDeps_edge {sys : System} {state_sids : List Str} {smap : List (Str × Str)}
    {deps0 binputs : List (Str × List Str)} {conn : Connection} {src dst : Endpoint} {u : Block}
    (hok : buildDepsInputs sys state_sids smap = .ok (deps0, binputs))
    (hconn : conn ∈ sys.connections)
    (hsrc : endpointParse conn.source = .ok (some src))
    (hdst : endpointParse conn.destination = .ok (some dst))
    (hcontK : dst.blockSid ∈ deps0.map Prod.fst)
    (hu : sys.find_block_by_sid src.blockSid = some u)
    (hnin : u.is_inport = false)
    (hnstate : ssContains src.blockSid state_sids = false) :
    src.blockSid ∈ (alLookup dst.blockSid deps0).getD [] := by
  obtain ⟨l1, l2, hdecomp⟩ := List.append_of_mem hconn
  unfold buildDepsInputs at hok
  rw [hdecomp] at hok
  obtain ⟨s1, h1, h2⟩ := foldlM_except_append _ l1 (conn :: l2) _ _ hok
  rw [List.foldlM_cons] at h2
  cases hcs : connStep sys state_sids smap s1 conn with
  | error e =>
      cases e
      rw [hcs, exceptBindErr] at h2
      exact Except.noConfusion h2
  | ok s2 =>
      rw [hcs, exceptBindOk] at h2
      have hs1keys : s1.1.map Prod.fst = (buildDepsInit sys).1.map Prod.fst := by
        have hinit := initFold_spec sys.blocks ([], []) (by exact List.Pairwise.nil)
          (by intro p hp; cases hp)
        have := foldlM_except_inv _
          (fun s => s.1.map Prod.fst = (buildDepsInit sys).1.map Prod.fst
            ∧ (∀ p ∈ s.1, p.2.Pairwise (fun a b => strLt a b = true)))
          (fun s c s' hs hP => by
            have hsort2 : (s.1.map Prod.fst).Pairwise (fun a b => strLt a b = true) := by
              rw [hP.1]
              exact hinit.1
            have hh := connStep_pres hs hsort2 hP.2
            exact ⟨hh.1.trans hP.1, hh.2⟩)
          l1 (buildDepsInit sys) s1 h1
          ⟨rfl, by
            intro p hp
            rw [hinit.2.1 p hp]
            exact List.Pairwise.nil⟩
        exact this.1
      have hcont1 : alContains dst.blockSid s1.1 = true := by
        rw [alContains_iff, hs1keys]
        rw [← (buildDeps_WF (by
          show buildDepsInputs sys state_sids smap = .ok (deps0, binputs)
          unfold buildDepsInputs
          rw [hdecomp]
          exact hok)).1]
        exact hcontK
      rcases connStep_decomp hcs with ⟨hnone, hid⟩ | ⟨src2, st1, hsrc2, hstep1, hbr⟩
      · exfalso
        rw [hsrc] at hnone
        exact Option.noConfusion (Except.ok.inj hnone)
      · have hss : src2 = src := by
          rw [hsrc] at hsrc2
          exact (Option.some.inj (Except.ok.inj hsrc2)).symm
        rw [hss] at hstep1 hbr
        have hmem1 : src.blockSid ∈ (alLookup dst.blockSid st1.1).getD [] := by
          rcases hstep1 with ⟨hemp, _⟩ | ⟨_, hadd⟩
          · exfalso
            have hdnil : conn.destination = [] := List.isEmpty_iff.mp (by rw [hemp])
            rw [hdnil] at hdst
            have hdst2 : (Except.ok (none : Option Endpoint) :
                Except Unit (Option Endpoint)) = .ok (some dst) := hdst
            exact Option.noConfusion (Except.ok.inj hdst2)
          · exact add_connection_adds hadd hdst hcont1 hu hnin hnstate
        have hmem2 : src.blockSid ∈ (alLookup dst.blockSid s2.1).getD [] := by
          have := foldlM_except_inv _
            (fun s => src.blockSid ∈ (alLookup dst.blockSid s.1).getD [])
            (fun s br s' hs hP =>
              add_connection_mono hs dst.blockSid src.blockSid hP)
            conn.branches st1 s2 hbr hmem1
          exact this
        have hfinal := foldlM_except_inv _
          (fun s => src.blockSid ∈ (alLookup dst.blockSid s.1).getD [])
          (fun s c s' hs hP => connStep_mono hs dst.blockSid src.blockSid hP)
          l2 s2 (deps0, binputs) h2 hmem2
        exact hfinal

theorem realDep_of_block {sys : System} {blk : Block}
    (hnd : (sys.blocks.map Block.sid).Nodup) (hblk : blk ∈ sys.blocks)
    (hnin : blk.is_inport = false) : realDep sys blk.sid = true := by
  unfold realDep
  rw [find_block_by_sid_of_nodup hnd hblk]
  show (!blk.is_inport) = true
  rw [hnin]
  rfl

theorem block_of_realDep {sys : System} {d : Str}
    (h : realDep sys d = true) :
    ∃ b ∈ sys.blocks, b.sid = d ∧ b.is_inport = false := by
  unfold realDep at h
  cases hf : sys.find_block_by_sid d with
  | none =>
      rw [hf] at h
      cases h
  | some b =>
      rw [hf] at h
      have h2 : (!b.is_inport) = true := h
      have h3 : b.is_inport = false := by
        cases hb : b.is_inport
        · rfl
        · rw [hb] at h2
          cases h2
      obtain ⟨hmem, hsid⟩ := find_block_by_sid_mem hf
      exact ⟨b, hmem, hsid, h3⟩

theorem str_count_eq_one_of_mem : ∀ {l : List Str} {a : Str},
    l.Nodup → a ∈ l → l.count a = 1 := by
  intro l
  induction l with
  | nil =>
      intro a _ h
      cases h
  | cons b t ih =>
      intro a hnd ha
      rw [List.nodup_cons] at hnd
      rcases List.mem_cons.mp ha with h | h
      · subst h
        rw [List.count_cons_self]
        have hz : t.count a = 0 := List.count_eq_zero.mpr hnd.1
        rw [hz]
      · rw [List.count_cons_of_ne (fun hEq => hnd.1 (by rw [← hEq]; exact h))]
        exact ih hnd.2 h

/-- C4: for every system whose block SIDs are unique and whose built
    dependency graph admits a rank function decreasing along real
    (non-Inport, existing-block) dependency edges - the code's notion of a
    well-formed, acyclic-after-state-breaking system - the scheduler's
    order `kahnSort` contains every non-Inport block's SID exactly once,
    contains only non-Inport block SIDs, and for every connection whose
    parsed source endpoint names a non-Inport, non-stateful block u and
    whose parsed destination endpoint names a non-Inport block v, u's SID
    is emitted strictly before v's SID. -/
theorem claimC4_topological_order (sys : System) (smap : List (Str × Str))
    (deps0 binputs : List (Str × List Str)) (rk : Str → Nat)
    (hok : buildDepsInputs sys (buildStateSids sys) smap = .ok (deps0, binputs))
    (hnd : (sys.blocks.map Block.sid).Nodup)
    (hrank : ∀ p ∈ deps0, ∀ d ∈ p.2, realDep sys d = true → rk d < rk p.1) :
    (∀ blk ∈ sys.blocks, blk.is_inport = false → (kahnSort deps0 sys).count blk.sid = 1)
    ∧ (∀ s ∈ kahnSort deps0 sys, ∃ blk ∈ sys.blocks, blk.sid = s ∧ blk.is_inport = false)
    ∧ (∀ conn ∈ sys.connections, ∀ src dst u v,
        endpointParse conn.source = .ok (some src) →
        endpointParse conn.destination = .ok (some dst) →
        sys.find_block_by_sid src.blockSid = some u →
        u.is_inport = false →
        ssContains src.blockSid (buildStateSids sys) = false →
        v ∈ sys.blocks → v.sid = dst.blockSid → v.is_inport = false →
        ∀ pre post, kahnSort deps0 sys = pre ++ dst.blockSid :: post →
          src.blockSid ∈ pre) := by
  obtain ⟨hkeys0, hsorted, hds0⟩ := buildDeps_WF hok
  have hkeys_iff := buildDeps_keys_iff hok
  have hK0nd : (deps0.map Prod.fst).Nodup := nodup_of_pairwise_strLt hsorted
  have hentry0 : ∀ k ∈ deps0.map Prod.fst, (k, (alLookup k deps0).getD []) ∈ deps0 := by
    intro k hk
    obtain ⟨p, hp, hpk⟩ := List.mem_map.mp hk
    have hlook : alLookup k deps0 = some p.2 := by
      rw [← hpk]
      exact alLookup_eq_of_mem_nodup hK0nd hp
    rw [hlook]
    have h2 : (p.1, p.2) ∈ deps0 := hp
    exact hpk ▸ h2
  have hKreal : ∀ k ∈ deps0.map Prod.fst, realDep sys k = true := by
    intro k hk
    obtain ⟨blk, hblk, hnin, hsid⟩ := (hkeys_iff k).mp hk
    rw [← hsid]
    exact realDep_of_block hnd hblk hnin
  have hRK : ∀ d, realDep sys d = true → d ∈ deps0.map Prod.fst := by
    intro d hd
    obtain ⟨b, hb, hsid, hnin⟩ := block_of_realDep hd
    exact (hkeys_iff d).mpr ⟨b, hb, hnin, hsid⟩
  have hrank' : ∀ k ∈ deps0.map Prod.fst, ∀ d ∈ (alLookup k deps0).getD [],
      realDep sys d = true → rk d < rk k := by
    intro k hk d hd hreal
    exact hrank (k, (alLookup k deps0).getD []) (hentry0 k hk) d hd hreal
  obtain ⟨c1, c2, c3, c4⟩ := kahnSort_spec sys deps0 rk hsorted hds0 hKreal hRK hrank'
  refine ⟨?_, ?_, ?_⟩
  · intro blk hblk hnin
    have hkK : blk.sid ∈ deps0.map Prod.fst := (hkeys_iff blk.sid).mpr ⟨blk, hblk, hnin, rfl⟩
    exact str_count_eq_one_of_mem c1 (c3 blk.sid hkK)
  · intro s hs
    obtain ⟨blk, hblk, hnin, hsid⟩ := (hkeys_iff s).mp (c2 s hs)
    exact ⟨blk, hblk, hsid, hnin⟩
  · intro conn hconn src dst u v hsrc hdst hu hnin hnstate hv hvsid hvnin pre post hEq
    have hdstK : dst.blockSid ∈ deps0.map Prod.fst :=
      (hkeys_iff dst.blockSid).mpr ⟨v, hv, hvnin, hvsid⟩
    have hedge := buildDeps_edge hok hconn hsrc hdst hdstK hu hnin hnstate
    have hsrcreal : realDep sys src.blockSid = true := by
      unfold realDep
      rw [hu]
      show (!u.is_inport) = true
      rw [hnin]
      rfl
    exact c4 dst.blockSid pre post hEq src.blockSid hedge hsrcreal

set_option maxRecDepth 4000 in
theorem claimC4_witness :
    (kahnSort c4deps c4sys).count (str "2") = 1
    ∧ str "2" ∈ [str "2"]
    ∧ kahnSort c4deps c4sys = [str "2"] ++ str "3" :: [str "4"] := by
  have h := claimC4_topological_order c4sys [] c4deps c4binputs c4rk (by decide) (by decide)
    (by decide)
  refine ⟨?_, ?_, ?_⟩
  · exact h.1 { type := str "Gain", name := str "G1", sid := str "2" } (by decide) (by decide)
  · exact h.2.2 { source := str "2#out:1", destination := str "3#in:1" } (by decide)
      { blockSid := str "2", portType := str "out", portIndex := 1 }
      { blockSid := str "3", portType := str "in", portIndex := 1 }
      { type := str "Gain", name := str "G1", sid := str "2" }
      { type := str "Gain", name := str "G2", sid := str "3" }
      (by decide) (by decide) (by decide) (by decide) (by decide) (by decide) (by decide)
      (by decide) [str "2"] [str "4"] (by decide)
  · decide

theorem getLastD_line_ge {t : OCTok} :
    ∀ {ts : List OCTok}, List.Chain' (fun a b => a.line ≤ b.line) (t :: ts) →
      t.line ≤ (ts.getLastD t).line := by
  intro ts
  induction ts generalizing t with
  | nil => intro _; exact Nat.le_refl _
  | cons u us ih =>
      intro h
      rw [List.chain'_cons] at h
      rw [List.getLastD_cons]
      exact Nat.le_trans h.1 (ih h.2)

theorem reconCore_newlines :
    ∀ (ts : List OCTok) (prev : OCTok),
    List.Chain' (fun a b => a.line ≤ b.line) (prev :: ts) →
    (∀ t ∈ ts, '\n' ∉ t.text) →
    (reconCore prev ts).count '\n' = (ts.getLastD prev).line - prev.line := by
  intro ts
  induction ts with
  | nil =>
      intro prev _ _
      simp [reconCore]
  | cons t ts ih =>
      intro prev hch hnl
      rw [List.chain'_cons] at hch
      unfold reconCore
      rw [List.count_append, List.count_append]
      have htext : t.text.count '\n' = 0 := List.count_eq_zero.mpr (hnl t (by simp))
      have hsep : (tokSep prev t).count '\n' = t.line - prev.line := by
        unfold tokSep
        by_cases h1 : t.line > prev.line
        · rw [if_pos h1, List.count_append, List.count_replicate_self,
              List.count_replicate]
          simp
        · rw [if_neg h1]
          have hEq : t.line = prev.line := Nat.le_antisymm (Nat.le_of_not_lt h1) hch.1
          by_cases h2 : t.col > prev.col + prev.text.length
          · rw [if_pos h2, List.count_replicate]
            simp [hEq]
          · rw [if_neg h2]
            simp [hEq, List.count_cons]
      rw [hsep, htext, ih t hch.2 (fun u hu => hnl u (by simp [hu]))]
      rw [List.getLastD_cons]
      have h1 : prev.line ≤ t.line := hch.1
      have h2 : t.line ≤ (ts.getLastD t).line := getLastD_line_ge hch.2
      omega

theorem eubBody_prefix : ∀ (d : Int) (ls : List Str), eubBody d ls <+: ls := by
  intro d ls
  induction ls generalizing d with
  | nil => exact List.nil_prefix
  | cons l ls ih =>
      unfold eubBody
      by_cases h : d + braceDelta l ≤ 0
      · rw [if_pos h]
        exact List.nil_prefix
      · rw [if_neg h]
        obtain ⟨t, ht⟩ := ih (d + braceDelta l)
        exact ⟨t, by rw [List.cons_append, ht]⟩

theorem eubSeekUpdate_within : ∀ (d : Int) (ls : List Str),
    eubSeekUpdate d ls <:+: ls := by
  intro d ls
  induction ls generalizing d with
  | nil => exact List.nil_infix
  | cons l ls ih =>
      unfold eubSeekUpdate
      by_cases h : (startsWith (str "update \x7b") (trimStr l)
          || startsWith (str "update\x7b") (trimStr l)
          || decide (trimStr l = str "update")) = true
      · rw [if_pos h]
        obtain ⟨t, ht⟩ := eubBody_prefix 1 ls
        exact ⟨[l], t, by rw [List.append_assoc, ht, List.singleton_append]⟩
      · rw [if_neg h]
        exact List.infix_cons (ih _)

theorem eubSeekEntity_within (kind name : Str) : ∀ (ls : List Str),
    eubSeekEntity kind name ls <:+: ls := by
  intro ls
  induction ls with
  | nil => exact List.nil_infix
  | cons l ls ih =>
      unfold eubSeekEntity
      by_cases h : (startsWith (kind ++ [' '] ++ name ++ str " \x7b") (trimStr l)
          || startsWith (kind ++ [' '] ++ name ++ str "\x7b") (trimStr l)
          || decide (trimStr l = kind ++ [' '] ++ name)) = true
      · rw [if_pos h]
        exact List.infix_cons ((eubSeekUpdate_within _ ls).trans (List.infix_refl ls))
      · rw [if_neg h]
        exact List.infix_cons ih

/-- C6: amended update-body statement.  The parser does not keep the body
    verbatim (the tokenizer drops comments and the reconstruction rejoins
    adjacent tokens with an inserted space, see the counterexample); what
    the token reconstruction of `parse_update` does preserve is the line
    structure: on a token slice whose recorded lines are monotone and
    whose texts are newline-free (as the lexer produces), each consecutive
    separator carries exactly the recorded line offset, so the whole body
    reconstruction emits exactly last-line minus start-line newlines and a
    line-by-line scan sees every surviving token on its original line.
    And the reverse lifter does not scan `raw_code` at all: its
    `extract_update_body` re-reads the raw source, and its result is a
    contiguous run of the source's own lines - verbatim, comments
    included. -/
theorem claimC6_update_body :
    (∀ (prev : OCTok) (ts : List OCTok),
      List.Chain' (fun a b => a.line ≤ b.line) (prev :: ts) →
      (∀ t ∈ ts, '\n' ∉ t.text) →
      (reconCore prev ts).count '\n' = (ts.getLastD prev).line - prev.line)
    ∧ (∀ raw_source entity_name entity_kind : Str,
      extract_update_body raw_source entity_name entity_kind <:+: getLines raw_source) :=
  ⟨fun prev ts hch hnl => reconCore_newlines ts prev hch hnl,
   fun src name kind => eubSeekEntity_within kind name (getLines src)⟩

set_option maxRecDepth 8000 in
theorem claimC6_witness :
    (reconCore { kind := .lbrace, text := ['\x7b'], line := 3, col := 8 }
        [{ kind := .identifier, text := str "x", line := 4, col := 1 },
         { kind := .semicolon, text := str ";", line := 5, col := 1 }]).count '\n' = 2
    ∧ extract_update_body c6src (str "ctl") (str "element") <:+: getLines c6src := by
  constructor
  · exact claimC6_update_body.1
      { kind := .lbrace, text := ['\x7b'], line := 3, col := 8 }
      [{ kind := .identifier, text := str "x", line := 4, col := 1 },
       { kind := .semicolon, text := str ";", line := 5, col := 1 }]
      (List.chain'_cons.mpr ⟨by decide, List.chain'_cons.mpr ⟨by decide,
        List.chain'_singleton _⟩⟩) (by decide)
  · exact claimC6_update_body.2 c6src (str "ctl") (str "element")

set_option maxRecDepth 8000 in
theorem claimC6_counterexample :
    (oc_parse c6src).2 = 0
    ∧ c6raw = str "\nx = cfg . a ;\ny = f ( x ) ;"
    ∧ c6raw ≠ str "\nx = cfg.a; // gain\ny = f(x);\n"
    ∧ extract_update_body c6src (str "ctl") (str "element") =
        [str "x = cfg.a; // gain", str "y = f(x);"]
    ∧ containsSub c6raw (str "//") = false := by
  refine ⟨rfl, rfl, by decide, rfl, rfl⟩

end OC
